import Mathlib

/-!
# Batch renderer of the Maya plugin (`pxrUsdMayaGL/batchRenderer.cpp`)

A shallow embedding of `UsdMayaGLBatchRenderer`: the shape adapter buckets and
the secondary handle maps, the frame-stamp gates and the selection cache, with
explicit state passing.  Containers of the standard library are lists without
duplicates whose order is the iteration order; pointers to shape adapters are
addresses (natural numbers); the null pointer is `none`.
-/

/-! ## Containers -/

/-- The container `std::unordered_set<T>`: the elements in iteration order, pairwise distinct. -/
structure UnorderedSet (α : Type) where
  elems : List α
  nodup : elems.Nodup
deriving DecidableEq

namespace UnorderedSet

variable {α : Type} [DecidableEq α]

/-- The default constructed (empty) set. -/
def empty : UnorderedSet α := ⟨[], List.nodup_nil⟩

/-- The set built from the initializer list `{a}`. -/
def singleton (a : α) : UnorderedSet α := ⟨[a], List.nodup_singleton a⟩

/-- The test `s.find(a) != s.end()`. -/
def contains (s : UnorderedSet α) (a : α) : Bool := decide (a ∈ s.elems)

/-- The call `s.insert(a)`: nothing happens when `a` is already an element. -/
def insert (s : UnorderedSet α) (a : α) : UnorderedSet α :=
  if h : a ∈ s.elems then s else ⟨a :: s.elems, List.nodup_cons.mpr ⟨h, s.nodup⟩⟩

/-- The set left by `s.erase(a)`. -/
def erase (s : UnorderedSet α) (a : α) : UnorderedSet α :=
  ⟨s.elems.filter (fun x => decide (x ≠ a)), s.nodup.filter _⟩

/-- The value returned by `s.erase(a)`: the number of elements erased. -/
def eraseCount (s : UnorderedSet α) (a : α) : Nat := if a ∈ s.elems then 1 else 0

/-- The test `s.empty()`. -/
def isEmpty (s : UnorderedSet α) : Bool := s.elems.isEmpty

/-- The value `s.size()`. -/
def size (s : UnorderedSet α) : Nat := s.elems.length

end UnorderedSet

/-- The container `std::unordered_map<K, V>`: the entries in iteration order, keys pairwise
distinct. -/
structure UnorderedMap (K V : Type) where
  entries : List (K × V)
  nodupKeys : (entries.map Prod.fst).Nodup
deriving DecidableEq

namespace UnorderedMap

variable {K V : Type} [DecidableEq K]

/-- The default constructed (empty) map. -/
def empty : UnorderedMap K V := ⟨[], List.nodup_nil⟩

/-- The lookup `m.find(k)`: `none` stands for `m.end()`. -/
def find (m : UnorderedMap K V) (k : K) : Option V :=
  (m.entries.find? (fun e => decide (e.1 = k))).map Prod.snd

/-- The call `m.erase(k)`. -/
def erase (m : UnorderedMap K V) (k : K) : UnorderedMap K V :=
  ⟨m.entries.filter (fun e => decide (e.1 ≠ k)),
    m.nodupKeys.sublist ((List.filter_sublist m.entries).map Prod.fst)⟩

/-- The value returned by `m.erase(k)`: the number of entries erased. -/
def eraseCount (m : UnorderedMap K V) (k : K) : Nat :=
  if (m.find k).isSome then 1 else 0

/-- The assignment `m[k] = v`: the value of an existing entry is replaced in place, a new entry
is put in front of the others. -/
def set (m : UnorderedMap K V) (k : K) (v : V) : UnorderedMap K V :=
  if h : k ∈ m.entries.map Prod.fst then
    ⟨m.entries.map (fun e => if e.1 = k then (k, v) else e), by
      have hk : (m.entries.map (fun e => if e.1 = k then (k, v) else e)).map Prod.fst
          = m.entries.map Prod.fst := by
        rw [List.map_map]
        apply List.map_congr_left
        intro e _
        by_cases he : e.1 = k <;> simp [he]
      rw [hk]
      exact m.nodupKeys⟩
  else
    ⟨(k, v) :: m.entries, List.nodup_cons.mpr ⟨h, m.nodupKeys⟩⟩

/-- The call `m.emplace(std::make_pair(k, v))`: a new entry is made only when the key is absent;
the flag tells whether the entry was made. -/
def emplace (m : UnorderedMap K V) (k : K) (v : V) : UnorderedMap K V × Bool :=
  if h : k ∈ m.entries.map Prod.fst then (m, false)
  else (⟨(k, v) :: m.entries, List.nodup_cons.mpr ⟨h, m.nodupKeys⟩⟩, true)

/-- The statement `g(m[k])` for a `g` that changes its argument in place: `m[k]` is the value
of the entry of `k`, which is made with the default value `dflt` when the key is absent. -/
def update (m : UnorderedMap K V) (k : K) (dflt : V) (g : V → V) : UnorderedMap K V :=
  match m.find k with
  | some v => m.set k (g v)
  | none => m.set k (g dflt)

/-- The test `m.empty()`. -/
def isEmpty (m : UnorderedMap K V) : Bool := m.entries.isEmpty

/-- The value `m.size()`. -/
def size (m : UnorderedMap K V) : Nat := m.entries.length

/-- One pass of `for (auto& iter : m)` over a list of entries: the body `f` reads the local
variables `σ`, the key and the value of the entry, and gives the new local variables and the
value left in the entry.  The keys are not touched. -/
def forEachAux {σ : Type} (f : σ → K → V → σ × V) :
    (l : List (K × V)) → σ → σ × { r : List (K × V) // r.map Prod.fst = l.map Prod.fst }
  | [], st => (st, ⟨[], rfl⟩)
  | (k, v) :: rest, st =>
    let r := f st k v
    let r2 := forEachAux f rest r.1
    (r2.1, ⟨(k, r.2) :: r2.2.1, by simp [r2.2.2]⟩)

/-- The loop `for (auto& iter : m) { ... }` whose body may change the value of the entry and
the local variables `σ`. -/
def forEach {σ : Type} (m : UnorderedMap K V) (f : σ → K → V → σ × V) (init : σ) :
    σ × UnorderedMap K V :=
  let r := forEachAux f m.entries init
  (r.1, ⟨r.2.1, by rw [r.2.2]; exact m.nodupKeys⟩)

end UnorderedMap

/-! ## Values of the imaging library and of Maya -/

/-- A token (`TfToken`). -/
abbrev TfToken := String

/-- A scene path (`SdfPath`): the names of its elements.  The empty path, for which `IsEmpty()`
holds, has none. -/
abbrev SdfPath := List String

/-- A matrix (`GfMatrix4d`), a value that is only carried along. -/
abbrev GfMatrix4d := List Int

/-- A collection of rprims (`HdRprimCollection`). -/
structure HdRprimCollection where
  name : TfToken
  reprName : TfToken
  rootPaths : List SdfPath
  renderTags : List TfToken
deriving DecidableEq, Repr

/-- Modelled from the spec: the render params of a shape (`renderParams.h` is not among the
sources), "a value-equal, hashable descriptor of the rendering configuration (shading style,
color, wireframe, curve basis, etc.)"; `customBucketName` is the field the batch renderer
writes.  The hash `Hash()` of the params is a parameter of the operations below. -/
structure PxrMayaHdRenderParams where
  shadingStyle : Nat
  color : Nat
  wireframe : Bool
  curveBasis : Nat
  customBucketName : TfToken
deriving DecidableEq, Repr

/-- What the batch renderer reads through a `PxrMayaHdShapeAdapter*`: the address of the object
(its identity in the buckets and in the handle maps) and the values its member functions
return at the time of the call. -/
structure PxrMayaHdShapeAdapter where
  /-- The pointer value. -/
  addr : Nat
  /-- The value of `IsViewport2()`. -/
  isViewport2 : Bool
  /-- The value of `GetRenderParams(nullptr, nullptr)`. -/
  renderParams : PxrMayaHdRenderParams
  /-- The handle `MObjectHandle(GetDagPath().node())`. -/
  dagNode : Nat
  /-- The value of `GetRprimCollection()`. -/
  rprimCollection : HdRprimCollection
  /-- The value of `GetDelegateID()`. -/
  delegateId : SdfPath
deriving DecidableEq, Repr

/-- A hit of an intersection query (`HdxIntersector::Hit`); the depth is an ordering key. -/
structure Hit where
  delegateId : SdfPath
  objectId : SdfPath
  instancerId : SdfPath
  instanceIndex : Int
  elementIndex : Int
  worldSpaceHitPoint : Int × Int × Int
  ndcDepth : Int
deriving DecidableEq, Repr

/-- The set of hits `HdxIntersector::HitSet`, an unordered set of hits under the hash and the
equality functor of the intersection library (`Hit::HitSetHash`, `Hit::HitSetEq`, not among the
sources): the hits in iteration order. -/
structure HitSet where
  elems : List Hit
deriving DecidableEq, Repr

namespace HitSet

/-- The default constructed (empty) set. -/
def empty : HitSet := ⟨[]⟩

/-- The set built from the initializer list `{hit}`. -/
def singleton (hit : Hit) : HitSet := ⟨[hit]⟩

/-- The call `set.insert(hit)`: nothing happens when the set holds a hit that the equality
functor `HitSetEq` takes for equal to `hit`. -/
def insert (HitSetEq : Hit → Hit → Bool) (set : HitSet) (hit : Hit) : HitSet :=
  if set.elems.any (fun h => HitSetEq h hit) then set else ⟨hit :: set.elems⟩

/-- The test `set.empty()`. -/
def isEmpty (set : HitSet) : Bool := set.elems.isEmpty

end HitSet

/-- The parameters of a query (`HdxIntersector::Params`). -/
structure HdxIntersectorParams where
  viewMatrix : GfMatrix4d
  projectionMatrix : GfMatrix4d
  /-- The threshold in tenths: `0.1f` is `1`. -/
  alphaThreshold : Nat
  renderTags : List TfToken
deriving DecidableEq, Repr

/-- The intersection engine (`HdxIntersector` with its `Result`), an outside collaborator: the
query at the resolution set before it either fails or gives a result, from which the nearest
hit and the unique hits are resolved, each of which may fail too. -/
structure HdxIntersector where
  /-- The raw result of a query. -/
  Result : Type
  /-- The call `Query(params, collection, engine, &result)` at a resolution. -/
  Query : Nat × Nat → HdxIntersectorParams → HdRprimCollection → Option Result
  /-- The call `result.ResolveNearest(&hit)`. -/
  ResolveNearest : Result → Option Hit
  /-- The call `result.ResolveUnique(&hits)`: the hits it adds to the set. -/
  ResolveUnique : Result → Option (List Hit)
  /-- The equality functor `Hit::HitSetEq` of the hit sets. -/
  HitSetEq : Hit → Hit → Bool

/-- An entry of the selection handed to the selection tracker (`HdSelection`). -/
inductive HdSelectionEntry where
  | AddRprim (objectId : SdfPath)
  | AddInstance (objectId : SdfPath) (instanceIndices : List Int)
deriving DecidableEq, Repr

/-! ## The batch renderer -/

/-- The set of shape adapters of a bucket (`_ShapeAdapterSet`), a set of pointers. -/
abbrev _ShapeAdapterSet := UnorderedSet Nat

/-- A bucket (`_ShapeAdapterBucket`): the render params and the shape adapters drawn with
them. -/
abbrev _ShapeAdapterBucket := PxrMayaHdRenderParams × _ShapeAdapterSet

/-- The buckets by the hash of their render params (`_ShapeAdapterBucketsMap`). -/
abbrev _ShapeAdapterBucketsMap := UnorderedMap Nat _ShapeAdapterBucket

/-- The shape adapters by the handle of their DAG node (`_ShapeAdapterHandleMap`). -/
abbrev _ShapeAdapterHandleMap := UnorderedMap Nat Nat

/-- The data members of `UsdMayaGLBatchRenderer`. -/
structure UsdMayaGLBatchRenderer where
  _shapeAdapterBuckets : _ShapeAdapterBucketsMap
  _legacyShapeAdapterBuckets : _ShapeAdapterBucketsMap
  _shapeAdapterHandleMap : _ShapeAdapterHandleMap
  _legacyShapeAdapterHandleMap : _ShapeAdapterHandleMap
  _lastRenderFrameStamp : Nat
  _lastSelectionFrameStamp : Nat
  _legacyRenderPending : Bool
  _legacySelectionPending : Bool
  _objectSoftSelectEnabled : Bool
  _viewport2UsesLegacySelection : Bool
  _drawnMayaRenderPasses : UnorderedSet String
  _selectResults : UnorderedMap SdfPath HitSet
  /-- The selection last given to `_selectionTracker->SetSelection`. -/
  _selectionTracker : List HdSelectionEntry
  /-- The resolution last given to `_intersector->SetResolution`. -/
  _intersectorResolution : Nat × Nat
  /-- Whether `_renderIndex` is set. -/
  _renderIndex : Bool
  /-- Whether `_sharedDiagBatchCtx` is set. -/
  _sharedDiagBatchCtx : Bool
  /-- Whether `_softSelectHelper` is populated. -/
  _softSelectHelper : Bool
  _rootId : SdfPath
  _legacyViewportPrefix : SdfPath
  _viewport2Prefix : SdfPath
  _legacyViewportRprimCollection : HdRprimCollection
  _viewport2RprimCollection : HdRprimCollection
deriving DecidableEq

namespace UsdMayaGLBatchRenderer

/-- The state left by the constructor.  `MAYA_VP2_USE_VP1_SELECTION` is the value of the
environment variable of that name, `renderIndexCreated` tells whether `HdRenderIndex::New` gave
an index, `objectSoftSelect` is what `_OnSoftSelectOptionsChangedCallback` finds. -/
def new (MAYA_VP2_USE_VP1_SELECTION renderIndexCreated objectSoftSelect : Bool) :
    UsdMayaGLBatchRenderer :=
  let _rootId : SdfPath := ["MayaHdBatchRenderer"]
  let _legacyViewportPrefix := _rootId ++ ["LegacyViewport"]
  let _viewport2Prefix := _rootId ++ ["Viewport2"]
  let unset : HdRprimCollection := ⟨"", "", [], []⟩
  let renderTags : List TfToken := ["geometry", "proxy"]
  { _shapeAdapterBuckets := UnorderedMap.empty
    _legacyShapeAdapterBuckets := UnorderedMap.empty
    _shapeAdapterHandleMap := UnorderedMap.empty
    _legacyShapeAdapterHandleMap := UnorderedMap.empty
    _lastRenderFrameStamp := 0
    _lastSelectionFrameStamp := 0
    _legacyRenderPending := false
    _legacySelectionPending := false
    _objectSoftSelectEnabled := renderIndexCreated && objectSoftSelect
    _viewport2UsesLegacySelection := MAYA_VP2_USE_VP1_SELECTION
    _drawnMayaRenderPasses := UnorderedSet.empty
    _selectResults := UnorderedMap.empty
    _selectionTracker := []
    _intersectorResolution := (0, 0)
    _renderIndex := renderIndexCreated
    _sharedDiagBatchCtx := false
    _softSelectHelper := false
    _rootId := _rootId
    _legacyViewportPrefix := _legacyViewportPrefix
    _viewport2Prefix := _viewport2Prefix
    _legacyViewportRprimCollection :=
      if renderIndexCreated then
        ⟨"MayaHdBatchRenderer_LegacyViewport", "refined", [_legacyViewportPrefix], renderTags⟩
      else unset
    _viewport2RprimCollection :=
      if renderIndexCreated then
        ⟨"MayaHdBatchRenderer_Viewport2", "refined", [_viewport2Prefix], renderTags⟩
      else unset }

/-- The map the reference `bucketsMap = isViewport2 ? _shapeAdapterBuckets :
_legacyShapeAdapterBuckets` stands for. -/
def bucketsMap (self : UsdMayaGLBatchRenderer) (isViewport2 : Bool) : _ShapeAdapterBucketsMap :=
  if isViewport2 then self._shapeAdapterBuckets else self._legacyShapeAdapterBuckets

/-- A write through the reference `bucketsMap`. -/
def setBucketsMap (self : UsdMayaGLBatchRenderer) (isViewport2 : Bool)
    (m : _ShapeAdapterBucketsMap) : UsdMayaGLBatchRenderer :=
  if isViewport2 then { self with _shapeAdapterBuckets := m }
  else { self with _legacyShapeAdapterBuckets := m }

/-- The map the reference `handleMap = isViewport2 ? _shapeAdapterHandleMap :
_legacyShapeAdapterHandleMap` stands for. -/
def handleMap (self : UsdMayaGLBatchRenderer) (isViewport2 : Bool) : _ShapeAdapterHandleMap :=
  if isViewport2 then self._shapeAdapterHandleMap else self._legacyShapeAdapterHandleMap

/-- A write through the reference `handleMap`. -/
def setHandleMap (self : UsdMayaGLBatchRenderer) (isViewport2 : Bool)
    (m : _ShapeAdapterHandleMap) : UsdMayaGLBatchRenderer :=
  if isViewport2 then { self with _shapeAdapterHandleMap := m }
  else { self with _legacyShapeAdapterHandleMap := m }

/-- The body of the loop of `RemoveShapeAdapter` over the buckets: the local variables are
`numErased` and `emptyBucketHashes`. -/
def removeFromBucket (shapeAdapter : Nat) (locals : Nat × List Nat) (renderParamsHash : Nat)
    (bucket : _ShapeAdapterBucket) : (Nat × List Nat) × _ShapeAdapterBucket :=
  let numErased := locals.1 + bucket.2.eraseCount shapeAdapter
  let shapeAdapters := bucket.2.erase shapeAdapter
  let emptyBucketHashes :=
    if shapeAdapters.isEmpty then locals.2 ++ [renderParamsHash] else locals.2
  ((numErased, emptyBucketHashes), (bucket.1, shapeAdapters))

/-- The two loops of `RemoveShapeAdapter` on the bucket map `bucketsMap`: the shape adapter is
erased from the set of every bucket, then the buckets found empty are erased from the map.
The result is `numErased` and the map left. -/
def eraseFromBuckets (bucketsMap : _ShapeAdapterBucketsMap) (shapeAdapter : Nat) :
    Nat × _ShapeAdapterBucketsMap :=
  let loop := bucketsMap.forEach (removeFromBucket shapeAdapter) (0, [])
  let numErased := loop.1.1
  let emptyBucketHashes := loop.1.2
  -- Remove any empty buckets.
  (numErased,
    emptyBucketHashes.foldl (fun m renderParamsHash => m.erase renderParamsHash) loop.2)

/-- The function `UsdMayaGLBatchRenderer::RemoveShapeAdapter`: the value returned and the state
left. -/
def RemoveShapeAdapter (self : UsdMayaGLBatchRenderer)
    (shapeAdapter : Option PxrMayaHdShapeAdapter) : Bool × UsdMayaGLBatchRenderer :=
  match shapeAdapter with
  | none => (false, self)
  | some a =>
    let isViewport2 := a.isViewport2
    -- Remove shape adapter from its bucket in the bucket map.
    let erased := eraseFromBuckets (self.bucketsMap isViewport2) a.addr
    let numErased := erased.1
    let self1 := self.setBucketsMap isViewport2 erased.2
    -- Remove shape adapter from the secondary DAG path map.
    let self2 := self1.setHandleMap isViewport2 ((self1.handleMap isViewport2).erase a.dagNode)
    (decide (numErased > 0), self2)

/-- The function `UsdMayaGLBatchRenderer::AddShapeAdapter`: the value returned and the state
left.  `Hash` is `PxrMayaHdRenderParams::Hash`.  The result is `none` where the C++ code
writes through the reference `shapeAdapters` into a bucket that the inner call of
`RemoveShapeAdapter` has erased from the map (undefined behaviour). -/
def AddShapeAdapter (Hash : PxrMayaHdRenderParams → Nat) (self : UsdMayaGLBatchRenderer)
    (shapeAdapter : Option PxrMayaHdShapeAdapter) :
    Option (Bool × UsdMayaGLBatchRenderer) :=
  match shapeAdapter with
  | none => some (false, self)
  | some a =>
    let isViewport2 := a.isViewport2
    let renderParams := a.renderParams
    let renderParamsHash := Hash renderParams
    let addToHandleMap := fun (s : UsdMayaGLBatchRenderer) =>
      s.setHandleMap isViewport2 ((s.handleMap isViewport2).set a.dagNode a.addr)
    match (self.bucketsMap isViewport2).find renderParamsHash with
    | none =>
      -- No bucket for this render param combination: make sure that the shape adapter is
      -- not in any other bucket, then create the bucket.
      let self1 := (self.RemoveShapeAdapter shapeAdapter).2
      let self2 := self1.setBucketsMap isViewport2
        ((self1.bucketsMap isViewport2).set renderParamsHash
          (renderParams, UnorderedSet.singleton a.addr))
      some (true, addToHandleMap self2)
    | some bucket =>
      if bucket.2.contains a.addr then
        -- Already in this bucket.
        some (false, self)
      else
        -- Remove it from any other bucket it may be in before adding it to this one.
        let self1 := (self.RemoveShapeAdapter shapeAdapter).2
        match (self1.bucketsMap isViewport2).find renderParamsHash with
        | none => none
        | some bucket1 =>
          let self2 := self1.setBucketsMap isViewport2
            ((self1.bucketsMap isViewport2).set renderParamsHash
              (bucket1.1, bucket1.2.insert a.addr))
          some (true, addToHandleMap self2)

/-- The function `UsdMayaGLBatchRenderer::_UpdateRenderFrameStamp`. -/
def _UpdateRenderFrameStamp (self : UsdMayaGLBatchRenderer) (frameStamp : Nat) :
    Bool × UsdMayaGLBatchRenderer :=
  if self._lastRenderFrameStamp = frameStamp then (false, self)
  else (true, { self with _lastRenderFrameStamp := frameStamp })

/-- The function `UsdMayaGLBatchRenderer::_UpdateSelectionFrameStamp`. -/
def _UpdateSelectionFrameStamp (self : UsdMayaGLBatchRenderer) (frameStamp : Nat) :
    Bool × UsdMayaGLBatchRenderer :=
  if self._lastSelectionFrameStamp = frameStamp then (false, self)
  else (true, { self with _lastSelectionFrameStamp := frameStamp })

/-- The function `UsdMayaGLBatchRenderer::_UpdateLegacyRenderPending`. -/
def _UpdateLegacyRenderPending (self : UsdMayaGLBatchRenderer) (isPending : Bool) :
    Bool × UsdMayaGLBatchRenderer :=
  if self._legacyRenderPending = isPending then (false, self)
  else (true, { self with _legacyRenderPending := isPending })

/-- The function `UsdMayaGLBatchRenderer::_UpdateLegacySelectionPending`. -/
def _UpdateLegacySelectionPending (self : UsdMayaGLBatchRenderer) (isPending : Bool) :
    Bool × UsdMayaGLBatchRenderer :=
  if self._legacySelectionPending = isPending then (false, self)
  else (true, { self with _legacySelectionPending := isPending })

/-- The function `UsdMayaGLBatchRenderer::_MayaRenderDidEnd`. -/
def _MayaRenderDidEnd (self : UsdMayaGLBatchRenderer) : UsdMayaGLBatchRenderer :=
  let self1 := (self._UpdateLegacySelectionPending true).2
  { self1 with _sharedDiagBatchCtx := false, _drawnMayaRenderPasses := UnorderedSet.empty }

/-- The function `UsdMayaGLBatchRenderer::_GetIntersectionRprimCollections`.  `heap` gives the
shape adapter object behind a pointer; the call `UpdateVisibility(isolatedObjects)` changes
the shape adapter only and is left out. -/
def _GetIntersectionRprimCollections (self : UsdMayaGLBatchRenderer)
    (heap : Nat → PxrMayaHdShapeAdapter) (bucketsMap : _ShapeAdapterBucketsMap)
    (useDepthSelection : Bool) : List HdRprimCollection :=
  if bucketsMap.isEmpty then []
  else
    -- Assume the shape adapters are for Viewport 2.0 until we inspect the first one.
    let loop := bucketsMap.entries.foldl
      (fun (locals : Bool × List HdRprimCollection) iter =>
        iter.2.2.elems.foldl
          (fun (locals : Bool × List HdRprimCollection) shapeAdapter =>
            let isViewport2 := (heap shapeAdapter).isViewport2
            if !useDepthSelection then (isViewport2, locals.2)
            else (isViewport2, locals.2 ++ [(heap shapeAdapter).rprimCollection]))
          locals)
      (true, [])
    let isViewport2 := loop.1
    let rprimCollections := loop.2
    if !useDepthSelection then
      if isViewport2 then rprimCollections ++ [self._viewport2RprimCollection]
      else rprimCollections ++ [self._legacyViewportRprimCollection]
    else rprimCollections

/-- A call `_intersector->Query(queryParams, rprimCollection, &_hdEngine, &result)`: its
parameters and its collection. -/
abbrev IntersectionQuery := HdxIntersectorParams × HdRprimCollection

/-- The function `UsdMayaGLBatchRenderer::_TestIntersection`: the value returned, the content
of `*outHitSet` after the call and the calls of `_intersector->Query` that were made.  The
function is private; its callers have tested `_renderIndex` or have called through
`_intersector` before, so the intersector is there when it is reached. -/
def _TestIntersection (self : UsdMayaGLBatchRenderer) (intersector : HdxIntersector)
    (rprimCollection : HdRprimCollection) (queryParams : HdxIntersectorParams)
    (singleSelection : Bool) (outHitSet : HitSet) : Bool × HitSet × List IntersectionQuery :=
  let queryParams := { queryParams with renderTags := rprimCollection.renderTags }
  let queries : List IntersectionQuery := [(queryParams, rprimCollection)]
  match intersector.Query self._intersectorResolution queryParams rprimCollection with
  | none => (false, outHitSet, queries)
  | some result =>
    if singleSelection then
      match intersector.ResolveNearest result with
      | none => (false, outHitSet, queries)
      | some hit => (true, outHitSet.insert intersector.HitSetEq hit, queries)
    else
      match intersector.ResolveUnique result with
      | none => (false, outHitSet, queries)
      | some hits =>
        (true, hits.foldl (fun set hit => set.insert intersector.HitSetEq hit) outHitSet,
          queries)

/-- The body of the inner loop of `_ComputeSelection`: one hit is merged into the selection
results. -/
def mergeHit (HitSetEq : Hit → Hit → Bool) (selectResults : UnorderedMap SdfPath HitSet)
    (hit : Hit) : UnorderedMap SdfPath HitSet :=
  let itIfExists := selectResults.emplace hit.delegateId (HitSet.singleton hit)
  let inserted := itIfExists.2
  if !inserted then
    itIfExists.1.update hit.delegateId HitSet.empty (fun set => set.insert HitSetEq hit)
  else itIfExists.1

/-- The loop of `_ComputeSelection` over the collections: each collection is queried, the hits
of a query that succeeds are merged into `_selectResults`.  The second component is the calls
of `_intersector->Query` made so far, in order. -/
def intersectCollections (self : UsdMayaGLBatchRenderer) (intersector : HdxIntersector)
    (qparams : HdxIntersectorParams) (singleSelection : Bool) :
    List HdRprimCollection → UnorderedMap SdfPath HitSet × List IntersectionQuery →
      UnorderedMap SdfPath HitSet × List IntersectionQuery
  | [], locals => locals
  | rprimCollection :: rest, locals =>
    let r := self._TestIntersection intersector rprimCollection qparams singleSelection
      HitSet.empty
    let queries := locals.2 ++ r.2.2
    if !r.1 then
      intersectCollections self intersector qparams singleSelection rest (locals.1, queries)
    else
      intersectCollections self intersector qparams singleSelection rest
        (r.2.1.elems.foldl (mergeHit intersector.HitSetEq) locals.1, queries)

/-- The selection `_ComputeSelection` builds from the selection results. -/
def populateSelection (selectResults : UnorderedMap SdfPath HitSet) : List HdSelectionEntry :=
  selectResults.entries.foldl
    (fun selection delegateHits =>
      delegateHits.2.elems.foldl
        (fun selection hit =>
          if !hit.instancerId.isEmpty then
            selection ++ [HdSelectionEntry.AddInstance hit.objectId [hit.instanceIndex]]
          else selection ++ [HdSelectionEntry.AddRprim hit.objectId])
        selection)
    []

/-- The function `UsdMayaGLBatchRenderer::_ComputeSelection`: the state left and the calls of
`_intersector->Query` that were made, in order.  `heap` gives the shape adapter object behind a
pointer, `PXRMAYAHD_ENABLE_DEPTH_SELECTION` is the value of the env setting of that name; the
isolate list of the view only goes to `UpdateVisibility` and is left out.  The function is
private; both `TestIntersection` functions call it only after their test of `_renderIndex`, so
the intersector and the selection tracker are there when it is reached. -/
def _ComputeSelection (self : UsdMayaGLBatchRenderer) (intersector : HdxIntersector)
    (heap : Nat → PxrMayaHdShapeAdapter) (PXRMAYAHD_ENABLE_DEPTH_SELECTION : Bool)
    (bucketsMap : _ShapeAdapterBucketsMap) (viewMatrix projectionMatrix : GfMatrix4d)
    (singleSelection : Bool) : UsdMayaGLBatchRenderer × List IntersectionQuery :=
  let useDepthSelection := !singleSelection && PXRMAYAHD_ENABLE_DEPTH_SELECTION
  let rprimCollections := self._GetIntersectionRprimCollections heap bucketsMap useDepthSelection
  -- We may miss very small objects with this setting, but it's faster.
  let pickResolution := 256
  let self1 := { self with _intersectorResolution := (pickResolution, pickResolution) }
  let qparams : HdxIntersectorParams :=
    { viewMatrix := viewMatrix, projectionMatrix := projectionMatrix, alphaThreshold := 1,
      renderTags := [] }
  let self2 := { self1 with _selectResults := UnorderedMap.empty }
  let loop := intersectCollections self2 intersector qparams singleSelection rprimCollections
    (self2._selectResults, [])
  let self3 := { self2 with _selectResults := loop.1 }
  -- Populate the Hydra selection from the selection results.
  ({ self3 with _selectionTracker := populateSelection self3._selectResults }, loop.2)

end UsdMayaGLBatchRenderer

/-! ## The selection cache, as seen from outside -/

namespace UsdMayaGLBatchRenderer

/-- The selection cache `_selectResults` holds the hit `h` in the set of the delegate id `d`. -/
def cachedHit (self : UsdMayaGLBatchRenderer) (d : SdfPath) (h : Hit) : Prop :=
  ∃ S, self._selectResults.find d = some S ∧ h ∈ S.elems

/-- The hit `h` is among the hits of a query that a call of `_ComputeSelection` with these
arguments makes and that succeeds: a query `_TestIntersection` of one of the collections of
`_GetIntersectionRprimCollections`, at the pick resolution 256 and with the alpha threshold
0.1, into an empty hit set. -/
def queriedHit (self : UsdMayaGLBatchRenderer) (intersector : HdxIntersector)
    (heap : Nat → PxrMayaHdShapeAdapter) (PXRMAYAHD_ENABLE_DEPTH_SELECTION : Bool)
    (bucketsMap : _ShapeAdapterBucketsMap) (viewMatrix projectionMatrix : GfMatrix4d)
    (singleSelection : Bool) (h : Hit) : Prop :=
  ∃ c ∈ self._GetIntersectionRprimCollections heap bucketsMap
      (!singleSelection && PXRMAYAHD_ENABLE_DEPTH_SELECTION),
    (_TestIntersection { self with _intersectorResolution := (256, 256) } intersector c
      ⟨viewMatrix, projectionMatrix, 1, []⟩ singleSelection HitSet.empty).1 = true ∧
    h ∈ (_TestIntersection { self with _intersectorResolution := (256, 256) } intersector c
      ⟨viewMatrix, projectionMatrix, 1, []⟩ singleSelection HitSet.empty).2.1.elems

end UsdMayaGLBatchRenderer

/-! ## Sequences of calls -/

/-- A call of one of the two registration functions with a shape adapter that is not null. -/
inductive RegistryCall where
  | Add (shapeAdapter : PxrMayaHdShapeAdapter)
  | Remove (shapeAdapter : PxrMayaHdShapeAdapter)
deriving DecidableEq, Repr

namespace RegistryCall

/-- The shape adapter of the call. -/
def shapeAdapter : RegistryCall → PxrMayaHdShapeAdapter
  | Add a => a
  | Remove a => a

/-- Whether the call is a call of `AddShapeAdapter`. -/
def isAdd : RegistryCall → Bool
  | Add _ => true
  | Remove _ => false

end RegistryCall

namespace UsdMayaGLBatchRenderer

/-- The state after one call; `none` when the call has no defined result. -/
def call (Hash : PxrMayaHdRenderParams → Nat) (self : UsdMayaGLBatchRenderer) :
    RegistryCall → Option UsdMayaGLBatchRenderer
  | RegistryCall.Add a => (self.AddShapeAdapter Hash (some a)).map Prod.snd
  | RegistryCall.Remove a => some (self.RemoveShapeAdapter (some a)).2

/-- The state after a sequence of calls, made one after the other. -/
def calls (Hash : PxrMayaHdRenderParams → Nat) (self : UsdMayaGLBatchRenderer) :
    List RegistryCall → Option UsdMayaGLBatchRenderer
  | [] => some self
  | c :: rest => (self.call Hash c).bind (fun next => calls Hash next rest)

/-- The states reached from a freshly constructed batch renderer by calls of `AddShapeAdapter`
and `RemoveShapeAdapter`. -/
def Reachable (Hash : PxrMayaHdRenderParams → Nat) (self : UsdMayaGLBatchRenderer) : Prop :=
  ∃ (vp1Selection renderIndexCreated objectSoftSelect : Bool) (cs : List RegistryCall),
    (new vp1Selection renderIndexCreated objectSoftSelect).calls Hash cs = some self

/-- The last call of a sequence that was made with the shape adapter at `addr`. -/
def lastCall (cs : List RegistryCall) (addr : Nat) : Option RegistryCall :=
  (cs.filter (fun c => decide (c.shapeAdapter.addr = addr))).getLast?

/-- Each shape adapter of the sequence has one value of `IsViewport2()`. -/
def FixedViewport (cs : List RegistryCall) : Prop :=
  ∀ c ∈ cs, ∀ d ∈ cs, c.shapeAdapter.addr = d.shapeAdapter.addr →
    c.shapeAdapter.isViewport2 = d.shapeAdapter.isViewport2

instance (cs : List RegistryCall) : Decidable (FixedViewport cs) := by
  unfold FixedViewport; infer_instance

/-- The registrations after one more call: a registration is a viewport, a shape adapter
registered in it and the DAG node the shape adapter was registered on.  A call of
`AddShapeAdapter` registers its shape adapter on its DAG node in its viewport, a call of
`RemoveShapeAdapter` ends the registration of its shape adapter in its viewport. -/
def register (registered : List (Bool × Nat × Nat)) (c : RegistryCall) :
    List (Bool × Nat × Nat) :=
  let others := registered.filter
    (fun e => !(e.1 == c.shapeAdapter.isViewport2 && e.2.1 == c.shapeAdapter.addr))
  match c with
  | RegistryCall.Add a => (a.isViewport2, a.addr, a.dagNode) :: others
  | RegistryCall.Remove _ => others

/-- The registrations after a sequence of calls on a batch renderer without registrations. -/
def registrations (cs : List RegistryCall) : List (Bool × Nat × Nat) := cs.foldl register []

/-- Whether the call `c` keeps the DAG nodes apart: of the shape adapters registered in its
viewport, the one of the call, if it is among them, is registered on the DAG node of the call,
and no other one is. -/
def keepsDagNodesApart (registered : List (Bool × Nat × Nat)) (c : RegistryCall) : Bool :=
  registered.all (fun e =>
    !(e.1 == c.shapeAdapter.isViewport2) ||
      (decide (e.2.1 = c.shapeAdapter.addr) == decide (e.2.2 = c.shapeAdapter.dagNode)))

/-- Whether every call of the sequence keeps the DAG nodes apart at the time it is made, when
the sequence starts with the given registrations. -/
def separateDagNodesFrom (registered : List (Bool × Nat × Nat)) : List RegistryCall → Bool
  | [] => true
  | c :: rest =>
    keepsDagNodesApart registered c && separateDagNodesFrom (register registered c) rest

/-- Every call of the sequence is made while no other shape adapter of its viewport is
registered on its DAG node and while its own shape adapter, if it is registered, is registered
on that DAG node: at no time two registered shape adapters of one viewport share a DAG node,
and a shape adapter changes its DAG node only while it is not registered. -/
def SeparateDagNodes (cs : List RegistryCall) : Prop := separateDagNodesFrom [] cs = true

instance (cs : List RegistryCall) : Decidable (SeparateDagNodes cs) := by
  unfold SeparateDagNodes; infer_instance

/-- The hashes of the buckets of a map that hold the shape adapter at `addr`, in iteration
order. -/
def bucketsOf (m : _ShapeAdapterBucketsMap) (addr : Nat) : List Nat :=
  (m.entries.filter (fun e => e.2.2.contains addr)).map Prod.fst

/-- Whether the map has a bucket with the hash `renderParamsHash` that holds the shape adapter
at `addr`. -/
def inBucket (m : _ShapeAdapterBucketsMap) (renderParamsHash addr : Nat) : Bool :=
  match m.find renderParamsHash with
  | some bucket => bucket.2.contains addr
  | none => false

/-- Whether some bucket of the map holds the shape adapter at `addr`. -/
def isMember (m : _ShapeAdapterBucketsMap) (addr : Nat) : Bool :=
  m.entries.any (fun e => e.2.2.contains addr)

/-- No bucket of the map has an empty set of shape adapters. -/
def NoEmptyBucket (m : _ShapeAdapterBucketsMap) : Prop :=
  ∀ e ∈ m.entries, e.2.2.elems ≠ []

instance (m : _ShapeAdapterBucketsMap) : Decidable (NoEmptyBucket m) := by
  unfold NoEmptyBucket; infer_instance

/-- The values returned by consecutive calls of a frame-stamp gate with the given stamps, and
the state left. -/
def gateCalls (gate : UsdMayaGLBatchRenderer → Nat → Bool × UsdMayaGLBatchRenderer)
    (self : UsdMayaGLBatchRenderer) : List Nat → List Bool × UsdMayaGLBatchRenderer
  | [] => ([], self)
  | frameStamp :: rest =>
    let r := gate self frameStamp
    let rs := gateCalls gate r.2 rest
    (r.1 :: rs.1, rs.2)

/-- The number of calls with stamp `v` that returned true. -/
def trueCalls (stamps : List Nat) (results : List Bool) (v : Nat) : Nat :=
  ((stamps.zip results).filter (fun p => decide (p.1 = v) && p.2)).length

end UsdMayaGLBatchRenderer

/-! ## Example data -/

namespace Example

/-- A hash of render params with collisions: the parity of the shading style. -/
def Hash (p : PxrMayaHdRenderParams) : Nat := p.shadingStyle % 2

/-- Render params with the shading style `n`. -/
def params (n : Nat) : PxrMayaHdRenderParams := ⟨n, 0, false, 0, ""⟩

/-- A collection with one root path. -/
def collection (name : String) : HdRprimCollection := ⟨name, "refined", [[name]], ["geometry"]⟩

/-- A Viewport 2.0 shape adapter at address 1 on the DAG node 10, hash 0. -/
def A : PxrMayaHdShapeAdapter := ⟨1, true, params 0, 10, collection "A", ["A"]⟩

/-- The shape adapter `A` after a change of its render params, hash 1. -/
def A1 : PxrMayaHdShapeAdapter := ⟨1, true, params 1, 10, collection "A", ["A"]⟩

/-- A Viewport 2.0 shape adapter at address 2 on the DAG node 20, hash 0 with other params than
`A`. -/
def B : PxrMayaHdShapeAdapter := ⟨2, true, params 2, 20, collection "B", ["B"]⟩

/-- A Viewport 2.0 shape adapter at address 3 on the DAG node 30, hash 1. -/
def C : PxrMayaHdShapeAdapter := ⟨3, true, params 1, 30, collection "C", ["C"]⟩

/-- A legacy viewport shape adapter at address 4 on the DAG node 10, hash 0. -/
def L : PxrMayaHdShapeAdapter := ⟨4, false, params 0, 10, collection "L", ["L"]⟩

/-- A second Viewport 2.0 shape adapter on the DAG node 10 of `A`, at address 5. -/
def A2 : PxrMayaHdShapeAdapter := ⟨5, true, params 0, 10, collection "A2", ["A2"]⟩

/-- The shape adapter `A` after its shape moved to the DAG node 11. -/
def AOnNode11 : PxrMayaHdShapeAdapter := ⟨1, true, params 0, 11, collection "A", ["A"]⟩

/-- A freshly constructed batch renderer. -/
def fresh : UsdMayaGLBatchRenderer := UsdMayaGLBatchRenderer.new false true false

/-- A sequence of calls in which the render params of `A` change. -/
def session : List RegistryCall :=
  [RegistryCall.Add A, RegistryCall.Add B, RegistryCall.Add L, RegistryCall.Add A1,
   RegistryCall.Remove B, RegistryCall.Add C, RegistryCall.Remove L]

/-- The state after `A` and `B` were added to a fresh batch renderer. -/
def afterAB : UsdMayaGLBatchRenderer :=
  (fresh.calls Hash [RegistryCall.Add A, RegistryCall.Add B]).getD fresh

/-- The state after `A` was added to a fresh batch renderer. -/
def afterA : UsdMayaGLBatchRenderer := (fresh.calls Hash [RegistryCall.Add A]).getD fresh

/-- A state (not a reachable one) whose Viewport 2.0 bucket of hash 0 is empty. -/
def withEmptyBucket : UsdMayaGLBatchRenderer :=
  { fresh with
    _shapeAdapterBuckets := ⟨[(0, (params 0, UnorderedSet.empty))], by simp⟩ }

/-- A hit on the object `objectId` of the delegate `delegateId` at a depth. -/
def hit (delegateId objectId : String) (ndcDepth : Int) : Hit :=
  ⟨[delegateId], [objectId], [], 0, 0, (0, 0, 0), ndcDepth⟩

/-- An intersection engine whose hit sets compare hits as values: the query of the collection
`B` fails, the query of `A` hits an object of `A` and one of `C`, the query of `C` hits two
objects of `C`. -/
def intersector : HdxIntersector :=
  { Result := String
    Query := fun _ _ c => if c.name = "B" then none else some c.name
    ResolveNearest := fun r => if r = "A" then some (hit "A" "a1" 1) else none
    ResolveUnique := fun r =>
      if r = "A" then some [hit "A" "a1" 1, hit "C" "c1" 2]
      else if r = "C" then some [hit "C" "c1" 2, hit "C" "c2" 3]
      else none
    HitSetEq := fun a b => decide (a = b) }

/-- An intersection engine whose hit sets take two hits on the same object of the same delegate
for equal, whatever their depths: the query of the collection `A` hits the object `c1` of `C` at
the depth 2, the query of `C` hits it at the depth 5, the query of `B` fails. -/
def intersectorOfObjects : HdxIntersector :=
  { Result := String
    Query := fun _ _ c => if c.name = "B" then none else some c.name
    ResolveNearest := fun _ => none
    ResolveUnique := fun r =>
      if r = "A" then some [hit "C" "c1" 2]
      else if r = "C" then some [hit "C" "c1" 5]
      else none
    HitSetEq := fun a b =>
      decide (a.delegateId = b.delegateId ∧ a.objectId = b.objectId ∧
        a.instancerId = b.instancerId ∧ a.instanceIndex = b.instanceIndex) }

/-- The shape adapter objects behind the addresses. -/
def heap (addr : Nat) : PxrMayaHdShapeAdapter :=
  if addr = 1 then A else if addr = 2 then B else C

/-- The state after `A`, `B` and `C` were added to a fresh batch renderer. -/
def afterABC : UsdMayaGLBatchRenderer :=
  (fresh.calls Hash [RegistryCall.Add A, RegistryCall.Add B, RegistryCall.Add C]).getD fresh

end Example

/-! ## Drawing and picking

The calls through the pointers `_renderIndex`, `_taskDelegate` and `_intersector` go to outside
collaborators: what is handed to them is part of the results below.  When no render index could
be created the constructor returns early, and the task delegate, the intersector and the
selection tracker are null pointers like the render index: a function that calls through one of
them without a test has no result (`none`) in a state without render index.  The private
functions `_ComputeSelection` and `_TestIntersection` are reached only past a test of
`_renderIndex` or past such a call. -/

/-- A vector of four numbers (`GfVec4d`), here a viewport rectangle that is only carried
along. -/
abbrev GfVec4d := List Int

/-- What the batch renderer reads from a view of the legacy viewport (`M3dView`). -/
structure M3dView where
  /-- Whether `getRendererName(&status)` succeeds with `kViewport2Renderer`. -/
  isViewport2Renderer : Bool
  /-- The matrix of `projectionMatrix`. -/
  projectionMatrix : GfMatrix4d
  /-- The matrix of `modelViewMatrix`. -/
  modelViewMatrix : GfMatrix4d
  /-- The inverse of the inclusive matrix of the camera (`_GetWorldToViewMatrix`). -/
  worldToViewMatrix : GfMatrix4d
  /-- The rectangle of `viewport` (`_GetViewport`). -/
  viewport : GfVec4d
  /-- The view matrix of `px_LegacyViewportUtils::GetViewSelectionMatrices`. -/
  selectionViewMatrix : GfMatrix4d
  /-- The projection matrix of `px_LegacyViewportUtils::GetViewSelectionMatrices`. -/
  selectionProjectionMatrix : GfMatrix4d
deriving DecidableEq, Repr

/-- What the batch renderer reads from a draw context of Viewport 2.0
(`MHWRender::MDrawContext`). -/
structure MDrawContext where
  /-- The value of `getFrameStamp()`. -/
  frameStamp : Nat
  /-- The value of `getPassContext().passIdentifier()`. -/
  passIdentifier : String
  /-- The matrix `kProjectionMtx`. -/
  projectionMatrix : GfMatrix4d
  /-- The matrix `kWorldViewMtx`. -/
  worldViewMatrix : GfMatrix4d
  /-- The matrix `kViewMtx` (`_GetWorldToViewMatrix`). -/
  viewMatrix : GfMatrix4d
  /-- The rectangle of `getViewportDimensions` (`_GetViewport`). -/
  viewport : GfVec4d
  /-- The view that `_GetViewFromDrawContext` finds, if any. -/
  view : Option M3dView
deriving DecidableEq, Repr

/-- The user data of a draw request (`PxrMayaHdUserData`). -/
structure PxrMayaHdUserData where
  drawShape : Bool
  boundingBox : Option (List Int)
  wireframeColor : Option (List Int)
deriving DecidableEq, Repr

/-- A work item of a render pass (`_RenderItem`): render params and the collections drawn with
them. -/
abbrev _RenderItem := PxrMayaHdRenderParams × List HdRprimCollection

/-- What one call of `_Render` hands to the task delegate and to the engine. -/
structure RenderSubmission where
  /-- The arguments of `SetCameraState`. -/
  worldToViewMatrix : GfMatrix4d
  projectionMatrix : GfMatrix4d
  viewport : GfVec4d
  /-- The argument `items`. -/
  items : List _RenderItem
  /-- The arguments of the calls `GetRenderTasks(paramsHash, params, rprimCollections)`. -/
  renderTasks : List (Nat × PxrMayaHdRenderParams × List HdRprimCollection)
  /-- The selection tracker given to the engine as `selectionState`. -/
  selectionState : List HdSelectionEntry
deriving DecidableEq, Repr

/-- Modelled from the spec: `operator<` of hits, declared with `HdxIntersector::Hit` outside the
sources; the order of hits is "primary key ascending depth value", "comparison is purely by
depth". -/
def Hit.less (lhs rhs : Hit) : Bool := decide (lhs.ndcDepth < rhs.ndcDepth)

/-- The function `SdfPath::ReplacePrefix`: a path below `oldPrefix` is moved below `newPrefix`,
any other path is left as it is. -/
def SdfPath.ReplacePrefix (path oldPrefix newPrefix : SdfPath) : SdfPath :=
  if List.isPrefixOf oldPrefix path then newPrefix ++ path.drop oldPrefix.length else path

/-- The result of a call of `TestIntersection`. -/
structure TestIntersectionResult where
  /-- The hit set returned; `none` is `nullptr`. -/
  hitSet : Option HitSet
  /-- The batch renderer after the call. -/
  state : UsdMayaGLBatchRenderer
  /-- Whether the call ran `_ComputeSelection`. -/
  computedSelection : Bool
  /-- Whether the call ran `view.scheduleRefresh()`. -/
  scheduledRefresh : Bool
  /-- The calls of `_intersector->Query` that the call made, in order. -/
  queries : List UsdMayaGLBatchRenderer.IntersectionQuery

/-- The result of a call of `Draw`. -/
structure DrawResult where
  /-- The batch renderer after the call. -/
  state : UsdMayaGLBatchRenderer
  /-- Whether the call ran `px_vp20Utils::RenderBoundingBox`. -/
  renderedBoundingBox : Bool
  /-- What the call handed to `_Render`, if it did render the batches. -/
  submission : Option RenderSubmission
deriving DecidableEq

namespace UsdMayaGLBatchRenderer

/-- The function `UsdMayaGLBatchRenderer::GetNearestHit`; `none` is `nullptr`, as argument and
as result. -/
def GetNearestHit (hitSet : Option HitSet) : Option Hit :=
  match hitSet with
  | none => none
  | some set =>
    match set.elems with
    | [] => none
    | begin :: _ =>
      some (set.elems.foldl (fun minHit hit => if hit.less minHit then hit else minHit) begin)

/-- The function `UsdMayaGLBatchRenderer::_Render`: what goes to the task delegate and to the
engine.  The changes of the OpenGL state are left out.  `_RenderBatches` reaches the function
only after it has set the lighting state through `_taskDelegate`, so the task delegate and the
render index are there. -/
def _Render (Hash : PxrMayaHdRenderParams → Nat) (self : UsdMayaGLBatchRenderer)
    (worldToViewMatrix projectionMatrix : GfMatrix4d) (viewport : GfVec4d)
    (items : List _RenderItem) : RenderSubmission :=
  { worldToViewMatrix := worldToViewMatrix
    projectionMatrix := projectionMatrix
    viewport := viewport
    items := items
    renderTasks := items.map (fun iter => (Hash iter.1, iter.1, iter.2))
    selectionState := self._selectionTracker }

/-- The function `UsdMayaGLBatchRenderer::_RenderBatches`: the state left and what was handed to
`_Render`, if anything.  `vp2Context` is `none` for the legacy viewport.  `heap` gives the shape
adapter object behind a pointer; the view is only used for the isolate list of
`UpdateVisibility` and is left out, as is the lighting state given to the task delegate.  There
is no result when the lighting state is set through the null `_taskDelegate` of a batch
renderer without render index. -/
def _RenderBatches (Hash : PxrMayaHdRenderParams → Nat) (heap : Nat → PxrMayaHdShapeAdapter)
    (self : UsdMayaGLBatchRenderer) (vp2Context : Option MDrawContext)
    (worldToViewMatrix projectionMatrix : GfMatrix4d) (viewport : GfVec4d) :
    Option (UsdMayaGLBatchRenderer × Option RenderSubmission) :=
  let bucketsMap := self.bucketsMap vp2Context.isSome
  if bucketsMap.isEmpty then some (self, none)
  else
    -- A new display refresh signifies that the cached selection data is no longer valid.
    let self1 := { self with _selectResults := UnorderedMap.empty }
    let self2 := { self1 with _softSelectHelper := false }
    let items : List _RenderItem := bucketsMap.entries.map
      (fun iter =>
        (iter.2.1, iter.2.2.elems.map (fun shapeAdapter => (heap shapeAdapter).rprimCollection)))
    -- Update lighting depending on VP2/Legacy: both branches call through `_taskDelegate`.
    if !self2._renderIndex then none
    else
      let submission := self2._Render Hash worldToViewMatrix projectionMatrix viewport items
      -- For the legacy viewport we will not receive a notification at the end of rendering.
      let self3 := if vp2Context.isNone then self2._MayaRenderDidEnd else self2
      some (self3, some submission)

/-- The function `UsdMayaGLBatchRenderer::Draw` of the legacy viewport, with the draw data of
the request (`none` when it has no user data).  There is no result when `_RenderBatches` has
none. -/
def DrawLegacy (Hash : PxrMayaHdRenderParams → Nat) (heap : Nat → PxrMayaHdShapeAdapter)
    (self : UsdMayaGLBatchRenderer) (hdUserData : Option PxrMayaHdUserData) (view : M3dView) :
    Option DrawResult :=
  match hdUserData with
  | none => some ⟨self, false, none⟩
  | some userData =>
    let renderedBoundingBox := userData.boundingBox.isSome
    if userData.drawShape then
      let gate := self._UpdateLegacyRenderPending false
      if gate.1 then
        match _RenderBatches Hash heap gate.2 none view.worldToViewMatrix
          view.projectionMatrix view.viewport with
        | none => none
        | some r => some ⟨r.1, renderedBoundingBox, r.2⟩
      else some ⟨gate.2, renderedBoundingBox, none⟩
    else some ⟨self, renderedBoundingBox, none⟩

/-- The function `UsdMayaGLBatchRenderer::Draw` of Viewport 2.0.  `drawAPIIsOpenGL` tells
whether there is a renderer and its draw API is OpenGL; `hdUserData` is `none` when the user
data is not a `PxrMayaHdUserData`.  There is no result when `_RenderBatches` has none. -/
def Draw (Hash : PxrMayaHdRenderParams → Nat) (heap : Nat → PxrMayaHdShapeAdapter)
    (self : UsdMayaGLBatchRenderer) (drawAPIIsOpenGL : Bool) (context : MDrawContext)
    (hdUserData : Option PxrMayaHdUserData) : Option DrawResult :=
  if !drawAPIIsOpenGL then some ⟨self, false, none⟩
  else
    match hdUserData with
    | none => some ⟨self, false, none⟩
    | some userData =>
      let renderedBoundingBox := userData.boundingBox.isSome
      let passId := context.passIdentifier
      if self._drawnMayaRenderPasses.contains passId then
        -- We've already done a Hydra draw for this Maya render pass.
        some ⟨self, renderedBoundingBox, none⟩
      else
        let self1 := { self with
          _drawnMayaRenderPasses := self._drawnMayaRenderPasses.insert passId }
        let frameStamp := context.frameStamp
        if userData.drawShape then
          let gate := self1._UpdateRenderFrameStamp frameStamp
          if gate.1 then
            match _RenderBatches Hash heap gate.2 (some context) context.viewMatrix
              context.projectionMatrix context.viewport with
            | none => none
            | some r => some ⟨r.1, renderedBoundingBox, r.2⟩
          else some ⟨gate.2, renderedBoundingBox, none⟩
        else some ⟨self1, renderedBoundingBox, none⟩

/-- The end of both `TestIntersection` functions: the lookup of the hit set of a delegate id in
the selection results.  `legacy` tells whether a refresh of the view is scheduled when nothing
at all is selected, `queries` is the calls of `_intersector->Query` made before the lookup. -/
def lookupSelectResults (self : UsdMayaGLBatchRenderer) (delegateId : SdfPath)
    (computedSelection legacy : Bool) (queries : List IntersectionQuery) :
    TestIntersectionResult :=
  match self._selectResults.find delegateId with
  | none => ⟨none, self, computedSelection, legacy && self._selectResults.isEmpty, queries⟩
  | some hitSet =>
    if hitSet.isEmpty then
      ⟨none, self, computedSelection, legacy && self._selectResults.isEmpty, queries⟩
    else ⟨some hitSet, self, computedSelection, false, queries⟩

/-- The function `UsdMayaGLBatchRenderer::TestIntersection` of the legacy viewport.
`rootXformInverse` is `shapeAdapter->GetRootXform().GetInverse()` and `mul` the product of
matrices; `intersector`, `heap` and `PXRMAYAHD_ENABLE_DEPTH_SELECTION` are as for
`_ComputeSelection`. -/
def TestIntersectionLegacy (intersector : HdxIntersector)
    (heap : Nat → PxrMayaHdShapeAdapter) (PXRMAYAHD_ENABLE_DEPTH_SELECTION : Bool)
    (mul : GfMatrix4d → GfMatrix4d → GfMatrix4d) (self : UsdMayaGLBatchRenderer)
    (shapeAdapter : PxrMayaHdShapeAdapter) (rootXformInverse : GfMatrix4d) (view : M3dView)
    (singleSelection : Bool) : TestIntersectionResult :=
  let useViewport2Buckets := view.isViewport2Renderer && self._viewport2UsesLegacySelection
  let shapeAdapterDelegateId :=
    if useViewport2Buckets then
      shapeAdapter.delegateId.ReplacePrefix self._legacyViewportPrefix self._viewport2Prefix
    else shapeAdapter.delegateId
  let bucketsMap := self.bucketsMap useViewport2Buckets
  -- Guard against the user clicking in the viewer before the renderer is setup, or with no
  -- shape adapters registered.
  if !self._renderIndex || bucketsMap.isEmpty then
    ⟨none, { self with _selectResults := UnorderedMap.empty }, false, false, []⟩
  else
    let projectionMatrix := view.selectionProjectionMatrix
    let localToWorldSpace := rootXformInverse
    let viewMatrix := mul localToWorldSpace view.selectionViewMatrix
    let gate := self._UpdateLegacySelectionPending false
    if gate.1 then
      let computed := gate.2._ComputeSelection intersector heap PXRMAYAHD_ENABLE_DEPTH_SELECTION
        bucketsMap viewMatrix projectionMatrix singleSelection
      lookupSelectResults computed.1 shapeAdapterDelegateId true true computed.2
    else lookupSelectResults gate.2 shapeAdapterDelegateId false true []

end UsdMayaGLBatchRenderer

namespace Example

/-- Three hits at the depths 0.3, 0.1 and 0.5, in tenths. -/
def h3 : Hit := hit "A" "far" 3

/-- The hit at the depth 0.1. -/
def h1 : Hit := hit "A" "near" 1

/-- The hit at the depth 0.5. -/
def h5 : Hit := hit "A" "farther" 5

end Example

namespace UsdMayaGLBatchRenderer

/-- The shape adapters registered in a bucket map, bucket by bucket in iteration order. -/
def registeredAdapters (m : _ShapeAdapterBucketsMap) : List Nat :=
  m.entries.flatMap (fun e => e.2.2.elems)

/-- The work items that a call of `_RenderBatches` submitted: the argument `items` of its call
of `_Render`, and no item when it did not call `_Render`. -/
def submittedItems (submission : Option RenderSubmission) : List _RenderItem :=
  match submission with
  | some sub => sub.items
  | none => []

end UsdMayaGLBatchRenderer

namespace Example

/-- A view of the legacy viewport. -/
def view : M3dView := ⟨false, [1], [2], [3], [0, 0, 640, 480], [4], [5]⟩

/-- A view whose renderer is Viewport 2.0. -/
def viewOfViewport2 : M3dView := ⟨true, [1], [2], [3], [0, 0, 640, 480], [4], [5]⟩

/-- A draw context of Viewport 2.0 with the frame stamp 7 in the pass `colorPass`. -/
def context : MDrawContext := ⟨7, "colorPass", [1], [2], [3], [0, 0, 640, 480], none⟩

/-- The state after `A`, `B` and `C` were added and an area selection with depth was
computed: the selection cache is not empty. -/
def afterPick : UsdMayaGLBatchRenderer :=
  (afterABC._ComputeSelection intersector heap true afterABC._shapeAdapterBuckets [] []
    false).1

/-- The state `afterPick` after `A`, `B` and `C` were removed again. -/
def afterPickAndRemove : UsdMayaGLBatchRenderer :=
  (afterPick.calls Hash
    [RegistryCall.Remove A, RegistryCall.Remove B, RegistryCall.Remove C]).getD fresh

end Example


namespace UsdMayaGLBatchRenderer

/-- The arguments of one call of the `TestIntersection` of the legacy viewport. -/
structure LegacyPick where
  /-- The shape adapter that is tested. -/
  shapeAdapter : PxrMayaHdShapeAdapter
  /-- The inverse of the root transform of the shape adapter. -/
  rootXformInverse : GfMatrix4d
  /-- The view of the selection. -/
  view : M3dView
  /-- Whether a single object is selected. -/
  singleSelection : Bool

/-- Calls of the `TestIntersection` of the legacy viewport made one after the other: the state
left by the last call and, call by call, whether the call computed the selection. -/
def legacyPicks (intersector : HdxIntersector) (heap : Nat → PxrMayaHdShapeAdapter)
    (PXRMAYAHD_ENABLE_DEPTH_SELECTION : Bool) (mul : GfMatrix4d → GfMatrix4d → GfMatrix4d)
    (self : UsdMayaGLBatchRenderer) : List LegacyPick → UsdMayaGLBatchRenderer × List Bool
  | [] => (self, [])
  | pick :: rest =>
    let r := TestIntersectionLegacy intersector heap PXRMAYAHD_ENABLE_DEPTH_SELECTION mul self
      pick.shapeAdapter pick.rootXformInverse pick.view pick.singleSelection
    let next := legacyPicks intersector heap PXRMAYAHD_ENABLE_DEPTH_SELECTION mul r.state rest
    (next.1, r.computedSelection :: next.2)

end UsdMayaGLBatchRenderer

namespace Example

/-- A batch renderer constructed with `MAYA_VP2_USE_VP1_SELECTION` set. -/
def freshWithLegacySelection : UsdMayaGLBatchRenderer := UsdMayaGLBatchRenderer.new true true false

/-- The state after the legacy viewport shape adapter `L` was added to it: the legacy bucket map
has a bucket, the Viewport 2.0 bucket map has none. -/
def legacySelectionAfterL : UsdMayaGLBatchRenderer :=
  (freshWithLegacySelection.calls Hash [RegistryCall.Add L]).getD freshWithLegacySelection

/-- The state after `A`, `B` and `C` were added to it. -/
def legacySelectionAfterABC : UsdMayaGLBatchRenderer :=
  (freshWithLegacySelection.calls Hash
    [RegistryCall.Add A, RegistryCall.Add B, RegistryCall.Add C]).getD freshWithLegacySelection

/-- A batch renderer whose render index could not be created, after `L` was added. -/
def noRenderIndexAfterL : UsdMayaGLBatchRenderer :=
  ((UsdMayaGLBatchRenderer.new false false false).calls Hash [RegistryCall.Add L]).getD fresh

/-- A batch renderer whose render index could not be created, after `A`, `B` and `C` were
added. -/
def noRenderIndexAfterABC : UsdMayaGLBatchRenderer :=
  ((UsdMayaGLBatchRenderer.new false false false).calls Hash
    [RegistryCall.Add A, RegistryCall.Add B, RegistryCall.Add C]).getD fresh

/-- The product of two matrices of the examples. -/
def mul (a b : GfMatrix4d) : GfMatrix4d := a ++ b

/-- A selection of `L` in a view whose renderer is Viewport 2.0. -/
def pick : UsdMayaGLBatchRenderer.LegacyPick := ⟨L, [], viewOfViewport2, false⟩

/-- A selection of `L` in a view of the legacy viewport. -/
def pickOfLegacy : UsdMayaGLBatchRenderer.LegacyPick := ⟨L, [], view, false⟩

end Example

/-! ## The pick in a custom collection, sequences of draws -/

namespace UsdMayaGLBatchRenderer

/-- The arguments of one call of the `Draw` of Viewport 2.0. -/
structure DrawCall where
  /-- The draw context. -/
  context : MDrawContext
  /-- The user data, `none` when it is not a `PxrMayaHdUserData`. -/
  hdUserData : Option PxrMayaHdUserData

/-- Calls of the `Draw` of Viewport 2.0 made one after the other: the state left by the last
call and, call by call, whether the call made a batch render (a submission to `_Render`).
There is no result when one of the calls has none. -/
def draws (Hash : PxrMayaHdRenderParams → Nat) (heap : Nat → PxrMayaHdShapeAdapter)
    (drawAPIIsOpenGL : Bool) (self : UsdMayaGLBatchRenderer) :
    List DrawCall → Option (UsdMayaGLBatchRenderer × List Bool)
  | [] => some (self, [])
  | c :: rest =>
    match Draw Hash heap self drawAPIIsOpenGL c.context c.hdUserData with
    | none => none
    | some r =>
      match draws Hash heap drawAPIIsOpenGL r.state rest with
      | none => none
      | some next => some (next.1, r.submission.isSome :: next.2)

/-- The number of calls with the render pass `passId` that made a batch render. -/
def rendersOfPass (cs : List DrawCall) (renders : List Bool) (passId : String) : Nat :=
  ((cs.zip renders).filter
    (fun p => decide (p.1.context.passIdentifier = passId) && p.2)).length

end UsdMayaGLBatchRenderer

namespace Example

/-- A draw context of Viewport 2.0 with the frame stamp 7 in the pass `shadowPass`. -/
def contextOfShadowPass : MDrawContext := ⟨7, "shadowPass", [1], [2], [3], [0, 0, 640, 480], none⟩

/-- A draw context of Viewport 2.0 with the frame stamp 8 in the pass `colorPass`. -/
def contextOfNextFrame : MDrawContext := ⟨8, "colorPass", [1], [2], [3], [0, 0, 640, 480], none⟩

/-- User data of a shape that is drawn. -/
def userData : PxrMayaHdUserData := ⟨true, none, none⟩

/-- User data of a shape of which only the bounding box is drawn. -/
def userDataOfBoundingBox : PxrMayaHdUserData := ⟨false, some [0, 1], some [1, 1, 1]⟩

end Example

/-! ## The export job: the master of an instance -/

/-- A DAG path (`MDagPath`) as the export job looks at it. -/
structure MDagPath where
  /-- The handle `MObjectHandle(dg.node())`. -/
  node : Nat
  /-- The value of `instanceNumber()`. -/
  instanceNumber : Nat
  /-- The value of `fullPathName()`. -/
  fullPathName : String
deriving DecidableEq, Repr

/-- The members of `usdWriteJob` that `getMayaMasterPath` reads and writes. -/
structure usdWriteJob where
  /-- The DAG paths that are exported. -/
  mMayaDagPathList : UnorderedSet MDagPath
  /-- The master found for a node by an earlier call. -/
  mMasterDagMap : UnorderedMap Nat MDagPath

namespace usdWriteJob

/-- The loop `for (unsigned int i = 0; i <= instanceNumber; ++i)` of `getMayaMasterPath` from
`i` on, with `remaining` iterations to go, and the `return dg` after it.  There is no result
when `allInstances[i]` is read past the end of the array. -/
def scanInstances (self : usdWriteJob) (allInstances : List MDagPath) (handle : Nat)
    (dg : MDagPath) : Nat → Nat → Option (MDagPath × usdWriteJob)
  | _, 0 => some (dg, self)
  | i, remaining + 1 =>
    match allInstances[i]? with
    | none => none
    | some currDag =>
      if self.mMayaDagPathList.contains currDag then
        some (currDag,
          { self with mMasterDagMap := (self.mMasterDagMap.emplace handle currDag).1 })
      else scanInstances self allInstances handle dg (i + 1) remaining

/-- The function `usdWriteJob::getMayaMasterPath`: the path returned and the job after the
call.  `getAllPathsTo` gives the array that `MDagPath::getAllPathsTo` fills for a node. -/
def getMayaMasterPath (getAllPathsTo : Nat → List MDagPath) (self : usdWriteJob)
    (dg : MDagPath) : Option (MDagPath × usdWriteJob) :=
  let instanceNumber := dg.instanceNumber
  -- if instance number is zero, and we are querying it, then it's always the master
  if instanceNumber = 0 then some (dg, self)
  else
    let handle := dg.node
    match self.mMasterDagMap.find handle with
    | some it => some (it, self)
    | none =>
      let allInstances := getAllPathsTo dg.node
      -- we are looking for the instance with the lowest number here which is still exported
      scanInstances self allInstances handle dg 0 (instanceNumber + 1)

/-- The function `usdWriteJob::isMasterInstance`. -/
def isMasterInstance (getAllPathsTo : Nat → List MDagPath) (self : usdWriteJob)
    (dg : MDagPath) : Option (Bool × usdWriteJob) :=
  (getMayaMasterPath getAllPathsTo self dg).map (fun r => (decide (r.1 = dg), r.2))

/-- Calls of `getMayaMasterPath` made one after the other: the job after the last call. -/
def masterQueries (getAllPathsTo : Nat → List MDagPath) (self : usdWriteJob) :
    List MDagPath → Option usdWriteJob
  | [] => some self
  | dg :: rest =>
    (getMayaMasterPath getAllPathsTo self dg).bind
      (fun r => masterQueries getAllPathsTo r.2 rest)

/-- The exported instance with the lowest instance number not above `instanceNumber`, in an
array of instances ordered by instance number. -/
def lowestExported (exported : UnorderedSet MDagPath) (allInstances : List MDagPath)
    (instanceNumber : Nat) : Option MDagPath :=
  (allInstances.take (instanceNumber + 1)).find? (fun p => exported.contains p)

/-- The cache of masters holds, for a node, the exported instance of the node with the lowest
instance number. -/
def CacheHoldsLowest (getAllPathsTo : Nat → List MDagPath) (self : usdWriteJob) : Prop :=
  ∀ node p, self.mMasterDagMap.find node = some p →
    (getAllPathsTo node).find? (fun q => self.mMayaDagPathList.contains q) = some p

end usdWriteJob

/-! ## The GLSL type name of a buffer resource -/

namespace HdBufferResource

/-- The OpenGL constant `GL_FLOAT`. -/
def GL_FLOAT : Int := 0x1406

/-- The OpenGL constant `GL_DOUBLE`. -/
def GL_DOUBLE : Int := 0x140A

/-- The OpenGL constant `GL_INT`. -/
def GL_INT : Int := 0x1404

/-- The OpenGL constant `GL_SAMPLER_2D`. -/
def GL_SAMPLER_2D : Int := 0x8B5E

/-- The OpenGL constant `GL_SAMPLER_2D_ARRAY`. -/
def GL_SAMPLER_2D_ARRAY : Int := 0x8DC1

/-- The OpenGL constant `GL_INT_SAMPLER_BUFFER`. -/
def GL_INT_SAMPLER_BUFFER : Int := 0x8DD0

/-- The OpenGL constant `GL_INT_2_10_10_10_REV`. -/
def GL_INT_2_10_10_10_REV : Int := 0x8D9F

/-- The OpenGL constant `GL_BOOL`. -/
def GL_BOOL : Int := 0x8B56

/-- The read `table[index]` of a C array: there is no result outside the array. -/
def arrayAt (table : List TfToken) (index : Int) : Option TfToken :=
  if 0 ≤ index then table[index.toNat]? else none

/-- The function `HdBufferResource::GetGLTypeName` for the members `_glDataType` and
`_numComponents`.  There is no result when a table is read outside its four elements. -/
def GetGLTypeName (_glDataType : Int) (_numComponents : Int) : Option TfToken :=
  if _glDataType = GL_FLOAT then
    if _numComponents ≤ 4 then
      let fvecs : List TfToken := ["float", "vec2", "vec3", "vec4"]
      arrayAt fvecs (_numComponents - 1)
    else if _numComponents = 16 then some "mat4"
    else some "float"
  else if _glDataType = GL_DOUBLE then
    if _numComponents ≤ 4 then
      let dvecs : List TfToken := ["double", "dvec2", "dvec3", "dvec4"]
      arrayAt dvecs (_numComponents - 1)
    else if _numComponents = 16 then some "dmat4"
    else some "float"
  else if _glDataType = GL_INT then
    if _numComponents ≤ 4 then
      let ivecs : List TfToken := ["int", "ivec2", "ivec3", "ivec4"]
      arrayAt ivecs (_numComponents - 1)
    else some "float"
  else if _glDataType = GL_SAMPLER_2D then some "uvec2"
  else if _glDataType = GL_SAMPLER_2D_ARRAY then some "uvec2"
  else if _glDataType = GL_INT_SAMPLER_BUFFER then some "uvec2"
  else if _glDataType = GL_INT_2_10_10_10_REV then some "vec4"
  else if _glDataType = GL_BOOL then some "bool"
  else
    -- for graceful error handling in the downstream code, returns float instead of empty
    some "float"

end HdBufferResource

namespace Example

/-- The four instances of the node 1. -/
def i0 : MDagPath := ⟨1, 0, "|a|shape"⟩

/-- The instance 1 of the node 1. -/
def i1 : MDagPath := ⟨1, 1, "|b|shape"⟩

/-- The instance 2 of the node 1. -/
def i2 : MDagPath := ⟨1, 2, "|c|shape"⟩

/-- The instance 3 of the node 1. -/
def i3 : MDagPath := ⟨1, 3, "|d|shape"⟩

/-- A scene in which the node 1 has four instances and no other node has any. -/
def getAllPathsTo (node : Nat) : List MDagPath := if node = 1 then [i0, i1, i2, i3] else []

/-- An export job that exports the instances 2 and 3 and has not looked for a master yet. -/
def job : usdWriteJob := ⟨⟨[i2, i3], by decide⟩, UnorderedMap.empty⟩

end Example
/-! ## Facts about the containers -/

namespace UnorderedSet

theorem ext_elems {α : Type} {s t : UnorderedSet α} (h : s.elems = t.elems) : s = t := by
  cases s; cases t; cases h; rfl

theorem isEmpty_iff {α : Type} (s : UnorderedSet α) : s.isEmpty = true ↔ s.elems = [] := by
  simp [isEmpty, List.isEmpty_iff]

variable {α : Type} [DecidableEq α]

theorem contains_iff (s : UnorderedSet α) (a : α) : s.contains a = true ↔ a ∈ s.elems := by
  simp [contains]

theorem mem_erase (s : UnorderedSet α) (a b : α) :
    b ∈ (s.erase a).elems ↔ b ∈ s.elems ∧ b ≠ a := by
  simp [erase, List.mem_filter]

theorem erase_of_not_mem (s : UnorderedSet α) (a : α) (h : a ∉ s.elems) : s.erase a = s := by
  apply ext_elems
  simp only [erase]
  rw [List.filter_eq_self]
  intro b hb
  have : b ≠ a := fun hba => h (hba ▸ hb)
  simp [this]

theorem mem_insert (s : UnorderedSet α) (a b : α) :
    b ∈ (s.insert a).elems ↔ b = a ∨ b ∈ s.elems := by
  unfold insert
  by_cases h : a ∈ s.elems
  · simp only [h, dite_true]
    constructor
    · exact Or.inr
    · rintro (rfl | hb)
      · exact h
      · exact hb
  · simp [h]

theorem insert_elems_of_not_mem (s : UnorderedSet α) (a : α) (h : a ∉ s.elems) :
    (s.insert a).elems = a :: s.elems := by
  simp [insert, h]

theorem erase_insert_of_not_mem (s : UnorderedSet α) (a : α) (h : a ∉ s.elems) :
    (s.insert a).erase a = s := by
  apply ext_elems
  simp only [erase, insert_elems_of_not_mem s a h]
  rw [List.filter_cons]
  simp only [ne_eq, not_true_eq_false, decide_False, Bool.false_eq_true, if_false]
  rw [List.filter_eq_self]
  intro b hb
  have : b ≠ a := fun hba => h (hba ▸ hb)
  simp [this]

theorem erase_singleton (a : α) : ((singleton a).erase a).elems = [] := by
  simp [erase, singleton]

theorem eraseCount_eq (s : UnorderedSet α) (a : α) :
    s.eraseCount a = if s.contains a then 1 else 0 := by
  simp [eraseCount, contains]

end UnorderedSet

namespace UnorderedMap

theorem ext_entries {K V : Type} {m n : UnorderedMap K V} (h : m.entries = n.entries) :
    m = n := by
  cases m; cases n; cases h; rfl

/-- In a list with pairwise distinct keys a key has one value. -/
theorem value_unique {K V : Type} {l : List (K × V)} (hl : (l.map Prod.fst).Nodup) {k : K}
    {v w : V}
    (hv : (k, v) ∈ l) (hw : (k, w) ∈ l) : v = w := by
  induction l with
  | nil => cases hv
  | cons e l ih =>
    rw [List.map_cons, List.nodup_cons] at hl
    rcases List.mem_cons.mp hv with hv | hv
    · rcases List.mem_cons.mp hw with hw | hw
      · rw [← hv] at hw; exact (Prod.mk.inj hw).2.symm
      · exact absurd (List.mem_map.mpr ⟨(k, w), hw, by rw [← hv]⟩) hl.1
    · rcases List.mem_cons.mp hw with hw | hw
      · exact absurd (List.mem_map.mpr ⟨(k, v), hv, by rw [← hw]⟩) hl.1
      · exact ih hl.2 hv hw

variable {K V : Type} [DecidableEq K]

theorem find_eq_some_iff (m : UnorderedMap K V) (k : K) (v : V) :
    m.find k = some v ↔ (k, v) ∈ m.entries := by
  unfold find
  constructor
  · intro h
    rw [Option.map_eq_some'] at h
    obtain ⟨e, he, hev⟩ := h
    have h1 := List.find?_some he
    have h2 := List.mem_of_find?_eq_some he
    simp only [decide_eq_true_eq] at h1
    rcases e with ⟨k', v'⟩
    simp only at h1 hev
    subst h1; subst hev
    exact h2
  · intro h
    cases hf : m.entries.find? (fun e => decide (e.1 = k)) with
    | none =>
      rw [List.find?_eq_none] at hf
      have := hf (k, v) h
      simp at this
    | some e =>
      have h1 := List.find?_some hf
      have h2 := List.mem_of_find?_eq_some hf
      simp only [decide_eq_true_eq] at h1
      rcases e with ⟨k', v'⟩
      simp only at h1
      subst h1
      simp only [Option.map_some']
      exact congrArg some (value_unique m.nodupKeys h2 h)

theorem find_eq_none_iff (m : UnorderedMap K V) (k : K) :
    m.find k = none ↔ k ∉ m.entries.map Prod.fst := by
  unfold find
  rw [Option.map_eq_none', List.find?_eq_none]
  simp only [decide_eq_true_eq, List.mem_map, not_exists, not_and]

theorem find_empty (k : K) : (empty : UnorderedMap K V).find k = none := by
  simp [find, empty]

theorem find_erase (m : UnorderedMap K V) (k k' : K) :
    (m.erase k).find k' = if k' = k then none else m.find k' := by
  by_cases h : k' = k
  · subst h
    simp only [if_true]
    rw [find_eq_none_iff]
    simp [erase, List.mem_filter]
  · simp only [h, if_false]
    apply Option.ext
    intro v
    simp only [Option.mem_def]
    rw [find_eq_some_iff, find_eq_some_iff]
    simp [erase, List.mem_filter, h]

theorem erase_of_find_none (m : UnorderedMap K V) (k : K) (h : m.find k = none) :
    m.erase k = m := by
  apply ext_entries
  simp only [erase]
  rw [List.filter_eq_self]
  intro e he
  rw [find_eq_none_iff] at h
  have : e.1 ≠ k := fun hk => h (List.mem_map.mpr ⟨e, he, hk⟩)
  simp [this]

theorem set_entries_of_none (m : UnorderedMap K V) (k : K) (v : V) (h : m.find k = none) :
    (m.set k v).entries = (k, v) :: m.entries := by
  rw [find_eq_none_iff] at h
  simp [set, h]

theorem set_entries_of_some (m : UnorderedMap K V) (k : K) (v w : V) (h : m.find k = some w) :
    (m.set k v).entries = m.entries.map (fun e => if e.1 = k then (k, v) else e) := by
  rw [find_eq_some_iff] at h
  have hk : k ∈ m.entries.map Prod.fst := List.mem_map.mpr ⟨(k, w), h, rfl⟩
  simp [set, hk]

theorem find_set (m : UnorderedMap K V) (k k' : K) (v : V) :
    (m.set k v).find k' = if k' = k then some v else m.find k' := by
  cases hf : m.find k with
  | none =>
    have he := set_entries_of_none m k v hf
    by_cases h : k' = k
    · subst h
      simp only [if_true]
      rw [find_eq_some_iff, he]
      exact List.mem_cons_self _ _
    · simp only [h, if_false]
      apply Option.ext
      intro u
      simp only [Option.mem_def]
      rw [find_eq_some_iff, find_eq_some_iff, he]
      simp [h]
  | some w =>
    have he := set_entries_of_some m k v w hf
    by_cases h : k' = k
    · subst h
      simp only [if_true]
      rw [find_eq_some_iff, he, List.mem_map]
      exact ⟨(k', w), (find_eq_some_iff m k' w).mp hf, by simp⟩
    · simp only [h, if_false]
      apply Option.ext
      intro u
      simp only [Option.mem_def]
      rw [find_eq_some_iff, find_eq_some_iff, he, List.mem_map]
      constructor
      · rintro ⟨e, he1, he2⟩
        by_cases hek : e.1 = k
        · simp only [hek, if_true] at he2
          exact absurd (Prod.mk.inj he2).1.symm h
        · simp only [hek, if_false] at he2
          rw [← he2]; exact he1
      · intro hu
        exact ⟨(k', u), hu, by simp [h]⟩

theorem erase_set_of_none (m : UnorderedMap K V) (k : K) (v : V) (h : m.find k = none) :
    (m.set k v).erase k = m := by
  apply ext_entries
  simp only [erase, set_entries_of_none m k v h]
  rw [List.filter_cons]
  simp only [ne_eq, not_true_eq_false, decide_False, Bool.false_eq_true, if_false]
  rw [List.filter_eq_self]
  intro e he
  rw [find_eq_none_iff] at h
  have : e.1 ≠ k := fun hk => h (List.mem_map.mpr ⟨e, he, hk⟩)
  simp [this]

theorem foldl_erase_entries (hs : List K) (m : UnorderedMap K V) :
    (hs.foldl (fun n h => n.erase h) m).entries
      = m.entries.filter (fun e => decide (e.1 ∉ hs)) := by
  induction hs generalizing m with
  | nil => simp
  | cons h hs ih =>
    rw [List.foldl_cons, ih]
    simp only [erase, List.filter_filter]
    apply List.filter_congr
    intro e _
    by_cases h1 : e.1 = h <;> by_cases h2 : e.1 ∈ hs <;> simp [h1, h2]

end UnorderedMap

/-! ## The registry of shape adapters -/

namespace UsdMayaGLBatchRenderer

theorem forEachAux_removeFromBucket (x : Nat) (l : List (Nat × _ShapeAdapterBucket))
    (st : Nat × List Nat) :
    (UnorderedMap.forEachAux (removeFromBucket x) l st).1
        = (st.1 + (l.filter (fun e => e.2.2.contains x)).length,
           st.2 ++ (l.filter (fun e => (e.2.2.erase x).isEmpty)).map Prod.fst) ∧
      (UnorderedMap.forEachAux (removeFromBucket x) l st).2.1
        = l.map (fun e => (e.1, e.2.1, e.2.2.erase x)) := by
  induction l generalizing st with
  | nil => simp [UnorderedMap.forEachAux]
  | cons e l ih =>
    rcases e with ⟨k, b⟩
    simp only [UnorderedMap.forEachAux]
    have h := ih (removeFromBucket x st k b).1
    refine ⟨?_, ?_⟩
    · rw [h.1]
      simp only [removeFromBucket, UnorderedSet.eraseCount_eq, List.filter_cons]
      by_cases hc : b.2.contains x = true <;> by_cases he : (b.2.erase x).isEmpty = true <;>
        simp [hc, he] <;> omega
    · rw [h.2]
      simp [removeFromBucket]

theorem eraseFromBuckets_entries (m : _ShapeAdapterBucketsMap) (x : Nat) :
    (eraseFromBuckets m x).2.entries
      = (m.entries.map (fun e => (e.1, e.2.1, e.2.2.erase x))).filter
          (fun e => !e.2.2.isEmpty) := by
  simp only [eraseFromBuckets, UnorderedMap.forEach, UnorderedMap.foldl_erase_entries]
  rw [(forEachAux_removeFromBucket x m.entries (0, [])).2,
    (forEachAux_removeFromBucket x m.entries (0, [])).1]
  apply List.filter_congr
  intro e' he'
  obtain ⟨e, he, rfl⟩ := List.mem_map.mp he'
  simp only [List.nil_append]
  by_cases hemp : (e.2.2.erase x).isEmpty = true
  · simp only [hemp, Bool.not_true, decide_eq_false_iff_not, not_not]
    exact List.mem_map.mpr ⟨e, List.mem_filter.mpr ⟨he, hemp⟩, rfl⟩
  · simp only [hemp, Bool.not_false, decide_eq_true_eq]
    intro hmem
    obtain ⟨d, hd, hk⟩ := List.mem_map.mp hmem
    obtain ⟨hd, hdemp⟩ := List.mem_filter.mp hd
    have hd' : (e.1, d.2) ∈ m.entries := by
      have : (e.1, d.2) = d := by rw [← hk]
      rw [this]; exact hd
    have := UnorderedMap.value_unique m.nodupKeys hd' he
    rw [this] at hdemp
    exact hemp hdemp

theorem eraseFromBuckets_count (m : _ShapeAdapterBucketsMap) (x : Nat) :
    decide ((eraseFromBuckets m x).1 > 0) = isMember m x := by
  simp only [eraseFromBuckets, UnorderedMap.forEach,
    (forEachAux_removeFromBucket x m.entries (0, [])).1, Nat.zero_add, isMember]
  rw [Bool.eq_iff_iff]
  simp only [gt_iff_lt, decide_eq_true_eq, List.length_pos, List.any_eq_true, ne_eq,
    List.filter_eq_nil_iff, not_forall, Classical.not_imp, Decidable.not_not, exists_prop]

theorem eraseFromBuckets_find (m : _ShapeAdapterBucketsMap) (x k : Nat) :
    (eraseFromBuckets m x).2.find k
      = (m.find k).bind
          (fun b => if (b.2.erase x).isEmpty then none else some (b.1, b.2.erase x)) := by
  apply Option.ext
  intro v
  simp only [Option.mem_def]
  rw [UnorderedMap.find_eq_some_iff, eraseFromBuckets_entries, List.mem_filter, List.mem_map]
  constructor
  · rintro ⟨⟨e, he, hev⟩, hne⟩
    have hk : e.1 = k := (Prod.mk.inj hev).1
    have hf : m.find k = some e.2 := by
      rw [UnorderedMap.find_eq_some_iff, ← hk]; exact he
    rw [hf, Option.some_bind]
    have hv : v = (e.2.1, e.2.2.erase x) := (Prod.mk.inj hev).2.symm
    subst hv
    simp only [Bool.not_eq_true', Bool.not_eq_eq_eq_not, Bool.not_true] at hne
    simp [hne]
  · intro h
    cases hf : m.find k with
    | none => rw [hf] at h; cases h
    | some b =>
      rw [hf, Option.some_bind] at h
      by_cases hemp : (b.2.erase x).isEmpty = true
      · simp [hemp] at h
      · simp only [hemp, Bool.false_eq_true, if_false, Option.some.injEq] at h
        subst h
        refine ⟨⟨(k, b), (UnorderedMap.find_eq_some_iff m k b).mp hf, rfl⟩, ?_⟩
        simpa using hemp

end UsdMayaGLBatchRenderer

namespace UsdMayaGLBatchRenderer

@[simp] theorem bucketsMap_setBucketsMap (s : UsdMayaGLBatchRenderer) (v w : Bool)
    (m : _ShapeAdapterBucketsMap) :
    (s.setBucketsMap v m).bucketsMap w = if w = v then m else s.bucketsMap w := by
  cases v <;> cases w <;> simp [setBucketsMap, bucketsMap]

@[simp] theorem handleMap_setBucketsMap (s : UsdMayaGLBatchRenderer) (v w : Bool)
    (m : _ShapeAdapterBucketsMap) : (s.setBucketsMap v m).handleMap w = s.handleMap w := by
  cases v <;> cases w <;> simp [setBucketsMap, handleMap]

@[simp] theorem bucketsMap_setHandleMap (s : UsdMayaGLBatchRenderer) (v w : Bool)
    (m : _ShapeAdapterHandleMap) : (s.setHandleMap v m).bucketsMap w = s.bucketsMap w := by
  cases v <;> cases w <;> simp [setHandleMap, bucketsMap]

@[simp] theorem handleMap_setHandleMap (s : UsdMayaGLBatchRenderer) (v w : Bool)
    (m : _ShapeAdapterHandleMap) :
    (s.setHandleMap v m).handleMap w = if w = v then m else s.handleMap w := by
  cases v <;> cases w <;> simp [setHandleMap, handleMap]

theorem setBucketsMap_self (s : UsdMayaGLBatchRenderer) (v : Bool) :
    s.setBucketsMap v (s.bucketsMap v) = s := by
  cases v <;> simp [setBucketsMap, bucketsMap]

theorem setHandleMap_self (s : UsdMayaGLBatchRenderer) (v : Bool) :
    s.setHandleMap v (s.handleMap v) = s := by
  cases v <;> simp [setHandleMap, handleMap]

theorem setBucketsMap_setBucketsMap (s : UsdMayaGLBatchRenderer) (v : Bool)
    (m n : _ShapeAdapterBucketsMap) :
    (s.setBucketsMap v m).setBucketsMap v n = s.setBucketsMap v n := by
  cases v <;> simp [setBucketsMap]

theorem setHandleMap_setHandleMap (s : UsdMayaGLBatchRenderer) (v : Bool)
    (m n : _ShapeAdapterHandleMap) :
    (s.setHandleMap v m).setHandleMap v n = s.setHandleMap v n := by
  cases v <;> simp [setHandleMap]

theorem setBucketsMap_setHandleMap (s : UsdMayaGLBatchRenderer) (v : Bool)
    (m : _ShapeAdapterHandleMap) (n : _ShapeAdapterBucketsMap) :
    (s.setHandleMap v m).setBucketsMap v n = (s.setBucketsMap v n).setHandleMap v m := by
  cases v <;> simp [setHandleMap, setBucketsMap]

theorem RemoveShapeAdapter_some (self : UsdMayaGLBatchRenderer) (a : PxrMayaHdShapeAdapter) :
    self.RemoveShapeAdapter (some a)
      = (isMember (self.bucketsMap a.isViewport2) a.addr,
         (self.setBucketsMap a.isViewport2
            (eraseFromBuckets (self.bucketsMap a.isViewport2) a.addr).2).setHandleMap
          a.isViewport2 ((self.handleMap a.isViewport2).erase a.dagNode)) := by
  simp only [RemoveShapeAdapter, eraseFromBuckets_count, handleMap_setBucketsMap]

theorem AddShapeAdapter_of_find_none (Hash : PxrMayaHdRenderParams → Nat)
    (self : UsdMayaGLBatchRenderer) (a : PxrMayaHdShapeAdapter)
    (h : (self.bucketsMap a.isViewport2).find (Hash a.renderParams) = none) :
    self.AddShapeAdapter Hash (some a)
      = some (true,
          (self.setBucketsMap a.isViewport2
            ((eraseFromBuckets (self.bucketsMap a.isViewport2) a.addr).2.set
              (Hash a.renderParams) (a.renderParams, UnorderedSet.singleton a.addr))).setHandleMap
            a.isViewport2 (((self.handleMap a.isViewport2).erase a.dagNode).set a.dagNode
              a.addr)) := by
  simp only [AddShapeAdapter, h, RemoveShapeAdapter_some, bucketsMap_setHandleMap,
    bucketsMap_setBucketsMap, if_true, handleMap_setBucketsMap, handleMap_setHandleMap,
    setBucketsMap_setHandleMap, setBucketsMap_setBucketsMap, setHandleMap_setHandleMap]

theorem AddShapeAdapter_of_mem (Hash : PxrMayaHdRenderParams → Nat)
    (self : UsdMayaGLBatchRenderer) (a : PxrMayaHdShapeAdapter) (b : _ShapeAdapterBucket)
    (h : (self.bucketsMap a.isViewport2).find (Hash a.renderParams) = some b)
    (hmem : a.addr ∈ b.2.elems) :
    self.AddShapeAdapter Hash (some a) = some (false, self) := by
  have hc : b.2.contains a.addr = true := (UnorderedSet.contains_iff _ _).mpr hmem
  simp only [AddShapeAdapter, h, hc, if_true]

theorem eraseFromBuckets_find_of_not_mem (m : _ShapeAdapterBucketsMap) (x k : Nat)
    (b : _ShapeAdapterBucket) (h : m.find k = some b) (hmem : x ∉ b.2.elems) :
    (eraseFromBuckets m x).2.find k = if b.2.elems = [] then none else some b := by
  rw [eraseFromBuckets_find, h, Option.some_bind, UnorderedSet.erase_of_not_mem _ _ hmem]
  by_cases he : b.2.elems = []
  · simp [he, UnorderedSet.isEmpty_iff]
  · have : ¬ b.2.isEmpty = true := fun hh => he ((UnorderedSet.isEmpty_iff _).mp hh)
    simp [he, this]

theorem AddShapeAdapter_of_not_mem (Hash : PxrMayaHdRenderParams → Nat)
    (self : UsdMayaGLBatchRenderer) (a : PxrMayaHdShapeAdapter) (b : _ShapeAdapterBucket)
    (h : (self.bucketsMap a.isViewport2).find (Hash a.renderParams) = some b)
    (hmem : a.addr ∉ b.2.elems) (hne : b.2.elems ≠ []) :
    self.AddShapeAdapter Hash (some a)
      = some (true,
          (self.setBucketsMap a.isViewport2
            ((eraseFromBuckets (self.bucketsMap a.isViewport2) a.addr).2.set
              (Hash a.renderParams) (b.1, b.2.insert a.addr))).setHandleMap
            a.isViewport2 (((self.handleMap a.isViewport2).erase a.dagNode).set a.dagNode
              a.addr)) := by
  have hc : ¬ b.2.contains a.addr = true := fun hh => hmem ((UnorderedSet.contains_iff _ _).mp hh)
  have hf := eraseFromBuckets_find_of_not_mem _ _ _ b h hmem
  simp only [hne, if_false] at hf
  simp only [AddShapeAdapter, h, hc, if_false, RemoveShapeAdapter_some, bucketsMap_setHandleMap,
    bucketsMap_setBucketsMap, if_true, handleMap_setBucketsMap, handleMap_setHandleMap,
    setBucketsMap_setHandleMap, setBucketsMap_setBucketsMap, setHandleMap_setHandleMap, hf,
    Bool.false_eq_true]

theorem AddShapeAdapter_of_empty (Hash : PxrMayaHdRenderParams → Nat)
    (self : UsdMayaGLBatchRenderer) (a : PxrMayaHdShapeAdapter) (b : _ShapeAdapterBucket)
    (h : (self.bucketsMap a.isViewport2).find (Hash a.renderParams) = some b)
    (hemp : b.2.elems = []) :
    self.AddShapeAdapter Hash (some a) = none := by
  have hmem : a.addr ∉ b.2.elems := by rw [hemp]; exact List.not_mem_nil _
  have hc : ¬ b.2.contains a.addr = true := fun hh => hmem ((UnorderedSet.contains_iff _ _).mp hh)
  have hf := eraseFromBuckets_find_of_not_mem _ _ _ b h hmem
  simp only [hemp, if_true] at hf
  simp only [AddShapeAdapter, h, hc, if_false, RemoveShapeAdapter_some, bucketsMap_setHandleMap,
    bucketsMap_setBucketsMap, if_true, hf, Bool.false_eq_true]

end UsdMayaGLBatchRenderer

namespace UsdMayaGLBatchRenderer

theorem inBucket_iff (m : _ShapeAdapterBucketsMap) (k y : Nat) :
    inBucket m k y = true ↔ ∃ b, m.find k = some b ∧ y ∈ b.2.elems := by
  unfold inBucket
  cases h : m.find k with
  | none => simp
  | some b => simp [UnorderedSet.contains_iff]

theorem inBucket_eraseFromBuckets (m : _ShapeAdapterBucketsMap) (x k y : Nat) :
    inBucket (eraseFromBuckets m x).2 k y = (inBucket m k y && decide (y ≠ x)) := by
  rw [Bool.eq_iff_iff, Bool.and_eq_true, inBucket_iff, inBucket_iff, eraseFromBuckets_find]
  simp only [decide_eq_true_eq]
  cases hf : m.find k with
  | none => simp
  | some b =>
    rw [Option.some_bind]
    constructor
    · rintro ⟨c, hc, hy⟩
      by_cases hemp : (b.2.erase x).isEmpty = true
      · simp [hemp] at hc
      · simp only [hemp, Bool.false_eq_true, if_false, Option.some.injEq] at hc
        subst hc
        have := (UnorderedSet.mem_erase _ _ _).mp hy
        exact ⟨⟨b, rfl, this.1⟩, this.2⟩
    · rintro ⟨⟨c, hc, hy⟩, hne⟩
      cases hc
      have hy' : y ∈ (b.2.erase x).elems := (UnorderedSet.mem_erase _ _ _).mpr ⟨hy, hne⟩
      have hemp : ¬ (b.2.erase x).isEmpty = true := by
        intro hh
        rw [UnorderedSet.isEmpty_iff] at hh
        rw [hh] at hy'
        cases hy'
      refine ⟨(b.1, b.2.erase x), ?_, hy'⟩
      simp only [hemp, Bool.false_eq_true, if_false]

theorem inBucket_set (m : _ShapeAdapterBucketsMap) (h : Nat) (b : _ShapeAdapterBucket)
    (k y : Nat) :
    inBucket (m.set h b) k y = if k = h then b.2.contains y else inBucket m k y := by
  unfold inBucket
  rw [UnorderedMap.find_set]
  by_cases hk : k = h <;> simp [hk]

theorem isMember_iff (m : _ShapeAdapterBucketsMap) (y : Nat) :
    isMember m y = true ↔ ∃ k, inBucket m k y = true := by
  simp only [isMember, List.any_eq_true, inBucket_iff, UnorderedSet.contains_iff]
  constructor
  · rintro ⟨e, he, hy⟩
    exact ⟨e.1, e.2, (UnorderedMap.find_eq_some_iff m e.1 e.2).mpr he, hy⟩
  · rintro ⟨k, b, hb, hy⟩
    exact ⟨(k, b), (UnorderedMap.find_eq_some_iff m k b).mp hb, hy⟩

theorem mem_bucketsOf (m : _ShapeAdapterBucketsMap) (k y : Nat) :
    k ∈ bucketsOf m y ↔ inBucket m k y = true := by
  simp only [bucketsOf, List.mem_map, List.mem_filter, inBucket_iff, UnorderedSet.contains_iff]
  constructor
  · rintro ⟨e, ⟨he, hy⟩, rfl⟩
    exact ⟨e.2, (UnorderedMap.find_eq_some_iff m e.1 e.2).mpr he, hy⟩
  · rintro ⟨b, hb, hy⟩
    exact ⟨(k, b), ⟨(UnorderedMap.find_eq_some_iff m k b).mp hb, hy⟩, rfl⟩

theorem nodup_bucketsOf (m : _ShapeAdapterBucketsMap) (y : Nat) : (bucketsOf m y).Nodup :=
  m.nodupKeys.sublist ((List.filter_sublist m.entries).map Prod.fst)

theorem bucketsOf_eq_nil_iff (m : _ShapeAdapterBucketsMap) (y : Nat) :
    bucketsOf m y = [] ↔ ∀ k, inBucket m k y = false := by
  rw [List.eq_nil_iff_forall_not_mem]
  simp only [mem_bucketsOf, Bool.not_eq_true]

/-- A shape adapter that is in the bucket `h` and in no other has the bucket list `[h]`. -/
theorem bucketsOf_eq_singleton (m : _ShapeAdapterBucketsMap) (y h : Nat)
    (hin : ∀ k, inBucket m k y = true ↔ k = h) : bucketsOf m y = [h] := by
  have hnd := nodup_bucketsOf m y
  have hmem : ∀ k, k ∈ bucketsOf m y ↔ k = h := fun k => (mem_bucketsOf m k y).trans (hin k)
  generalize bucketsOf m y = l at hnd hmem
  match l, hnd, hmem with
  | [], _, hmem => exact absurd ((hmem h).mpr rfl) (List.not_mem_nil _)
  | [k], _, hmem => rw [(hmem k).mp (List.mem_cons_self _ _)]
  | k :: k' :: rest, hnd, hmem =>
    have h1 := (hmem k).mp (List.mem_cons_self _ _)
    have h2 := (hmem k').mp (List.mem_cons_of_mem _ (List.mem_cons_self _ _))
    rw [List.nodup_cons] at hnd
    exact absurd (h1.trans h2.symm ▸ List.mem_cons_self _ _) hnd.1

end UsdMayaGLBatchRenderer

namespace UsdMayaGLBatchRenderer

theorem noEmptyBucket_iff (m : _ShapeAdapterBucketsMap) :
    NoEmptyBucket m ↔ ∀ k b, m.find k = some b → b.2.elems ≠ [] := by
  unfold NoEmptyBucket
  constructor
  · intro h k b hb
    exact h (k, b) ((UnorderedMap.find_eq_some_iff m k b).mp hb)
  · intro h e he
    exact h e.1 e.2 ((UnorderedMap.find_eq_some_iff m e.1 e.2).mpr he)

theorem noEmptyBucket_empty : NoEmptyBucket (UnorderedMap.empty : _ShapeAdapterBucketsMap) := by
  intro e he
  cases he

theorem noEmptyBucket_eraseFromBuckets (m : _ShapeAdapterBucketsMap) (x : Nat) :
    NoEmptyBucket (eraseFromBuckets m x).2 := by
  intro e he
  rw [eraseFromBuckets_entries, List.mem_filter] at he
  intro hemp
  have := (UnorderedSet.isEmpty_iff e.2.2).mpr hemp
  simp [this] at he

theorem noEmptyBucket_set (m : _ShapeAdapterBucketsMap) (h : Nat) (b : _ShapeAdapterBucket)
    (hm : NoEmptyBucket m) (hb : b.2.elems ≠ []) : NoEmptyBucket (m.set h b) := by
  rw [noEmptyBucket_iff] at hm ⊢
  intro k c hc
  rw [UnorderedMap.find_set] at hc
  by_cases hk : k = h
  · simp only [hk, if_true, Option.some.injEq] at hc
    rw [← hc]; exact hb
  · simp only [hk, if_false] at hc
    exact hm k c hc

/-- What `RemoveShapeAdapter` does to the maps. -/
theorem RemoveShapeAdapter_post (self : UsdMayaGLBatchRenderer) (a : PxrMayaHdShapeAdapter) :
    (self.RemoveShapeAdapter (some a)).1 = isMember (self.bucketsMap a.isViewport2) a.addr ∧
    (∀ k y, inBucket ((self.RemoveShapeAdapter (some a)).2.bucketsMap a.isViewport2) k y
      = (inBucket (self.bucketsMap a.isViewport2) k y && decide (y ≠ a.addr))) ∧
    (∀ n, ((self.RemoveShapeAdapter (some a)).2.handleMap a.isViewport2).find n
      = if n = a.dagNode then none else (self.handleMap a.isViewport2).find n) ∧
    (∀ w, w ≠ a.isViewport2 →
      (self.RemoveShapeAdapter (some a)).2.bucketsMap w = self.bucketsMap w ∧
      (self.RemoveShapeAdapter (some a)).2.handleMap w = self.handleMap w) ∧
    NoEmptyBucket ((self.RemoveShapeAdapter (some a)).2.bucketsMap a.isViewport2) := by
  rw [RemoveShapeAdapter_some]
  refine ⟨rfl, ?_, ?_, ?_, ?_⟩
  · intro k y
    simp only [bucketsMap_setHandleMap, bucketsMap_setBucketsMap, if_true,
      inBucket_eraseFromBuckets]
  · intro n
    simp only [handleMap_setHandleMap, if_true, UnorderedMap.find_erase]
  · intro w hw
    simp [hw]
  · simp only [bucketsMap_setHandleMap, bucketsMap_setBucketsMap, if_true]
    exact noEmptyBucket_eraseFromBuckets _ _

/-- What `AddShapeAdapter` does to the maps when the bucket of the hash of the render params,
if there is one, is not empty. -/
theorem AddShapeAdapter_post (Hash : PxrMayaHdRenderParams → Nat)
    (self : UsdMayaGLBatchRenderer) (a : PxrMayaHdShapeAdapter)
    (hne : ∀ b, (self.bucketsMap a.isViewport2).find (Hash a.renderParams) = some b →
      b.2.elems ≠ []) :
    ∃ r s, self.AddShapeAdapter Hash (some a) = some (r, s) ∧
      (r = false ↔
        inBucket (self.bucketsMap a.isViewport2) (Hash a.renderParams) a.addr = true) ∧
      (r = false → s = self) ∧
      (r = true →
        (∀ k y, inBucket (s.bucketsMap a.isViewport2) k y
          = if y = a.addr then decide (k = Hash a.renderParams)
            else inBucket (self.bucketsMap a.isViewport2) k y) ∧
        (∀ n, (s.handleMap a.isViewport2).find n
          = if n = a.dagNode then some a.addr else (self.handleMap a.isViewport2).find n)) ∧
      (∀ w, w ≠ a.isViewport2 →
        s.bucketsMap w = self.bucketsMap w ∧ s.handleMap w = self.handleMap w) ∧
      (NoEmptyBucket (self.bucketsMap a.isViewport2) →
        NoEmptyBucket (s.bucketsMap a.isViewport2)) := by
  have hhandle : ∀ (t : UsdMayaGLBatchRenderer) (n : Nat),
      ((t.setHandleMap a.isViewport2
        (((self.handleMap a.isViewport2).erase a.dagNode).set a.dagNode a.addr)).handleMap
          a.isViewport2).find n
        = if n = a.dagNode then some a.addr else (self.handleMap a.isViewport2).find n := by
    intro t n
    simp only [handleMap_setHandleMap, if_true, UnorderedMap.find_set, UnorderedMap.find_erase]
    by_cases hn : n = a.dagNode <;> simp [hn]
  cases hf : (self.bucketsMap a.isViewport2).find (Hash a.renderParams) with
  | none =>
    have hin : ∀ y, inBucket (self.bucketsMap a.isViewport2) (Hash a.renderParams) y = false := by
      intro y; simp [inBucket, hf]
    refine ⟨true, _, AddShapeAdapter_of_find_none Hash self a hf, ?_, ?_, ?_, ?_, ?_⟩
    · simp [hin]
    · intro h; cases h
    · intro _
      refine ⟨?_, hhandle _⟩
      intro k y
      simp only [bucketsMap_setHandleMap, bucketsMap_setBucketsMap, if_true, inBucket_set,
        inBucket_eraseFromBuckets, UnorderedSet.contains, UnorderedSet.singleton,
        List.mem_singleton]
      by_cases hk : k = Hash a.renderParams <;> by_cases hy : y = a.addr <;>
        simp [hk, hy, hin]
    · intro w hw
      simp [hw]
    · intro _
      simp only [bucketsMap_setHandleMap, bucketsMap_setBucketsMap, if_true]
      exact noEmptyBucket_set _ _ _ (noEmptyBucket_eraseFromBuckets _ _)
        (by simp [UnorderedSet.singleton])
  | some b =>
    have hin : ∀ y, inBucket (self.bucketsMap a.isViewport2) (Hash a.renderParams) y
        = b.2.contains y := by
      intro y; simp [inBucket, hf]
    by_cases hmem : a.addr ∈ b.2.elems
    · refine ⟨false, _, AddShapeAdapter_of_mem Hash self a b hf hmem, ?_, ?_, ?_, ?_, ?_⟩
      · simp [hin, UnorderedSet.contains_iff, hmem]
      · intro _; rfl
      · intro h; cases h
      · intro w _; exact ⟨rfl, rfl⟩
      · exact id
    · refine ⟨true, _, AddShapeAdapter_of_not_mem Hash self a b hf hmem (hne b hf),
        ?_, ?_, ?_, ?_, ?_⟩
      · simp [hin, UnorderedSet.contains_iff, hmem]
      · intro h; cases h
      · intro _
        refine ⟨?_, hhandle _⟩
        intro k y
        simp only [bucketsMap_setHandleMap, bucketsMap_setBucketsMap, if_true, inBucket_set,
          inBucket_eraseFromBuckets]
        have hc : ∀ z, (b.2.insert a.addr).contains z
            = (decide (z = a.addr) || b.2.contains z) := by
          intro z
          rw [Bool.eq_iff_iff]
          simp [UnorderedSet.contains_iff, UnorderedSet.mem_insert]
        by_cases hk : k = Hash a.renderParams <;> by_cases hy : y = a.addr <;>
          simp [hk, hy, hin, hc]
      · intro w hw
        simp [hw]
      · intro _
        simp only [bucketsMap_setHandleMap, bucketsMap_setBucketsMap, if_true]
        refine noEmptyBucket_set _ _ _ (noEmptyBucket_eraseFromBuckets _ _) ?_
        intro hemp
        have : a.addr ∈ (b.2.insert a.addr).elems :=
          (UnorderedSet.mem_insert _ _ _).mpr (Or.inl rfl)
        rw [hemp] at this
        cases this

end UsdMayaGLBatchRenderer

namespace UsdMayaGLBatchRenderer

theorem calls_append (Hash : PxrMayaHdRenderParams → Nat) (l1 l2 : List RegistryCall)
    (self : UsdMayaGLBatchRenderer) :
    self.calls Hash (l1 ++ l2) = (self.calls Hash l1).bind (fun t => t.calls Hash l2) := by
  induction l1 generalizing self with
  | nil => simp [calls]
  | cons c l ih =>
    simp only [List.cons_append, calls]
    cases self.call Hash c with
    | none => simp
    | some t => simp [ih]

theorem calls_snoc (Hash : PxrMayaHdRenderParams → Nat) (l : List RegistryCall)
    (c : RegistryCall) (self : UsdMayaGLBatchRenderer) :
    self.calls Hash (l ++ [c]) = (self.calls Hash l).bind (fun t => t.call Hash c) := by
  rw [calls_append]
  congr 1
  funext t
  simp only [calls]
  cases t.call Hash c <;> simp

theorem new_bucketsMap (x y z w : Bool) : (new x y z).bucketsMap w = UnorderedMap.empty := by
  cases w <;> rfl

theorem new_handleMap (x y z w : Bool) : (new x y z).handleMap w = UnorderedMap.empty := by
  cases w <;> rfl

/-- A call on a state without empty buckets has a result, and the result has no empty
bucket. -/
theorem call_noEmpty (Hash : PxrMayaHdRenderParams → Nat) (self : UsdMayaGLBatchRenderer)
    (c : RegistryCall) (h : ∀ w, NoEmptyBucket (self.bucketsMap w)) :
    ∃ s, self.call Hash c = some s ∧ ∀ w, NoEmptyBucket (s.bucketsMap w) := by
  cases c with
  | Add a =>
    obtain ⟨r, s, hs, -, -, -, hother, hown⟩ := AddShapeAdapter_post Hash self a
      (fun b hb => (noEmptyBucket_iff _).mp (h a.isViewport2) _ b hb)
    refine ⟨s, by simp [call, hs], ?_⟩
    intro w
    by_cases hw : w = a.isViewport2
    · rw [hw]; exact hown (h _)
    · rw [(hother w hw).1]; exact h w
  | Remove a =>
    obtain ⟨-, -, -, hother, hown⟩ := RemoveShapeAdapter_post self a
    refine ⟨_, rfl, ?_⟩
    intro w
    by_cases hw : w = a.isViewport2
    · rw [hw]; exact hown
    · rw [(hother w hw).1]; exact h w

theorem calls_noEmpty (Hash : PxrMayaHdRenderParams → Nat) (cs : List RegistryCall)
    (self : UsdMayaGLBatchRenderer) (h : ∀ w, NoEmptyBucket (self.bucketsMap w)) :
    ∃ s, self.calls Hash cs = some s ∧ ∀ w, NoEmptyBucket (s.bucketsMap w) := by
  induction cs generalizing self with
  | nil => exact ⟨self, rfl, h⟩
  | cons c cs ih =>
    obtain ⟨t, ht, hne⟩ := call_noEmpty Hash self c h
    obtain ⟨s, hs, hs'⟩ := ih t hne
    exact ⟨s, by simp [calls, ht, hs], hs'⟩

theorem reachable_noEmpty (Hash : PxrMayaHdRenderParams → Nat) (self : UsdMayaGLBatchRenderer)
    (h : Reachable Hash self) : ∀ w, NoEmptyBucket (self.bucketsMap w) := by
  obtain ⟨x, y, z, cs, hcs⟩ := h
  obtain ⟨s, hs, hne⟩ := calls_noEmpty Hash cs (new x y z)
    (fun w => by rw [new_bucketsMap]; exact noEmptyBucket_empty)
  rw [hcs] at hs
  cases hs
  exact hne

theorem lastCall_snoc (cs : List RegistryCall) (c : RegistryCall) (addr : Nat) :
    lastCall (cs ++ [c]) addr
      = if c.shapeAdapter.addr = addr then some c else lastCall cs addr := by
  unfold lastCall
  rw [List.filter_append]
  by_cases h : c.shapeAdapter.addr = addr
  · simp [h, List.filter_cons]
  · simp [h, List.filter_cons]

theorem lastCall_mem (cs : List RegistryCall) (addr : Nat) (d : RegistryCall)
    (h : lastCall cs addr = some d) : d ∈ cs ∧ d.shapeAdapter.addr = addr := by
  unfold lastCall at h
  have := List.mem_of_getLast?_eq_some h
  rw [List.mem_filter] at this
  exact ⟨this.1, by simpa using this.2⟩

theorem bool_eq_or_not (w v : Bool) : w = v ∨ w = !v := by
  cases w <;> cases v <;> simp

end UsdMayaGLBatchRenderer

namespace UsdMayaGLBatchRenderer

/-- The invariant behind the at-most-one-bucket property: after the calls `cs`, a shape adapter
whose last call was an `AddShapeAdapter` is in one bucket of the map of its viewport and in
none of the other map; any other shape adapter is in no bucket. -/
theorem one_bucket_invariant (Hash : PxrMayaHdRenderParams → Nat) (x y z : Bool)
    (cs : List RegistryCall) (hfix : FixedViewport cs) :
    ∃ s, (new x y z).calls Hash cs = some s ∧ (∀ w, NoEmptyBucket (s.bucketsMap w)) ∧
      ∀ addr,
        (∀ a, lastCall cs addr = some (RegistryCall.Add a) →
          (∃ h, ∀ k, inBucket (s.bucketsMap a.isViewport2) k addr = true ↔ k = h) ∧
          ∀ k, inBucket (s.bucketsMap (!a.isViewport2)) k addr = false) ∧
        ((∀ a, lastCall cs addr ≠ some (RegistryCall.Add a)) →
          ∀ w k, inBucket (s.bucketsMap w) k addr = false) := by
  induction cs using List.reverseRecOn with
  | nil =>
    refine ⟨new x y z, rfl, fun w => by rw [new_bucketsMap]; exact noEmptyBucket_empty, ?_⟩
    intro addr
    refine ⟨fun a h => by simp [lastCall] at h, fun _ w k => ?_⟩
    rw [new_bucketsMap]
    simp [inBucket, UnorderedMap.find_empty]
  | append_singleton cs c ih =>
    have hfix' : FixedViewport cs := fun c1 h1 c2 h2 =>
      hfix c1 (List.mem_append_left _ h1) c2 (List.mem_append_left _ h2)
    obtain ⟨s, hs, hne, hinv⟩ := ih hfix'
    -- the other map holds no bucket with the shape adapter of the call
    have hotherx : ∀ k, inBucket (s.bucketsMap (!c.shapeAdapter.isViewport2)) k
        c.shapeAdapter.addr = false := by
      intro k
      cases hl : lastCall cs c.shapeAdapter.addr with
      | none =>
        exact (hinv c.shapeAdapter.addr).2 (fun a ha => by rw [hl] at ha; cases ha) _ k
      | some d =>
        have hd := lastCall_mem cs _ d hl
        have hvp : d.shapeAdapter.isViewport2 = c.shapeAdapter.isViewport2 :=
          hfix d (List.mem_append_left _ hd.1) c
            (List.mem_append_right _ (List.mem_singleton_self c)) hd.2
        cases d with
        | Add a' =>
          have := ((hinv c.shapeAdapter.addr).1 a' hl).2 k
          simp only [RegistryCall.shapeAdapter] at hvp
          rw [hvp] at this
          exact this
        | Remove a' =>
          exact (hinv c.shapeAdapter.addr).2 (fun a ha => by rw [hl] at ha; cases ha) _ k
    obtain ⟨s', hs', hne'⟩ := call_noEmpty Hash s c hne
    refine ⟨s', by rw [calls_snoc, hs]; exact hs', hne', ?_⟩
    intro addr
    rw [lastCall_snoc]
    cases c with
    | Add a =>
      simp only [RegistryCall.shapeAdapter] at hotherx ⊢
      obtain ⟨r, t, ht, hr, hsame, htrue, hother, -⟩ := AddShapeAdapter_post Hash s a
        (fun b hb => (noEmptyBucket_iff _).mp (hne a.isViewport2) _ b hb)
      have hst : s' = t := by
        simp only [call, ht, Option.map_some', Option.some.injEq] at hs'
        exact hs'.symm
      subst hst
      by_cases haddr : a.addr = addr
      · subst haddr
        rw [if_pos rfl]
        refine ⟨?_, fun hno => absurd rfl (hno a)⟩
        intro a' ha'
        have haa : a' = a := by injection ha' with h1; injection h1 with h2; exact h2.symm
        subst haa
        cases r with
        | true =>
          refine ⟨⟨Hash a'.renderParams, fun k => ?_⟩, fun k => ?_⟩
          · rw [(htrue rfl).1 k a'.addr]; simp
          · rw [(hother (!a'.isViewport2) (by cases a'.isViewport2 <;> simp)).1]
            exact hotherx k
        | false =>
          have hself := hsame rfl
          subst hself
          have hin := hr.mp rfl
          cases hl : lastCall cs a'.addr with
          | none =>
            have := (hinv a'.addr).2 (fun a ha => by rw [hl] at ha; cases ha) a'.isViewport2
              (Hash a'.renderParams)
            rw [this] at hin; cases hin
          | some d =>
            have hd := lastCall_mem cs _ d hl
            have hvp : d.shapeAdapter.isViewport2 = a'.isViewport2 :=
              hfix d (List.mem_append_left _ hd.1) (RegistryCall.Add a')
                (List.mem_append_right _ (List.mem_singleton_self _)) hd.2
            cases d with
            | Add a'' =>
              have := (hinv a'.addr).1 a'' hl
              simp only [RegistryCall.shapeAdapter] at hvp
              rw [hvp] at this
              exact this
            | Remove a'' =>
              have := (hinv a'.addr).2 (fun a ha => by rw [hl] at ha; cases ha) a'.isViewport2
                (Hash a'.renderParams)
              rw [this] at hin; cases hin
      · rw [if_neg haddr]
        have hkeep : ∀ w k, inBucket (s'.bucketsMap w) k addr
            = inBucket (s.bucketsMap w) k addr := by
          intro w k
          by_cases hw : w = a.isViewport2
          · subst hw
            cases r with
            | true =>
              rw [(htrue rfl).1 k addr]
              simp [Ne.symm haddr]
            | false => rw [hsame rfl]
          · rw [(hother w hw).1]
        refine ⟨fun a' ha' => ?_, fun hno w k => ?_⟩
        · have := (hinv addr).1 a' ha'
          simpa only [hkeep] using this
        · rw [hkeep]; exact (hinv addr).2 hno w k
    | Remove a =>
      simp only [RegistryCall.shapeAdapter] at hotherx ⊢
      obtain ⟨-, hown, -, hother, -⟩ := RemoveShapeAdapter_post s a
      have hst : (s.RemoveShapeAdapter (some a)).2 = s' := by
        simp only [call, Option.some.injEq] at hs'
        exact hs'
      rw [hst] at hown hother
      by_cases haddr : a.addr = addr
      · subst haddr
        rw [if_pos rfl]
        refine ⟨fun a' ha' => (by cases ha'), fun _ w k => ?_⟩
        rcases bool_eq_or_not w a.isViewport2 with hw | hw
        · subst hw
          rw [hown]; simp
        · rw [hw, (hother (!a.isViewport2) (by cases a.isViewport2 <;> simp)).1]
          exact hotherx k
      · rw [if_neg haddr]
        have hkeep : ∀ w k, inBucket (s'.bucketsMap w) k addr
            = inBucket (s.bucketsMap w) k addr := by
          intro w k
          by_cases hw : w = a.isViewport2
          · subst hw
            rw [hown]; simp [Ne.symm haddr]
          · rw [(hother w hw).1]
        refine ⟨fun a' ha' => ?_, fun hno w k => ?_⟩
        · have := (hinv addr).1 a' ha'
          simpa only [hkeep] using this
        · rw [hkeep]; exact (hinv addr).2 hno w k

end UsdMayaGLBatchRenderer

namespace UsdMayaGLBatchRenderer

/-- C1: after every sequence of `AddShapeAdapter` / `RemoveShapeAdapter` calls on a freshly
constructed batch renderer (shape adapters not null, one `IsViewport2` value per shape adapter,
render params free to change), every call has a result, a shape adapter whose last call was an
`AddShapeAdapter` is in exactly one bucket of the bucket map of its viewport (and in none of the
other map), and a shape adapter whose last call was a `RemoveShapeAdapter`, or that had no
call, is in no bucket. -/
theorem C1_at_most_one_bucket (Hash : PxrMayaHdRenderParams → Nat) (x y z : Bool)
    (cs : List RegistryCall) (hfix : FixedViewport cs) :
    ∃ s, (new x y z).calls Hash cs = some s ∧
      ∀ addr,
        (∀ a, lastCall cs addr = some (RegistryCall.Add a) →
          (bucketsOf (s.bucketsMap a.isViewport2) addr).length = 1 ∧
          bucketsOf (s.bucketsMap (!a.isViewport2)) addr = []) ∧
        ((∀ a, lastCall cs addr ≠ some (RegistryCall.Add a)) →
          ∀ w, bucketsOf (s.bucketsMap w) addr = []) := by
  obtain ⟨s, hs, -, hinv⟩ := one_bucket_invariant Hash x y z cs hfix
  refine ⟨s, hs, fun addr => ⟨fun a ha => ?_, fun hno w => ?_⟩⟩
  · obtain ⟨⟨h, hh⟩, hother⟩ := (hinv addr).1 a ha
    refine ⟨?_, (bucketsOf_eq_nil_iff _ _).mpr hother⟩
    rw [bucketsOf_eq_singleton _ _ h hh]
    rfl
  · exact (bucketsOf_eq_nil_iff _ _).mpr ((hinv addr).2 hno w)

/-- C1 on the example session: `A` (address 1), added last with changed render params, is in
one Viewport 2.0 bucket; `B` (address 2), removed last, is in none. -/
theorem C1_at_most_one_bucket_witness :
    FixedViewport Example.session ∧
      ∃ s, Example.fresh.calls Example.Hash Example.session = some s ∧
        (bucketsOf (s.bucketsMap true) 1).length = 1 ∧ bucketsOf (s.bucketsMap true) 2 = [] := by
  have hfix : FixedViewport Example.session := by decide
  obtain ⟨s, hs, h⟩ := C1_at_most_one_bucket Example.Hash false true false Example.session hfix
  refine ⟨hfix, s, hs, ((h 1).1 Example.A1 (by decide)).1, ?_⟩
  exact (h 2).2 (fun a ha => by
    have h2 : lastCall Example.session 2 = some (RegistryCall.Remove Example.B) := by decide
    rw [h2] at ha
    cases ha) true

/-- C2: in every state reached from a freshly constructed batch renderer by `AddShapeAdapter` /
`RemoveShapeAdapter` calls no bucket of either bucket map has an empty set of shape adapters;
and when `RemoveShapeAdapter` is called with the only shape adapter of a bucket, the hash of
that bucket is not a key of the map afterwards, and again no bucket is empty. -/
theorem C2_no_empty_bucket (Hash : PxrMayaHdRenderParams → Nat) (self : UsdMayaGLBatchRenderer)
    (hreach : Reachable Hash self) :
    NoEmptyBucket self._shapeAdapterBuckets ∧ NoEmptyBucket self._legacyShapeAdapterBuckets ∧
      ∀ (a : PxrMayaHdShapeAdapter) (k : Nat) (b : _ShapeAdapterBucket),
        (self.bucketsMap a.isViewport2).find k = some b → b.2.elems = [a.addr] →
        ((self.RemoveShapeAdapter (some a)).2.bucketsMap a.isViewport2).find k = none ∧
        NoEmptyBucket (self.RemoveShapeAdapter (some a)).2._shapeAdapterBuckets ∧
        NoEmptyBucket (self.RemoveShapeAdapter (some a)).2._legacyShapeAdapterBuckets := by
  have hne := reachable_noEmpty Hash self hreach
  refine ⟨hne true, hne false, ?_⟩
  intro a k b hb hlast
  obtain ⟨s, hs, hne'⟩ := call_noEmpty Hash self (RegistryCall.Remove a) hne
  simp only [call, Option.some.injEq] at hs
  rw [hs]
  refine ⟨?_, hne' true, hne' false⟩
  rw [← hs, RemoveShapeAdapter_some]
  simp only [bucketsMap_setHandleMap, bucketsMap_setBucketsMap, if_true, eraseFromBuckets_find,
    hb, Option.some_bind]
  have : (b.2.erase a.addr).isEmpty = true := by
    rw [UnorderedSet.isEmpty_iff]
    simp [UnorderedSet.erase, hlast]
  simp [this]

/-- C2 on the state after `A` was added: removing `A`, the only shape adapter of the bucket of
hash 0, leaves no bucket of hash 0. -/
theorem C2_no_empty_bucket_witness :
    Reachable Example.Hash Example.afterA ∧
      NoEmptyBucket Example.afterA._shapeAdapterBuckets ∧
      ((Example.afterA.RemoveShapeAdapter (some Example.A)).2.bucketsMap true).find 0 = none :=
  have hreach : Reachable Example.Hash Example.afterA :=
    ⟨false, true, false, [RegistryCall.Add Example.A], by decide⟩
  ⟨hreach, (C2_no_empty_bucket Example.Hash Example.afterA hreach).1,
    ((C2_no_empty_bucket Example.Hash Example.afterA hreach).2.2 Example.A 0
      (Example.params 0, UnorderedSet.singleton 1) (by decide) (by decide)).1⟩

end UsdMayaGLBatchRenderer

namespace UsdMayaGLBatchRenderer

/-- In a state whose Viewport 2.0 bucket of hash 0 is empty (no call sequence leads to such a
state, see `reachable_noEmpty`), the shape adapter `A` with hash 0 is not in that bucket and
`AddShapeAdapter` has no result: the inner `RemoveShapeAdapter` erases the empty bucket and the
insertion goes through a dangling reference. -/
theorem AddShapeAdapter_undefined_on_empty_bucket :
    inBucket (Example.withEmptyBucket.bucketsMap Example.A.isViewport2)
        (Example.Hash Example.A.renderParams) Example.A.addr = false ∧
      Example.withEmptyBucket.AddShapeAdapter Example.Hash (some Example.A) = none ∧
      (¬ ∃ s, Example.withEmptyBucket.AddShapeAdapter Example.Hash (some Example.A)
        = some (true, s)) ∧
      ((Example.withEmptyBucket.RemoveShapeAdapter (some Example.A)).2.bucketsMap
        Example.A.isViewport2).find (Example.Hash Example.A.renderParams) = none := by
  have hnone : Example.withEmptyBucket.AddShapeAdapter Example.Hash (some Example.A) = none := by
    decide
  refine ⟨by decide, hnone, ?_, by decide⟩
  rintro ⟨s, hs⟩
  rw [hnone] at hs
  cases hs

/-- C3: for every state that the calls of `AddShapeAdapter` and `RemoveShapeAdapter` reach from
a freshly constructed batch renderer (and for every other state in which the bucket keyed by
the hash of the shape adapter's render params, if there is one, is not empty), and every shape
adapter that is not null, `AddShapeAdapter` returns; it returns false exactly when that bucket
exists and holds the shape adapter, and then the state is unchanged; otherwise it returns
true, the shape adapter is in the bucket keyed by that hash, and the handle map of its viewport
maps its DAG node handle to it. -/
theorem C3_add_result (Hash : PxrMayaHdRenderParams → Nat) (self : UsdMayaGLBatchRenderer)
    (a : PxrMayaHdShapeAdapter)
    (hstate : Reachable Hash self ∨
      ∀ b, (self.bucketsMap a.isViewport2).find (Hash a.renderParams) = some b →
        b.2.elems ≠ []) :
    ∃ r s, self.AddShapeAdapter Hash (some a) = some (r, s) ∧
      (r = false ↔
        ∃ b, (self.bucketsMap a.isViewport2).find (Hash a.renderParams) = some b ∧
          a.addr ∈ b.2.elems) ∧
      (r = false → s = self) ∧
      (r = true →
        (∃ b, (s.bucketsMap a.isViewport2).find (Hash a.renderParams) = some b ∧
          a.addr ∈ b.2.elems) ∧
        (s.handleMap a.isViewport2).find a.dagNode = some a.addr) := by
  have hne : ∀ b, (self.bucketsMap a.isViewport2).find (Hash a.renderParams) = some b →
      b.2.elems ≠ [] := by
    rcases hstate with h | h
    · exact fun b hb =>
        (noEmptyBucket_iff _).mp (reachable_noEmpty Hash self h a.isViewport2) _ b hb
    · exact h
  obtain ⟨r, s, hs, hr, hsame, htrue, -, -⟩ := AddShapeAdapter_post Hash self a hne
  refine ⟨r, s, hs, ?_, hsame, ?_⟩
  · rw [hr, inBucket_iff]
  · intro h
    obtain ⟨h1, h2⟩ := htrue h
    refine ⟨?_, ?_⟩
    · rw [← inBucket_iff, h1]
      simp
    · rw [h2]
      simp

/-- C3 on the state after `A` was added, with `B`, whose hash is that of `A`: the call returns
true and `B` is in the bucket of the hash 0. -/
theorem C3_add_result_witness :
    Reachable Example.Hash Example.afterA ∧
      ∃ r s, Example.afterA.AddShapeAdapter Example.Hash (some Example.B) = some (r, s) ∧
        (r = false ↔
          ∃ b, (Example.afterA.bucketsMap Example.B.isViewport2).find
              (Example.Hash Example.B.renderParams) = some b ∧
            Example.B.addr ∈ b.2.elems) ∧
        (r = false → s = Example.afterA) ∧
        (r = true →
          (∃ b, (s.bucketsMap Example.B.isViewport2).find
              (Example.Hash Example.B.renderParams) = some b ∧
            Example.B.addr ∈ b.2.elems) ∧
          (s.handleMap Example.B.isViewport2).find Example.B.dagNode = some Example.B.addr) :=
  have hreach : Reachable Example.Hash Example.afterA :=
    ⟨false, true, false, [RegistryCall.Add Example.A], by decide⟩
  ⟨hreach, C3_add_result Example.Hash Example.afterA Example.B (Or.inl hreach)⟩

/-- C4: for every state and every shape adapter that is not null, `RemoveShapeAdapter` returns
true iff the shape adapter was in some bucket of the bucket map of its viewport; afterwards it
is in no bucket of that map, its DAG node handle has no entry in the handle map of that
viewport, and every other shape adapter is in the same buckets of either map as before. -/
theorem C4_remove_result (self : UsdMayaGLBatchRenderer) (a : PxrMayaHdShapeAdapter) :
    ((self.RemoveShapeAdapter (some a)).1 = true ↔
        isMember (self.bucketsMap a.isViewport2) a.addr = true) ∧
      isMember ((self.RemoveShapeAdapter (some a)).2.bucketsMap a.isViewport2) a.addr = false ∧
      ((self.RemoveShapeAdapter (some a)).2.handleMap a.isViewport2).find a.dagNode = none ∧
      ∀ y, y ≠ a.addr → ∀ w k,
        inBucket ((self.RemoveShapeAdapter (some a)).2.bucketsMap w) k y
          = inBucket (self.bucketsMap w) k y := by
  obtain ⟨hret, hown, hhandle, hother, -⟩ := RemoveShapeAdapter_post self a
  refine ⟨by rw [hret], ?_, ?_, ?_⟩
  · rw [Bool.eq_false_iff]
    intro hm
    obtain ⟨k, hk⟩ := (isMember_iff _ _).mp hm
    rw [hown] at hk
    simp at hk
  · rw [hhandle]
    simp
  · intro y hy w k
    by_cases hw : w = a.isViewport2
    · subst hw
      rw [hown]
      simp [hy]
    · rw [(hother w hw).1]

end UsdMayaGLBatchRenderer

namespace UsdMayaGLBatchRenderer

theorem not_mem_of_not_inBucket (m : _ShapeAdapterBucketsMap) (x : Nat)
    (hx : ∀ k, inBucket m k x = false) (e : Nat × _ShapeAdapterBucket) (he : e ∈ m.entries) :
    x ∉ e.2.2.elems := by
  intro hmem
  have := (inBucket_iff m e.1 x).mpr
    ⟨e.2, (UnorderedMap.find_eq_some_iff m e.1 e.2).mpr he, hmem⟩
  rw [hx] at this
  cases this

/-- Erasing a shape adapter that is in no bucket from a map without empty buckets changes
nothing. -/
theorem eraseFromBuckets_of_not_member (m : _ShapeAdapterBucketsMap) (x : Nat)
    (hne : NoEmptyBucket m) (hx : ∀ k, inBucket m k x = false) :
    (eraseFromBuckets m x).2 = m := by
  apply UnorderedMap.ext_entries
  rw [eraseFromBuckets_entries]
  have hmap : m.entries.map (fun e => (e.1, e.2.1, e.2.2.erase x)) = m.entries := by
    conv_rhs => rw [← List.map_id m.entries]
    apply List.map_congr_left
    intro e he
    simp only [id, UnorderedSet.erase_of_not_mem _ _ (not_mem_of_not_inBucket m x hx e he)]
  rw [hmap, List.filter_eq_self]
  intro e he
  have := hne e he
  cases hs : e.2.2.elems with
  | nil => exact absurd hs this
  | cons y l => simp [UnorderedSet.isEmpty, hs]

/-- A new bucket with the one shape adapter `x` is gone after `x` is erased. -/
theorem eraseFromBuckets_set_singleton (m : _ShapeAdapterBucketsMap) (x h : Nat)
    (p : PxrMayaHdRenderParams) (hne : NoEmptyBucket m) (hx : ∀ k, inBucket m k x = false)
    (hf : m.find h = none) :
    (eraseFromBuckets (m.set h (p, UnorderedSet.singleton x)) x).2 = m := by
  have h0 := eraseFromBuckets_of_not_member m x hne hx
  apply UnorderedMap.ext_entries
  rw [eraseFromBuckets_entries, UnorderedMap.set_entries_of_none m h _ hf, List.map_cons,
    List.filter_cons]
  have hemp : ((UnorderedSet.singleton x).erase x).isEmpty = true := by
    rw [UnorderedSet.isEmpty_iff]; exact UnorderedSet.erase_singleton x
  simp only [hemp, Bool.not_true, Bool.false_eq_true, if_false]
  rw [← eraseFromBuckets_entries, h0]

/-- A bucket that got the shape adapter `x` is as before after `x` is erased. -/
theorem eraseFromBuckets_set_insert (m : _ShapeAdapterBucketsMap) (x h : Nat)
    (b : _ShapeAdapterBucket) (hne : NoEmptyBucket m) (hx : ∀ k, inBucket m k x = false)
    (hf : m.find h = some b) :
    (eraseFromBuckets (m.set h (b.1, b.2.insert x)) x).2 = m := by
  have hb : (h, b) ∈ m.entries := (UnorderedMap.find_eq_some_iff m h b).mp hf
  have hxb : x ∉ b.2.elems := not_mem_of_not_inBucket m x hx (h, b) hb
  apply UnorderedMap.ext_entries
  rw [eraseFromBuckets_entries, UnorderedMap.set_entries_of_some m h _ b hf, List.map_map]
  have hmap : m.entries.map
      ((fun e : Nat × _ShapeAdapterBucket => (e.1, e.2.1, e.2.2.erase x)) ∘
        (fun e => if e.1 = h then (h, (b.1, b.2.insert x)) else e)) = m.entries := by
    conv_rhs => rw [← List.map_id m.entries]
    apply List.map_congr_left
    intro e he
    simp only [Function.comp, id]
    by_cases hk : e.1 = h
    · have he' : (h, e.2) ∈ m.entries := by
        have : (h, e.2) = e := by rw [← hk]
        rw [this]; exact he
      have hval : e.2 = b := UnorderedMap.value_unique m.nodupKeys he' hb
      simp only [hk, if_true, UnorderedSet.erase_insert_of_not_mem _ _ hxb]
      rw [← hval, ← hk]
    · simp only [hk, if_false,
        UnorderedSet.erase_of_not_mem _ _ (not_mem_of_not_inBucket m x hx e he)]
  rw [hmap, List.filter_eq_self]
  intro e he
  have := hne e he
  cases hs : e.2.2.elems with
  | nil => exact absurd hs this
  | cons y l => simp [UnorderedSet.isEmpty, hs]

theorem isMember_set (m : _ShapeAdapterBucketsMap) (h x : Nat) (b : _ShapeAdapterBucket)
    (hx : x ∈ b.2.elems) : isMember (m.set h b) x = true := by
  rw [isMember_iff]
  refine ⟨h, ?_⟩
  rw [inBucket_set]
  simp [UnorderedSet.contains_iff, hx]

/-- C5 (as stated, refuted): in the state reached by adding `A`, the shape adapter `A2` on the
DAG node of `A` is in no bucket; adding and then removing `A2` leaves a Viewport 2.0 handle
map without the entry of `A` that it had before. -/
theorem C5_round_trip_loses_handle_entry :
    Reachable Example.Hash Example.afterA ∧
      (∀ w, isMember (Example.afterA.bucketsMap w) Example.A2.addr = false) ∧
      ∃ s1 s2, Example.afterA.AddShapeAdapter Example.Hash (some Example.A2) = some (true, s1) ∧
        s1.RemoveShapeAdapter (some Example.A2) = (true, s2) ∧
        Example.afterA._shapeAdapterHandleMap.find Example.A.dagNode = some Example.A.addr ∧
        s2._shapeAdapterHandleMap.find Example.A.dagNode = none ∧
        s2._shapeAdapterHandleMap ≠ Example.afterA._shapeAdapterHandleMap := by
  refine ⟨⟨false, true, false, [RegistryCall.Add Example.A], by decide⟩, by decide,
    ((Example.afterA.AddShapeAdapter Example.Hash (some Example.A2)).getD
      (false, Example.fresh)).2,
    (((Example.afterA.AddShapeAdapter Example.Hash (some Example.A2)).getD
      (false, Example.fresh)).2.RemoveShapeAdapter (some Example.A2)).2, ?_⟩
  decide

/-- C5 (amended): for every reachable state and every shape adapter that is not null, is in no
bucket of that state, and whose DAG node handle has no entry in the handle map of its viewport,
`AddShapeAdapter` followed at once by `RemoveShapeAdapter` gives the state before the
`AddShapeAdapter` call: the same bucket maps and the same handle maps.  Both calls return
true. -/
theorem C5_round_trip (Hash : PxrMayaHdRenderParams → Nat) (self : UsdMayaGLBatchRenderer)
    (a : PxrMayaHdShapeAdapter) (hreach : Reachable Hash self)
    (hnot : ∀ w, isMember (self.bucketsMap w) a.addr = false)
    (hhandle : (self.handleMap a.isViewport2).find a.dagNode = none) :
    ∃ s1, self.AddShapeAdapter Hash (some a) = some (true, s1) ∧
      s1.RemoveShapeAdapter (some a) = (true, self) := by
  have hne := reachable_noEmpty Hash self hreach a.isViewport2
  have hx : ∀ k, inBucket (self.bucketsMap a.isViewport2) k a.addr = false := by
    intro k
    rw [Bool.eq_false_iff]
    intro hk
    have := (isMember_iff _ _).mpr ⟨k, hk⟩
    rw [hnot] at this
    cases this
  have herase := UnorderedMap.erase_of_find_none _ _ hhandle
  have hback : ∀ (M : _ShapeAdapterBucketsMap),
      (eraseFromBuckets M a.addr).2 = self.bucketsMap a.isViewport2 →
      ((self.setBucketsMap a.isViewport2 M).setHandleMap a.isViewport2
          (((self.handleMap a.isViewport2).erase a.dagNode).set a.dagNode
            a.addr)).RemoveShapeAdapter (some a)
        = (isMember M a.addr, self) := by
    intro M hM
    rw [RemoveShapeAdapter_some]
    simp only [bucketsMap_setHandleMap, bucketsMap_setBucketsMap, if_true,
      handleMap_setHandleMap, hM, herase, UnorderedMap.erase_set_of_none _ _ _ hhandle,
      setBucketsMap_setHandleMap, setBucketsMap_setBucketsMap, setHandleMap_setHandleMap,
      setBucketsMap_self, setHandleMap_self]
  cases hf : (self.bucketsMap a.isViewport2).find (Hash a.renderParams) with
  | none =>
    refine ⟨_, AddShapeAdapter_of_find_none Hash self a hf, ?_⟩
    rw [eraseFromBuckets_of_not_member _ _ hne hx,
      hback _ (eraseFromBuckets_set_singleton _ _ _ _ hne hx hf),
      isMember_set _ _ _ _ (by simp [UnorderedSet.singleton])]
  | some b =>
    have hb : (Hash a.renderParams, b) ∈ (self.bucketsMap a.isViewport2).entries :=
      (UnorderedMap.find_eq_some_iff _ _ b).mp hf
    have hxb : a.addr ∉ b.2.elems := not_mem_of_not_inBucket _ _ hx _ hb
    refine ⟨_, AddShapeAdapter_of_not_mem Hash self a b hf hxb (hne _ hb), ?_⟩
    rw [eraseFromBuckets_of_not_member _ _ hne hx,
      hback _ (eraseFromBuckets_set_insert _ _ _ b hne hx hf),
      isMember_set _ _ _ _ ((UnorderedSet.mem_insert _ _ _).mpr (Or.inl rfl))]

/-- C5 (amended) on the state after `A` was added, with `B`, which joins the bucket of `A`. -/
theorem C5_round_trip_witness :
    Reachable Example.Hash Example.afterA ∧
      (∀ w, isMember (Example.afterA.bucketsMap w) Example.B.addr = false) ∧
      (Example.afterA.handleMap Example.B.isViewport2).find Example.B.dagNode = none ∧
      ∃ s1, Example.afterA.AddShapeAdapter Example.Hash (some Example.B) = some (true, s1) ∧
        s1.RemoveShapeAdapter (some Example.B) = (true, Example.afterA) :=
  have hreach : Reachable Example.Hash Example.afterA :=
    ⟨false, true, false, [RegistryCall.Add Example.A], by decide⟩
  ⟨hreach, by decide, by decide,
    C5_round_trip Example.Hash Example.afterA Example.B hreach (by decide) (by decide)⟩

end UsdMayaGLBatchRenderer

namespace UsdMayaGLBatchRenderer

theorem mem_register (registered : List (Bool × Nat × Nat)) (c : RegistryCall) (w : Bool)
    (addr n : Nat) :
    (w, addr, n) ∈ register registered c ↔
      (c.isAdd = true ∧ w = c.shapeAdapter.isViewport2 ∧ addr = c.shapeAdapter.addr ∧
        n = c.shapeAdapter.dagNode) ∨
      ((w, addr, n) ∈ registered ∧
        ¬ (w = c.shapeAdapter.isViewport2 ∧ addr = c.shapeAdapter.addr)) := by
  cases c with
  | Add a =>
    simp only [register, RegistryCall.shapeAdapter, RegistryCall.isAdd, List.mem_cons,
      Prod.mk.injEq, List.mem_filter, Bool.not_eq_true', Bool.and_eq_false_iff, beq_eq_false_iff_ne,
      ne_eq, true_and, not_and_or]
  | Remove a =>
    simp only [register, RegistryCall.shapeAdapter, RegistryCall.isAdd, List.mem_filter,
      Bool.not_eq_true', Bool.and_eq_false_iff, beq_eq_false_iff_ne, ne_eq, Bool.false_eq_true,
      false_and, false_or, not_and_or]

theorem keepsDagNodesApart_iff (registered : List (Bool × Nat × Nat)) (c : RegistryCall) :
    keepsDagNodesApart registered c = true ↔
      ∀ addr n, (c.shapeAdapter.isViewport2, addr, n) ∈ registered →
        (addr = c.shapeAdapter.addr ↔ n = c.shapeAdapter.dagNode) := by
  simp only [keepsDagNodesApart, List.all_eq_true, Bool.or_eq_true, Bool.not_eq_true',
    beq_eq_false_iff_ne, ne_eq, beq_iff_eq, decide_eq_decide]
  constructor
  · intro h addr n hmem
    rcases h (c.shapeAdapter.isViewport2, addr, n) hmem with h1 | h1
    · exact absurd rfl h1
    · exact h1
  · intro h e he
    by_cases hw : e.1 = c.shapeAdapter.isViewport2
    · refine Or.inr (h e.2.1 e.2.2 ?_)
      rw [← hw]
      exact he
    · exact Or.inl hw

/-- One call that keeps the DAG nodes apart keeps the handle maps and the buckets in step with
the registrations. -/
theorem call_registrations (Hash : PxrMayaHdRenderParams → Nat) (s : UsdMayaGLBatchRenderer)
    (registered : List (Bool × Nat × Nat)) (c : RegistryCall)
    (hne : ∀ w, NoEmptyBucket (s.bucketsMap w))
    (hmem : ∀ w addr, isMember (s.bucketsMap w) addr = true ↔
      ∃ n, (w, addr, n) ∈ registered)
    (hent : ∀ w n addr, (s.handleMap w).find n = some addr ↔ (w, addr, n) ∈ registered)
    (hsep : keepsDagNodesApart registered c = true) :
    ∃ t, s.call Hash c = some t ∧ (∀ w, NoEmptyBucket (t.bucketsMap w)) ∧
      (∀ w addr, isMember (t.bucketsMap w) addr = true ↔
        ∃ n, (w, addr, n) ∈ register registered c) ∧
      (∀ w n addr, (t.handleMap w).find n = some addr ↔
        (w, addr, n) ∈ register registered c) := by
  obtain ⟨t, ht, hne'⟩ := call_noEmpty Hash s c hne
  have hap := (keepsDagNodesApart_iff registered c).mp hsep
  refine ⟨t, ht, hne', ?_, ?_⟩
  · -- the members of the buckets are the registered shape adapters
    intro w addr
    simp only [mem_register]
    cases c with
    | Add a =>
      simp only [RegistryCall.shapeAdapter, RegistryCall.isAdd, true_and] at hap ⊢
      obtain ⟨r, t0, hA, hr, hsame, htrue, hother, -⟩ := AddShapeAdapter_post Hash s a
        (fun b hb => (noEmptyBucket_iff _).mp (hne a.isViewport2) _ b hb)
      have hst : t = t0 := by
        simp only [call, hA, Option.map_some', Option.some.injEq] at ht
        exact ht.symm
      subst hst
      by_cases hw : w = a.isViewport2
      · subst hw
        by_cases haddr : addr = a.addr
        · subst haddr
          constructor
          · intro _
            exact ⟨a.dagNode, Or.inl ⟨rfl, rfl, rfl⟩⟩
          · intro _
            cases r with
            | false =>
              rw [hsame rfl]
              exact (isMember_iff _ _).mpr ⟨_, hr.mp rfl⟩
            | true =>
              refine (isMember_iff _ _).mpr ⟨Hash a.renderParams, ?_⟩
              rw [(htrue rfl).1]
              simp
        · have hsameMem : isMember (t.bucketsMap a.isViewport2) addr
              = isMember (s.bucketsMap a.isViewport2) addr := by
            cases r with
            | false => rw [hsame rfl]
            | true =>
              apply Bool.eq_iff_iff.mpr
              rw [isMember_iff, isMember_iff]
              simp only [(htrue rfl).1, if_neg haddr]
          rw [hsameMem, hmem]
          constructor
          · rintro ⟨n, hn⟩
            exact ⟨n, Or.inr ⟨hn, fun h => haddr h.2⟩⟩
          · rintro ⟨n, hn | hn⟩
            · exact absurd hn.2.1 haddr
            · exact ⟨n, hn.1⟩
      · rw [(hother w hw).1, hmem]
        constructor
        · rintro ⟨n, hn⟩
          exact ⟨n, Or.inr ⟨hn, fun h => hw h.1⟩⟩
        · rintro ⟨n, hn | hn⟩
          · exact absurd hn.1 hw
          · exact ⟨n, hn.1⟩
    | Remove a =>
      simp only [RegistryCall.shapeAdapter, RegistryCall.isAdd, Bool.false_eq_true, false_and,
        false_or] at hap ⊢
      obtain ⟨-, hown, -, hother, -⟩ := RemoveShapeAdapter_post s a
      have hst : (s.RemoveShapeAdapter (some a)).2 = t := by
        simp only [call, Option.some.injEq] at ht
        exact ht
      rw [hst] at hown hother
      by_cases hw : w = a.isViewport2
      · subst hw
        rw [isMember_iff]
        simp only [hown, Bool.and_eq_true, decide_eq_true_eq]
        constructor
        · rintro ⟨k, hk, haddr⟩
          obtain ⟨n, hn⟩ := (hmem _ addr).mp ((isMember_iff _ _).mpr ⟨k, hk⟩)
          exact ⟨n, hn, fun h => haddr h.2⟩
        · rintro ⟨n, hn, hnot⟩
          obtain ⟨k, hk⟩ := (isMember_iff _ _).mp ((hmem _ addr).mpr ⟨n, hn⟩)
          exact ⟨k, hk, fun h => hnot ⟨trivial, h⟩⟩
      · rw [(hother w hw).1, hmem]
        constructor
        · rintro ⟨n, hn⟩
          exact ⟨n, hn, fun h => hw h.1⟩
        · rintro ⟨n, hn⟩
          exact ⟨n, hn.1⟩
  · -- the entries of the handle maps are the registrations
    intro w n addr
    simp only [mem_register]
    cases c with
    | Add a =>
      simp only [RegistryCall.shapeAdapter, RegistryCall.isAdd, true_and] at hap ⊢
      obtain ⟨r, t0, hA, hr, hsame, htrue, hother, -⟩ := AddShapeAdapter_post Hash s a
        (fun b hb => (noEmptyBucket_iff _).mp (hne a.isViewport2) _ b hb)
      have hst : t = t0 := by
        simp only [call, hA, Option.map_some', Option.some.injEq] at ht
        exact ht.symm
      subst hst
      by_cases hw : w = a.isViewport2
      · subst hw
        cases r with
        | false =>
          rw [hsame rfl, hent]
          -- the shape adapter is in a bucket: it is registered, on the DAG node of the call
          obtain ⟨n0, hn0⟩ := (hmem _ a.addr).mp ((isMember_iff _ _).mpr ⟨_, hr.mp rfl⟩)
          have hn0eq : n0 = a.dagNode := (hap a.addr n0 hn0).mp rfl
          subst hn0eq
          constructor
          · intro h
            by_cases haddr : addr = a.addr
            · exact Or.inl ⟨rfl, haddr, (hap addr n h).mp haddr⟩
            · exact Or.inr ⟨h, fun h2 => haddr h2.2⟩
          · rintro (⟨-, h2, h3⟩ | h)
            · rw [h2, h3]
              exact hn0
            · exact h.1
        | true =>
          rw [(htrue rfl).2]
          by_cases hn : n = a.dagNode
          · subst hn
            simp only [if_true, Option.some.injEq]
            constructor
            · intro h
              exact Or.inl ⟨trivial, h.symm, trivial⟩
            · rintro (⟨-, h2, -⟩ | ⟨h1, h2⟩)
              · exact h2.symm
              · exact absurd ⟨trivial, (hap addr _ h1).mpr rfl⟩ h2
          · rw [if_neg hn, hent]
            constructor
            · intro h
              exact Or.inr ⟨h, fun h2 => hn ((hap addr n h).mp h2.2)⟩
            · rintro (⟨-, -, h3⟩ | h)
              · exact absurd h3 hn
              · exact h.1
      · rw [(hother w hw).2, hent]
        constructor
        · intro h
          exact Or.inr ⟨h, fun h2 => hw h2.1⟩
        · rintro (h | h)
          · exact absurd h.1 hw
          · exact h.1
    | Remove a =>
      simp only [RegistryCall.shapeAdapter, RegistryCall.isAdd, Bool.false_eq_true, false_and,
        false_or] at hap ⊢
      obtain ⟨-, -, hh, hother, -⟩ := RemoveShapeAdapter_post s a
      have hst : (s.RemoveShapeAdapter (some a)).2 = t := by
        simp only [call, Option.some.injEq] at ht
        exact ht
      rw [hst] at hh hother
      by_cases hw : w = a.isViewport2
      · subst hw
        rw [hh]
        by_cases hn : n = a.dagNode
        · subst hn
          simp only [if_true]
          constructor
          · intro h
            cases h
          · rintro ⟨h1, h2⟩
            exact absurd ⟨trivial, (hap addr _ h1).mpr rfl⟩ h2
        · rw [if_neg hn, hent]
          constructor
          · intro h
            exact ⟨h, fun h2 => hn ((hap addr n h).mp h2.2)⟩
          · intro h
            exact h.1
      · rw [(hother w hw).2, hent]
        constructor
        · intro h
          exact ⟨h, fun h2 => hw h2.1⟩
        · intro h
          exact h.1

/-- Calls that keep the DAG nodes apart keep the handle maps and the buckets in step with the
registrations. -/
theorem calls_registrations (Hash : PxrMayaHdRenderParams → Nat) (cs : List RegistryCall) :
    ∀ (s : UsdMayaGLBatchRenderer) (registered : List (Bool × Nat × Nat)),
      (∀ w, NoEmptyBucket (s.bucketsMap w)) →
      (∀ w addr, isMember (s.bucketsMap w) addr = true ↔ ∃ n, (w, addr, n) ∈ registered) →
      (∀ w n addr, (s.handleMap w).find n = some addr ↔ (w, addr, n) ∈ registered) →
      separateDagNodesFrom registered cs = true →
      ∃ t, s.calls Hash cs = some t ∧
        (∀ w addr, isMember (t.bucketsMap w) addr = true ↔
          ∃ n, (w, addr, n) ∈ cs.foldl register registered) ∧
        (∀ w n addr, (t.handleMap w).find n = some addr ↔
          (w, addr, n) ∈ cs.foldl register registered) := by
  induction cs with
  | nil =>
    intro s registered _ hmem hent _
    exact ⟨s, rfl, hmem, hent⟩
  | cons c cs ih =>
    intro s registered hne hmem hent hsep
    simp only [separateDagNodesFrom, Bool.and_eq_true] at hsep
    obtain ⟨t, ht, hne', hmem', hent'⟩ :=
      call_registrations Hash s registered c hne hmem hent hsep.1
    obtain ⟨u, hu, hmem2, hent2⟩ := ih t (register registered c) hne' hmem' hent' hsep.2
    refine ⟨u, ?_, hmem2, hent2⟩
    simp only [calls, ht, Option.some_bind]
    exact hu

theorem registrations_snoc (cs : List RegistryCall) (c : RegistryCall) :
    registrations (cs ++ [c]) = register (registrations cs) c := by
  simp [registrations, List.foldl_append]

/-- A registration was made by a call of `AddShapeAdapter` of the sequence, with that shape
adapter in that viewport on that DAG node. -/
theorem registrations_mem (cs : List RegistryCall) (w : Bool) (addr n : Nat)
    (h : (w, addr, n) ∈ registrations cs) :
    ∃ c ∈ cs, c.isAdd = true ∧ c.shapeAdapter.isViewport2 = w ∧ c.shapeAdapter.addr = addr ∧
      c.shapeAdapter.dagNode = n := by
  induction cs using List.reverseRecOn with
  | nil => cases h
  | append_singleton cs c ih =>
    rw [registrations_snoc, mem_register] at h
    rcases h with ⟨h1, h2, h3, h4⟩ | ⟨h1, -⟩
    · exact ⟨c, List.mem_append_right _ (List.mem_singleton_self c), h1, h2.symm, h3.symm,
        h4.symm⟩
    · obtain ⟨d, hd, hd2⟩ := ih h1
      exact ⟨d, List.mem_append_left _ hd, hd2⟩

/-- C6 (as stated, refuted): after `A` and then `A2`, a second Viewport 2.0 shape adapter on the
DAG node of `A`, were added, `A` is in a bucket but the entry of its DAG node in the handle
map is `A2`; after `A2` is removed again, `A` is still in a bucket and its DAG node has no
entry at all.  And when the shape of `A` has moved to the DAG node 11 while `A` is registered,
a further call of `AddShapeAdapter` leaves `A` in its bucket without an entry for its DAG
node, and a call of `RemoveShapeAdapter` leaves the entry of the DAG node 10, which points to
`A`, while `A` is in no bucket. -/
theorem C6_shared_dag_node_breaks_index :
    (∃ s, Example.fresh.calls Example.Hash
          [RegistryCall.Add Example.A, RegistryCall.Add Example.A2] = some s ∧
        isMember (s.bucketsMap Example.A.isViewport2) Example.A.addr = true ∧
        (s.handleMap Example.A.isViewport2).find Example.A.dagNode = some Example.A2.addr ∧
        (s.handleMap Example.A.isViewport2).find Example.A.dagNode ≠ some Example.A.addr) ∧
    (∃ s, Example.fresh.calls Example.Hash
          [RegistryCall.Add Example.A, RegistryCall.Add Example.A2,
            RegistryCall.Remove Example.A2] = some s ∧
        isMember (s.bucketsMap Example.A.isViewport2) Example.A.addr = true ∧
        (s.handleMap Example.A.isViewport2).find Example.A.dagNode = none) ∧
    (∃ s, Example.fresh.calls Example.Hash
          [RegistryCall.Add Example.A, RegistryCall.Add Example.AOnNode11] = some s ∧
        isMember (s.bucketsMap Example.AOnNode11.isViewport2) Example.AOnNode11.addr = true ∧
        (s.handleMap Example.AOnNode11.isViewport2).find Example.AOnNode11.dagNode = none) ∧
    (∃ s, Example.fresh.calls Example.Hash
          [RegistryCall.Add Example.A, RegistryCall.Remove Example.AOnNode11] = some s ∧
        (s.handleMap Example.A.isViewport2).find Example.A.dagNode = some Example.A.addr ∧
        isMember (s.bucketsMap Example.A.isViewport2) Example.A.addr = false) := by
  refine ⟨⟨(Example.fresh.calls Example.Hash
      [RegistryCall.Add Example.A, RegistryCall.Add Example.A2]).getD Example.fresh, ?_⟩,
    ⟨(Example.fresh.calls Example.Hash
      [RegistryCall.Add Example.A, RegistryCall.Add Example.A2,
        RegistryCall.Remove Example.A2]).getD Example.fresh, ?_⟩,
    ⟨(Example.fresh.calls Example.Hash
      [RegistryCall.Add Example.A, RegistryCall.Add Example.AOnNode11]).getD Example.fresh,
      ?_⟩,
    ⟨(Example.fresh.calls Example.Hash
      [RegistryCall.Add Example.A, RegistryCall.Remove Example.AOnNode11]).getD
        Example.fresh, ?_⟩⟩
  · decide
  · decide
  · decide
  · decide

/-- C6 (amended): when every call of the sequence is made while no other shape adapter of its
viewport is registered on its DAG node and while its own shape adapter, if it is registered, is
registered on that DAG node, then in the state reached from a freshly constructed batch
renderer the shape adapters in the buckets of a viewport are the shape adapters registered in
it; every shape adapter that is in a bucket has, for the DAG node it was registered on, an
entry in the handle map of its viewport, and that entry is this shape adapter; and every entry
of a handle map points to a shape adapter that is in a bucket of the same viewport and was
registered on the DAG node of the entry, by a call of `AddShapeAdapter` of the sequence. -/
theorem C6_identity_index (Hash : PxrMayaHdRenderParams → Nat) (x y z : Bool)
    (cs : List RegistryCall) (hsep : SeparateDagNodes cs) :
    ∃ s, (new x y z).calls Hash cs = some s ∧
      (∀ w addr, isMember (s.bucketsMap w) addr = true ↔
        ∃ n, (w, addr, n) ∈ registrations cs) ∧
      (∀ w addr, isMember (s.bucketsMap w) addr = true →
        ∃ n, (w, addr, n) ∈ registrations cs ∧ (s.handleMap w).find n = some addr) ∧
      (∀ w n addr, (s.handleMap w).find n = some addr →
        isMember (s.bucketsMap w) addr = true ∧ (w, addr, n) ∈ registrations cs ∧
        ∃ c ∈ cs, c.isAdd = true ∧ c.shapeAdapter.isViewport2 = w ∧
          c.shapeAdapter.addr = addr ∧ c.shapeAdapter.dagNode = n) := by
  obtain ⟨s, hs, hmem, hent⟩ := calls_registrations Hash cs (new x y z) []
    (fun w => by rw [new_bucketsMap]; exact noEmptyBucket_empty)
    (fun w addr => by
      rw [new_bucketsMap]
      simp [isMember, UnorderedMap.empty])
    (fun w n addr => by
      rw [new_handleMap, UnorderedMap.find_empty]
      simp)
    hsep
  refine ⟨s, hs, hmem, ?_, ?_⟩
  · intro w addr h
    obtain ⟨n, hn⟩ := (hmem w addr).mp h
    exact ⟨n, hn, (hent w n addr).mpr hn⟩
  · intro w n addr h
    have hreg := (hent w n addr).mp h
    exact ⟨(hmem w addr).mpr ⟨n, hreg⟩, hreg, registrations_mem cs w addr n hreg⟩

/-- C6 (amended) on a sequence in which `A2` is added on the DAG node of `A` after `A` was
removed: `A2` is in a bucket and the entry of the DAG node 10 in the Viewport 2.0 handle map is
`A2`. -/
theorem C6_identity_index_witness :
    SeparateDagNodes [RegistryCall.Add Example.A, RegistryCall.Add Example.B,
        RegistryCall.Remove Example.A, RegistryCall.Add Example.A2] ∧
      ∃ s, Example.fresh.calls Example.Hash
          [RegistryCall.Add Example.A, RegistryCall.Add Example.B,
            RegistryCall.Remove Example.A, RegistryCall.Add Example.A2] = some s ∧
        isMember (s.bucketsMap true) Example.A2.addr = true ∧
        (s.handleMap true).find 10 = some Example.A2.addr := by
  have hsep : SeparateDagNodes [RegistryCall.Add Example.A, RegistryCall.Add Example.B,
      RegistryCall.Remove Example.A, RegistryCall.Add Example.A2] := by decide
  obtain ⟨s, hs, hmem, hhandle, -⟩ := C6_identity_index Example.Hash false true false
    [RegistryCall.Add Example.A, RegistryCall.Add Example.B,
      RegistryCall.Remove Example.A, RegistryCall.Add Example.A2] hsep
  have hreg : registrations [RegistryCall.Add Example.A, RegistryCall.Add Example.B,
      RegistryCall.Remove Example.A, RegistryCall.Add Example.A2]
      = [(true, 5, 10), (true, 2, 20)] := by decide
  have hm : isMember (s.bucketsMap true) Example.A2.addr = true :=
    (hmem true Example.A2.addr).mpr ⟨10, by rw [hreg]; decide⟩
  refine ⟨hsep, s, hs, hm, ?_⟩
  obtain ⟨n, hn, hfind⟩ := hhandle true Example.A2.addr hm
  rw [hreg] at hn
  have hn10 : n = 10 := by
    revert hn
    simp only [List.mem_cons, Prod.mk.injEq, List.mem_singleton, List.not_mem_nil, or_false]
    rintro (⟨-, -, h⟩ | ⟨-, h, -⟩)
    · exact h
    · exact absurd h (by decide)
  rw [hn10] at hfind
  exact hfind

end UsdMayaGLBatchRenderer

/-! ## The frame-stamp gates -/

namespace UsdMayaGLBatchRenderer

/-- C7: `_UpdateRenderFrameStamp(s)` returns true iff `s` differs from the stored render frame
stamp, stores `s`, and leaves the selection frame stamp and both legacy pending flags as they
were; `_UpdateSelectionFrameStamp(s)` does the same with the two stamps exchanged. -/
theorem C7_update_frame_stamp (self : UsdMayaGLBatchRenderer) (s : Nat) :
    (((self._UpdateRenderFrameStamp s).1 = true ↔ s ≠ self._lastRenderFrameStamp) ∧
      (self._UpdateRenderFrameStamp s).2._lastRenderFrameStamp = s ∧
      (self._UpdateRenderFrameStamp s).2._lastSelectionFrameStamp
        = self._lastSelectionFrameStamp ∧
      (self._UpdateRenderFrameStamp s).2._legacyRenderPending = self._legacyRenderPending ∧
      (self._UpdateRenderFrameStamp s).2._legacySelectionPending
        = self._legacySelectionPending) ∧
    (((self._UpdateSelectionFrameStamp s).1 = true ↔ s ≠ self._lastSelectionFrameStamp) ∧
      (self._UpdateSelectionFrameStamp s).2._lastSelectionFrameStamp = s ∧
      (self._UpdateSelectionFrameStamp s).2._lastRenderFrameStamp
        = self._lastRenderFrameStamp ∧
      (self._UpdateSelectionFrameStamp s).2._legacyRenderPending
        = self._legacyRenderPending ∧
      (self._UpdateSelectionFrameStamp s).2._legacySelectionPending
        = self._legacySelectionPending) := by
  unfold _UpdateRenderFrameStamp _UpdateSelectionFrameStamp
  refine ⟨?_, ?_⟩
  · by_cases h : self._lastRenderFrameStamp = s
    · simp [h]
    · simp [h, Ne.symm h]
  · by_cases h : self._lastSelectionFrameStamp = s
    · simp [h]
    · simp [h, Ne.symm h]

end UsdMayaGLBatchRenderer

namespace UsdMayaGLBatchRenderer

theorem gateCalls_append (gate : UsdMayaGLBatchRenderer → Nat → Bool × UsdMayaGLBatchRenderer)
    (l1 l2 : List Nat) (self : UsdMayaGLBatchRenderer) :
    gateCalls gate self (l1 ++ l2)
      = ((gateCalls gate self l1).1 ++ (gateCalls gate (gateCalls gate self l1).2 l2).1,
         (gateCalls gate (gateCalls gate self l1).2 l2).2) := by
  induction l1 generalizing self with
  | nil => simp [gateCalls]
  | cons x l ih => simp [gateCalls, ih]

theorem gateCalls_length (gate : UsdMayaGLBatchRenderer → Nat → Bool × UsdMayaGLBatchRenderer)
    (l : List Nat) (self : UsdMayaGLBatchRenderer) :
    (gateCalls gate self l).1.length = l.length := by
  induction l generalizing self with
  | nil => simp [gateCalls]
  | cons x l ih => simp [gateCalls, ih]

theorem trueCalls_cons (x : Nat) (l : List Nat) (r : Bool) (rs : List Bool) (v : Nat) :
    trueCalls (x :: l) (r :: rs) v
      = (if x = v ∧ r = true then 1 else 0) + trueCalls l rs v := by
  unfold trueCalls
  by_cases h : x = v ∧ r = true
  · simp [List.filter_cons, h, Nat.add_comm]
  · simp only [List.zip_cons_cons, List.filter_cons, h, if_false, Nat.zero_add]
    have : (decide (x = v) && r) = false := by
      rcases r with _ | _ <;> simp_all
    simp [this]

/-- Once the stored stamp is `v`, no later call with a stamp of a sorted sequence that starts
at `v` or above returns true for `v`. -/
theorem trueCalls_eq_zero
    (gate : UsdMayaGLBatchRenderer → Nat → Bool × UsdMayaGLBatchRenderer)
    (stored : UsdMayaGLBatchRenderer → Nat)
    (hfalse : ∀ self s, stored self = s → gate self s = (false, self))
    (l : List Nat) (self : UsdMayaGLBatchRenderer) (v : Nat)
    (hv : stored self = v) (hs : l.Sorted (· ≤ ·)) (hle : ∀ x ∈ l, v ≤ x) :
    trueCalls l (gateCalls gate self l).1 v = 0 := by
  induction l generalizing self with
  | nil => simp [trueCalls, gateCalls]
  | cons x l ih =>
    simp only [gateCalls, trueCalls_cons]
    have hs' : l.Sorted (· ≤ ·) := hs.of_cons
    by_cases hx : x = v
    · subst hx
      rw [hfalse self x hv]
      simp only [Bool.false_eq_true, and_false, if_false, Nat.zero_add]
      exact ih self hv hs' (fun y hy => hle y (List.mem_cons_of_mem _ hy))
    · simp only [hx, false_and, if_false, Nat.zero_add]
      have hlt : v < x := lt_of_le_of_ne (hle x (List.mem_cons_self _ _)) (Ne.symm hx)
      have hnot : v ∉ l := by
        intro hmem
        have := List.rel_of_sorted_cons hs v hmem
        omega
      unfold trueCalls
      rw [List.length_eq_zero, List.filter_eq_nil_iff]
      intro p hp
      have := (List.of_mem_zip hp).1
      have hne : p.1 ≠ v := fun h => hnot (h ▸ this)
      simp [hne]

theorem trueCalls_le_one
    (gate : UsdMayaGLBatchRenderer → Nat → Bool × UsdMayaGLBatchRenderer)
    (stored : UsdMayaGLBatchRenderer → Nat)
    (hfalse : ∀ self s, stored self = s → gate self s = (false, self))
    (hstore : ∀ self s, stored (gate self s).2 = s)
    (l : List Nat) (self : UsdMayaGLBatchRenderer) (v : Nat) (hs : l.Sorted (· ≤ ·)) :
    trueCalls l (gateCalls gate self l).1 v ≤ 1 := by
  induction l generalizing self with
  | nil => simp [trueCalls, gateCalls]
  | cons x l ih =>
    simp only [gateCalls, trueCalls_cons]
    have hs' : l.Sorted (· ≤ ·) := hs.of_cons
    by_cases hx : x = v
    · subst hx
      have h0 := trueCalls_eq_zero gate stored hfalse l (gate self x).2 x (hstore self x) hs'
        (fun y hy => List.rel_of_sorted_cons hs y hy)
      rw [h0]
      split <;> omega
    · simp only [hx, false_and, if_false, Nat.zero_add]
      exact ih _ hs'

theorem render_gate_false (self : UsdMayaGLBatchRenderer) (s : Nat)
    (h : self._lastRenderFrameStamp = s) : self._UpdateRenderFrameStamp s = (false, self) := by
  simp [_UpdateRenderFrameStamp, h]

theorem render_gate_store (self : UsdMayaGLBatchRenderer) (s : Nat) :
    (self._UpdateRenderFrameStamp s).2._lastRenderFrameStamp = s := by
  unfold _UpdateRenderFrameStamp
  by_cases h : self._lastRenderFrameStamp = s <;> simp [h]

theorem selection_gate_false (self : UsdMayaGLBatchRenderer) (s : Nat)
    (h : self._lastSelectionFrameStamp = s) :
    self._UpdateSelectionFrameStamp s = (false, self) := by
  simp [_UpdateSelectionFrameStamp, h]

theorem selection_gate_store (self : UsdMayaGLBatchRenderer) (s : Nat) :
    (self._UpdateSelectionFrameStamp s).2._lastSelectionFrameStamp = s := by
  unfold _UpdateSelectionFrameStamp
  by_cases h : self._lastSelectionFrameStamp = s <;> simp [h]

/-- After a sequence of calls that ends with the stamp `v`, the stored stamp is `v`. -/
theorem gateCalls_stored
    (gate : UsdMayaGLBatchRenderer → Nat → Bool × UsdMayaGLBatchRenderer)
    (stored : UsdMayaGLBatchRenderer → Nat)
    (hstore : ∀ self s, stored (gate self s).2 = s)
    (pre : List Nat) (v : Nat) (self : UsdMayaGLBatchRenderer) :
    stored (gateCalls gate self (pre ++ [v])).2 = v := by
  rw [gateCalls_append]
  simp [gateCalls, hstore]

/-- The calls of a gate with one stamp `s`, `n + 1` times. -/
theorem gateCalls_replicate
    (gate : UsdMayaGLBatchRenderer → Nat → Bool × UsdMayaGLBatchRenderer)
    (stored : UsdMayaGLBatchRenderer → Nat)
    (hfalse : ∀ self s, stored self = s → gate self s = (false, self))
    (hstore : ∀ self s, stored (gate self s).2 = s)
    (self : UsdMayaGLBatchRenderer) (s n : Nat) :
    (gateCalls gate self (List.replicate (n + 1) s)).1
      = (gate self s).1 :: List.replicate n false := by
  have hrest : ∀ (m : Nat) (t : UsdMayaGLBatchRenderer), stored t = s →
      (gateCalls gate t (List.replicate m s)).1 = List.replicate m false := by
    intro m
    induction m with
    | zero => intro t _; simp [gateCalls]
    | succ m ih =>
      intro t ht
      simp only [List.replicate_succ, gateCalls, hfalse t s ht]
      rw [ih t ht]
  simp only [List.replicate_succ, gateCalls]
  rw [hrest n _ (hstore self s)]

end UsdMayaGLBatchRenderer

namespace UsdMayaGLBatchRenderer

/-- C8 (as stated, refuted): on a freshly constructed batch renderer, whose stored render
frame stamp is 0, three consecutive calls of `_UpdateRenderFrameStamp(0)` all return false;
the first call does not return true. -/
theorem C8_first_call_false_on_fresh :
    (gateCalls _UpdateRenderFrameStamp (new false true false) (List.replicate 3 0)).1
        = [false, false, false] ∧
      (gateCalls _UpdateRenderFrameStamp (new false true false) (List.replicate 3 0)).1
        ≠ true :: List.replicate (3 - 1) false := by
  decide

/-- C8 (amended): for every state, stamp `s` and `N ≥ 1`, of `N` consecutive calls of a
frame-stamp gate with `s` the first returns true iff `s` differs from the stamp stored before
it, and each of the remaining `N - 1` calls returns false. -/
theorem C8_frame_dedup (self : UsdMayaGLBatchRenderer) (s N : Nat) (hN : 1 ≤ N) :
    (gateCalls _UpdateRenderFrameStamp self (List.replicate N s)).1
        = decide (s ≠ self._lastRenderFrameStamp) :: List.replicate (N - 1) false ∧
      (gateCalls _UpdateSelectionFrameStamp self (List.replicate N s)).1
        = decide (s ≠ self._lastSelectionFrameStamp) :: List.replicate (N - 1) false := by
  obtain ⟨n, rfl⟩ : ∃ n, N = n + 1 := ⟨N - 1, by omega⟩
  rw [gateCalls_replicate _UpdateRenderFrameStamp (fun t => t._lastRenderFrameStamp)
      render_gate_false render_gate_store,
    gateCalls_replicate _UpdateSelectionFrameStamp (fun t => t._lastSelectionFrameStamp)
      selection_gate_false selection_gate_store]
  simp only [Nat.add_sub_cancel]
  constructor
  · congr 1
    unfold _UpdateRenderFrameStamp
    by_cases h : self._lastRenderFrameStamp = s
    · simp [h]
    · simp [h, Ne.symm h]
  · congr 1
    unfold _UpdateSelectionFrameStamp
    by_cases h : self._lastSelectionFrameStamp = s
    · simp [h]
    · simp [h, Ne.symm h]

/-- C8 (amended), at a state whose stored stamps are 0: four calls with the stamp 5. -/
theorem C8_frame_dedup_witness :
    1 ≤ 4 ∧
      (gateCalls _UpdateRenderFrameStamp (new false true false) (List.replicate 4 5)).1
        = decide (5 ≠ (new false true false)._lastRenderFrameStamp)
            :: List.replicate (4 - 1) false ∧
      (gateCalls _UpdateSelectionFrameStamp (new false true false) (List.replicate 4 5)).1
        = decide (5 ≠ (new false true false)._lastSelectionFrameStamp)
            :: List.replicate (4 - 1) false :=
  ⟨by decide, C8_frame_dedup (new false true false) 5 4 (by decide)⟩

/-- C9: for every state and every non-decreasing sequence of frame stamps given to
`_UpdateRenderFrameStamp` (and likewise to `_UpdateSelectionFrameStamp`), for each stamp value
at most one call returns true, and a call whose stamp equals the stamp of the call right before
it returns false and leaves the state as it was. -/
theorem C9_at_most_once_per_stamp (self : UsdMayaGLBatchRenderer) (stamps : List Nat)
    (hsorted : stamps.Sorted (· ≤ ·)) :
    ((∀ v, trueCalls stamps (gateCalls _UpdateRenderFrameStamp self stamps).1 v ≤ 1) ∧
      (∀ pre v post, stamps = pre ++ v :: v :: post →
        (gateCalls _UpdateRenderFrameStamp self stamps).1[pre.length + 1]? = some false ∧
        (gateCalls _UpdateRenderFrameStamp self (pre ++ [v])).2._UpdateRenderFrameStamp v
          = (false, (gateCalls _UpdateRenderFrameStamp self (pre ++ [v])).2) ∧
        (gateCalls _UpdateRenderFrameStamp self (pre ++ [v, v])).2
          = (gateCalls _UpdateRenderFrameStamp self (pre ++ [v])).2)) ∧
    ((∀ v, trueCalls stamps (gateCalls _UpdateSelectionFrameStamp self stamps).1 v ≤ 1) ∧
      (∀ pre v post, stamps = pre ++ v :: v :: post →
        (gateCalls _UpdateSelectionFrameStamp self stamps).1[pre.length + 1]? = some false ∧
        (gateCalls _UpdateSelectionFrameStamp self (pre ++ [v])).2._UpdateSelectionFrameStamp v
          = (false, (gateCalls _UpdateSelectionFrameStamp self (pre ++ [v])).2) ∧
        (gateCalls _UpdateSelectionFrameStamp self (pre ++ [v, v])).2
          = (gateCalls _UpdateSelectionFrameStamp self (pre ++ [v])).2)) := by
  have key : ∀ (gate : UsdMayaGLBatchRenderer → Nat → Bool × UsdMayaGLBatchRenderer)
      (stored : UsdMayaGLBatchRenderer → Nat),
      (∀ self s, stored self = s → gate self s = (false, self)) →
      (∀ self s, stored (gate self s).2 = s) →
      ((∀ v, trueCalls stamps (gateCalls gate self stamps).1 v ≤ 1) ∧
      (∀ pre v post, stamps = pre ++ v :: v :: post →
        (gateCalls gate self stamps).1[pre.length + 1]? = some false ∧
        gate (gateCalls gate self (pre ++ [v])).2 v
          = (false, (gateCalls gate self (pre ++ [v])).2) ∧
        (gateCalls gate self (pre ++ [v, v])).2 = (gateCalls gate self (pre ++ [v])).2)) := by
    intro gate stored hfalse hstore
    refine ⟨fun v => trueCalls_le_one gate stored hfalse hstore stamps self v hsorted, ?_⟩
    intro pre v post hst
    have hcall := hfalse _ v (gateCalls_stored gate stored hstore pre v self)
    refine ⟨?_, hcall, ?_⟩
    · have hsplit : stamps = (pre ++ [v]) ++ (v :: post) := by simp [hst]
      rw [hsplit, gateCalls_append]
      have hlen : ((gateCalls gate self (pre ++ [v])).1).length = pre.length + 1 := by
        rw [gateCalls_length]; simp
      rw [List.getElem?_append_right (by omega)]
      simp [hlen, gateCalls, hcall]
    · have hsplit : pre ++ [v, v] = (pre ++ [v]) ++ [v] := by simp
      rw [hsplit, gateCalls_append gate (pre ++ [v]) [v] self]
      simp [gateCalls, hcall]
  exact ⟨key _ (fun t => t._lastRenderFrameStamp) render_gate_false render_gate_store,
    key _ (fun t => t._lastSelectionFrameStamp) selection_gate_false selection_gate_store⟩

end UsdMayaGLBatchRenderer

namespace UsdMayaGLBatchRenderer

/-- C9 on the stamps 1, 1, 2, 5, 5 given to a fresh batch renderer: at most one call with the
stamp 5 returns true, and the second call with the stamp 1 returns false. -/
theorem C9_at_most_once_per_stamp_witness :
    [1, 1, 2, 5, 5].Sorted (· ≤ ·) ∧
      trueCalls [1, 1, 2, 5, 5]
        (gateCalls _UpdateRenderFrameStamp Example.fresh [1, 1, 2, 5, 5]).1 5 ≤ 1 ∧
      (gateCalls _UpdateRenderFrameStamp Example.fresh [1, 1, 2, 5, 5]).1[1]? = some false :=
  ⟨by decide,
    (C9_at_most_once_per_stamp Example.fresh [1, 1, 2, 5, 5] (by decide)).1.1 5,
    ((C9_at_most_once_per_stamp Example.fresh [1, 1, 2, 5, 5] (by decide)).1.2 [] 1 [2, 5, 5]
      rfl).1⟩

end UsdMayaGLBatchRenderer

/-! ## The selection cache -/

namespace HitSet

theorem mem_insert_imp (eq : Hit → Hit → Bool) (S : HitSet) (hit h : Hit)
    (hh : h ∈ (S.insert eq hit).elems) : h = hit ∨ h ∈ S.elems := by
  unfold insert at hh
  split at hh
  · exact Or.inr hh
  · exact List.mem_cons.mp hh

theorem mem_insert_of_mem (eq : Hit → Hit → Bool) (S : HitSet) (hit h : Hit)
    (hh : h ∈ S.elems) : h ∈ (S.insert eq hit).elems := by
  unfold insert
  split
  · exact hh
  · exact List.mem_cons_of_mem _ hh

/-- After `insert(hit)` the set holds `hit` or a hit that the equality functor takes for
equal to it. -/
theorem insert_covers (eq : Hit → Hit → Bool) (S : HitSet) (hit : Hit) :
    ∃ h ∈ (S.insert eq hit).elems, h = hit ∨ eq h hit = true := by
  unfold insert
  split
  · rename_i hany
    obtain ⟨h, hh, he⟩ := List.any_eq_true.mp hany
    exact ⟨h, hh, Or.inr he⟩
  · exact ⟨hit, List.mem_cons_self _ _, Or.inl rfl⟩

end HitSet

namespace UsdMayaGLBatchRenderer

theorem find_mergeHit (eq : Hit → Hit → Bool) (sr : UnorderedMap SdfPath HitSet) (hit : Hit)
    (d : SdfPath) :
    (mergeHit eq sr hit).find d
      = if d = hit.delegateId then
          some (match sr.find hit.delegateId with
            | some set => set.insert eq hit
            | none => HitSet.singleton hit)
        else sr.find d := by
  unfold mergeHit UnorderedMap.emplace
  cases hf : sr.find hit.delegateId with
  | none =>
    have hk := (UnorderedMap.find_eq_none_iff sr hit.delegateId).mp hf
    simp only [hk, dite_false, Bool.not_true, Bool.false_eq_true, if_false]
    have hset : (⟨(hit.delegateId, HitSet.singleton hit) :: sr.entries,
        List.nodup_cons.mpr ⟨hk, sr.nodupKeys⟩⟩ : UnorderedMap SdfPath HitSet)
        = sr.set hit.delegateId (HitSet.singleton hit) := by
      apply UnorderedMap.ext_entries
      rw [UnorderedMap.set_entries_of_none sr _ _ hf]
    rw [hset, UnorderedMap.find_set]
  | some set =>
    have hk : hit.delegateId ∈ sr.entries.map Prod.fst := by
      by_contra hk
      rw [(UnorderedMap.find_eq_none_iff sr hit.delegateId).mpr hk] at hf
      cases hf
    simp only [hk, dite_true, Bool.not_false, if_true, UnorderedMap.update, hf,
      UnorderedMap.find_set]

/-- A hit of the selection results after one hit was merged was there before or is the hit
merged, under its delegate id. -/
theorem cached_mergeHit_imp (eq : Hit → Hit → Bool) (sr : UnorderedMap SdfPath HitSet)
    (hit : Hit) (d : SdfPath) (h : Hit)
    (hc : ∃ S, (mergeHit eq sr hit).find d = some S ∧ h ∈ S.elems) :
    (∃ S, sr.find d = some S ∧ h ∈ S.elems) ∨ (h = hit ∧ hit.delegateId = d) := by
  obtain ⟨S, hS, hh⟩ := hc
  rw [find_mergeHit] at hS
  by_cases hd : d = hit.delegateId
  · subst hd
    simp only [if_true, Option.some.injEq] at hS
    subst hS
    cases hf : sr.find hit.delegateId with
    | none =>
      simp only [hf, HitSet.singleton, List.mem_singleton] at hh
      exact Or.inr ⟨hh, rfl⟩
    | some set =>
      simp only [hf] at hh
      rcases HitSet.mem_insert_imp eq set hit h hh with h1 | h1
      · exact Or.inr ⟨h1, rfl⟩
      · exact Or.inl ⟨set, rfl, h1⟩
  · simp only [hd, if_false] at hS
    exact Or.inl ⟨S, hS, hh⟩

/-- Merging a hit removes no hit from the selection results. -/
theorem cached_mergeHit_mono (eq : Hit → Hit → Bool) (sr : UnorderedMap SdfPath HitSet)
    (hit : Hit) (d : SdfPath) (h : Hit) (hc : ∃ S, sr.find d = some S ∧ h ∈ S.elems) :
    ∃ S, (mergeHit eq sr hit).find d = some S ∧ h ∈ S.elems := by
  obtain ⟨S, hS, hh⟩ := hc
  rw [find_mergeHit]
  by_cases hd : d = hit.delegateId
  · subst hd
    simp only [if_true, hS]
    exact ⟨_, rfl, HitSet.mem_insert_of_mem eq S hit h hh⟩
  · simp only [hd, if_false]
    exact ⟨S, hS, hh⟩

/-- After a hit was merged the set of its delegate id holds it, or a hit that the equality
functor takes for equal to it. -/
theorem cached_mergeHit_covers (eq : Hit → Hit → Bool) (sr : UnorderedMap SdfPath HitSet)
    (hit : Hit) :
    ∃ h, (∃ S, (mergeHit eq sr hit).find hit.delegateId = some S ∧ h ∈ S.elems) ∧
      (h = hit ∨ eq h hit = true) := by
  rw [find_mergeHit]
  simp only [if_true]
  cases hf : sr.find hit.delegateId with
  | none => exact ⟨hit, ⟨_, rfl, by simp [HitSet.singleton]⟩, Or.inl rfl⟩
  | some set =>
    obtain ⟨h, hh, he⟩ := HitSet.insert_covers eq set hit
    exact ⟨h, ⟨_, rfl, hh⟩, he⟩

theorem cached_foldl_imp (eq : Hit → Hit → Bool) (hits : List Hit)
    (sr : UnorderedMap SdfPath HitSet) (d : SdfPath) (h : Hit)
    (hc : ∃ S, (hits.foldl (mergeHit eq) sr).find d = some S ∧ h ∈ S.elems) :
    (∃ S, sr.find d = some S ∧ h ∈ S.elems) ∨ (h ∈ hits ∧ h.delegateId = d) := by
  induction hits generalizing sr with
  | nil => exact Or.inl hc
  | cons hit hits ih =>
    rw [List.foldl_cons] at hc
    rcases ih _ hc with h1 | ⟨h2, h3⟩
    · rcases cached_mergeHit_imp eq sr hit d h h1 with h4 | ⟨h5, h6⟩
      · exact Or.inl h4
      · exact Or.inr ⟨List.mem_cons.mpr (Or.inl h5), h5 ▸ h6⟩
    · exact Or.inr ⟨List.mem_cons_of_mem _ h2, h3⟩

theorem cached_foldl_mono (eq : Hit → Hit → Bool) (hits : List Hit)
    (sr : UnorderedMap SdfPath HitSet) (d : SdfPath) (h : Hit)
    (hc : ∃ S, sr.find d = some S ∧ h ∈ S.elems) :
    ∃ S, (hits.foldl (mergeHit eq) sr).find d = some S ∧ h ∈ S.elems := by
  induction hits generalizing sr with
  | nil => exact hc
  | cons hit hits ih =>
    rw [List.foldl_cons]
    exact ih _ (cached_mergeHit_mono eq sr hit d h hc)

theorem cached_foldl_covers (eq : Hit → Hit → Bool) (hits : List Hit)
    (sr : UnorderedMap SdfPath HitSet) (hit : Hit) (hmem : hit ∈ hits) :
    ∃ h, (∃ S, (hits.foldl (mergeHit eq) sr).find hit.delegateId = some S ∧ h ∈ S.elems) ∧
      (h = hit ∨ eq h hit = true) := by
  induction hits generalizing sr with
  | nil => cases hmem
  | cons x hits ih =>
    rw [List.foldl_cons]
    rcases List.mem_cons.mp hmem with hx | hx
    · subst hx
      obtain ⟨h, hc, he⟩ := cached_mergeHit_covers eq sr hit
      exact ⟨h, cached_foldl_mono eq hits _ _ h hc, he⟩
    · exact ih _ hx

/-- A hit of the selection results after the loop over the collections was there before, or is
a hit of a query of the loop that succeeded, under its delegate id. -/
theorem cached_intersect_imp (self : UsdMayaGLBatchRenderer)
    (intersector : HdxIntersector) (qparams : HdxIntersectorParams) (singleSelection : Bool)
    (colls : List HdRprimCollection) (sr : UnorderedMap SdfPath HitSet)
    (q : List IntersectionQuery) (d : SdfPath) (h : Hit)
    (hc : ∃ S, (intersectCollections self intersector qparams singleSelection colls
        (sr, q)).1.find d = some S ∧ h ∈ S.elems) :
    (∃ S, sr.find d = some S ∧ h ∈ S.elems) ∨
      (h.delegateId = d ∧ ∃ c ∈ colls,
        (self._TestIntersection intersector c qparams singleSelection HitSet.empty).1 = true ∧
        h ∈ (self._TestIntersection intersector c qparams singleSelection
          HitSet.empty).2.1.elems) := by
  induction colls generalizing sr q with
  | nil => exact Or.inl hc
  | cons c colls ih =>
    simp only [intersectCollections] at hc
    cases hq : (self._TestIntersection intersector c qparams singleSelection
        HitSet.empty).1 with
    | false =>
      simp only [hq, Bool.not_false, if_true] at hc
      rcases ih sr _ hc with h1 | ⟨h2, c', hc', h3⟩
      · exact Or.inl h1
      · exact Or.inr ⟨h2, c', List.mem_cons_of_mem _ hc', h3⟩
    | true =>
      simp only [hq, Bool.not_true, Bool.false_eq_true, if_false] at hc
      rcases ih _ _ hc with h1 | ⟨h2, c', hc', h3⟩
      · rcases cached_foldl_imp _ _ sr d h h1 with h4 | ⟨h5, h6⟩
        · exact Or.inl h4
        · exact Or.inr ⟨h6, c, List.mem_cons_self _ _, hq, h5⟩
      · exact Or.inr ⟨h2, c', List.mem_cons_of_mem _ hc', h3⟩

theorem cached_intersect_mono (self : UsdMayaGLBatchRenderer)
    (intersector : HdxIntersector) (qparams : HdxIntersectorParams) (singleSelection : Bool)
    (colls : List HdRprimCollection) (sr : UnorderedMap SdfPath HitSet)
    (q : List IntersectionQuery) (d : SdfPath)
    (h : Hit) (hc : ∃ S, sr.find d = some S ∧ h ∈ S.elems) :
    ∃ S, (intersectCollections self intersector qparams singleSelection colls (sr, q)).1.find d
      = some S ∧ h ∈ S.elems := by
  induction colls generalizing sr q with
  | nil => exact hc
  | cons c colls ih =>
    simp only [intersectCollections]
    split
    · exact ih sr _ hc
    · exact ih _ _ (cached_foldl_mono _ _ sr d h hc)

/-- Every hit of a query of the loop that succeeded is in the selection results afterwards, or
a hit that the equality functor takes for equal to it is, under its delegate id. -/
theorem cached_intersect_covers (self : UsdMayaGLBatchRenderer)
    (intersector : HdxIntersector) (qparams : HdxIntersectorParams) (singleSelection : Bool)
    (colls : List HdRprimCollection) (sr : UnorderedMap SdfPath HitSet)
    (q : List IntersectionQuery)
    (c : HdRprimCollection) (hc : c ∈ colls)
    (hq : (self._TestIntersection intersector c qparams singleSelection HitSet.empty).1 = true)
    (hit : Hit)
    (hmem : hit ∈ (self._TestIntersection intersector c qparams singleSelection
      HitSet.empty).2.1.elems) :
    ∃ h, (∃ S, (intersectCollections self intersector qparams singleSelection colls
        (sr, q)).1.find hit.delegateId = some S ∧ h ∈ S.elems) ∧
      (h = hit ∨ intersector.HitSetEq h hit = true) := by
  induction colls generalizing sr q with
  | nil => cases hc
  | cons x colls ih =>
    simp only [intersectCollections]
    rcases List.mem_cons.mp hc with hx | hx
    · subst hx
      simp only [hq, Bool.not_true, Bool.false_eq_true, if_false]
      obtain ⟨h, hh, he⟩ := cached_foldl_covers intersector.HitSetEq _ sr hit hmem
      exact ⟨h, cached_intersect_mono _ _ _ _ colls _ _ _ h hh, he⟩
    · split
      · exact ih sr _ hx
      · exact ih _ _ hx

/-- The query `_TestIntersection` reads nothing of the batch renderer but the resolution of the
intersector. -/
theorem TestIntersection_congr (s t : UsdMayaGLBatchRenderer)
    (h : s._intersectorResolution = t._intersectorResolution) (intersector : HdxIntersector)
    (c : HdRprimCollection) (qparams : HdxIntersectorParams) (singleSelection : Bool)
    (out : HitSet) :
    s._TestIntersection intersector c qparams singleSelection out
      = t._TestIntersection intersector c qparams singleSelection out := by
  simp only [_TestIntersection, h]

theorem intersectCollections_congr (s t : UsdMayaGLBatchRenderer)
    (h : s._intersectorResolution = t._intersectorResolution) (intersector : HdxIntersector)
    (qparams : HdxIntersectorParams) (singleSelection : Bool) (colls : List HdRprimCollection)
    (sr : UnorderedMap SdfPath HitSet × List IntersectionQuery) :
    intersectCollections s intersector qparams singleSelection colls sr
      = intersectCollections t intersector qparams singleSelection colls sr := by
  induction colls generalizing sr with
  | nil => rfl
  | cons c colls ih =>
    simp only [intersectCollections, TestIntersection_congr s t h, ih]

/-- The selection results `_ComputeSelection` leaves: the loop over the collections, started
on the empty map. -/
theorem ComputeSelection_selectResults (self : UsdMayaGLBatchRenderer)
    (intersector : HdxIntersector) (heap : Nat → PxrMayaHdShapeAdapter) (depthSelection : Bool)
    (bucketsMap : _ShapeAdapterBucketsMap) (viewMatrix projectionMatrix : GfMatrix4d)
    (singleSelection : Bool) :
    (self._ComputeSelection intersector heap depthSelection bucketsMap viewMatrix
        projectionMatrix singleSelection).1._selectResults
      = (intersectCollections { self with _intersectorResolution := (256, 256) } intersector
          ⟨viewMatrix, projectionMatrix, 1, []⟩ singleSelection
          (self._GetIntersectionRprimCollections heap bucketsMap
            (!singleSelection && depthSelection))
          (UnorderedMap.empty, [])).1 := by
  simp only [_ComputeSelection]
  rw [intersectCollections_congr]
  rfl

end UsdMayaGLBatchRenderer

namespace UsdMayaGLBatchRenderer

/-- C10 (as stated, refuted): with hit sets that take two hits on the same object for equal
whatever their depths, the queries of `C` and of `A` both succeed, the first returns a hit on
`c1` at the depth 5 and the second one at the depth 2; the cache holds the first only: the hit
at the depth 2 was returned by a query of this call that succeeded and is not in the cache. -/
theorem C10_equal_hits_coalesced :
    Example.afterABC.queriedHit Example.intersectorOfObjects Example.heap true
        Example.afterABC._shapeAdapterBuckets [] [] false (Example.hit "C" "c1" 2) ∧
      (Example.afterABC._ComputeSelection Example.intersectorOfObjects Example.heap true
          Example.afterABC._shapeAdapterBuckets [] [] false).1._selectResults.entries
        = [(["C"], ⟨[Example.hit "C" "c1" 5]⟩)] ∧
      ¬ (Example.afterABC._ComputeSelection Example.intersectorOfObjects Example.heap true
          Example.afterABC._shapeAdapterBuckets [] [] false).1.cachedHit ["C"]
        (Example.hit "C" "c1" 2) := by
  refine ⟨⟨Example.collection "A", by decide, by decide, by decide⟩, by decide, ?_⟩
  rintro ⟨S, hS, hh⟩
  have hf : (Example.afterABC._ComputeSelection Example.intersectorOfObjects Example.heap true
      Example.afterABC._shapeAdapterBuckets [] [] false).1._selectResults.find ["C"]
      = some ⟨[Example.hit "C" "c1" 5]⟩ := by decide
  rw [hf] at hS
  cases hS
  revert hh
  decide

/-- C10 (amended): whatever the selection cache held before, after `_ComputeSelection` every hit
cached for a delegate id `d` has the delegate id `d` and is a hit of a query of this call that
succeeded; every hit of such a query is cached under its delegate id, itself or as the hit that
the equality functor of the hit sets takes for equal to it and that came first, so the hits for
one id from several collections are united and a collection whose query fails adds nothing and
stops nothing; `d` is a key iff some such hit has the delegate id `d`; the cache is the same
for every prior content; and when the hit sets compare hits as values the set cached for `d` is
exactly the set of those hits with the delegate id `d`. -/
theorem C10_selection_cache (self : UsdMayaGLBatchRenderer) (intersector : HdxIntersector)
    (heap : Nat → PxrMayaHdShapeAdapter) (depthSelection : Bool)
    (bucketsMap : _ShapeAdapterBucketsMap) (viewMatrix projectionMatrix : GfMatrix4d)
    (singleSelection : Bool) :
    (∀ d h,
      (self._ComputeSelection intersector heap depthSelection bucketsMap viewMatrix
          projectionMatrix singleSelection).1.cachedHit d h →
        h.delegateId = d ∧
        self.queriedHit intersector heap depthSelection bucketsMap viewMatrix projectionMatrix
          singleSelection h) ∧
    (∀ h,
      self.queriedHit intersector heap depthSelection bucketsMap viewMatrix projectionMatrix
          singleSelection h →
        ∃ h0, (self._ComputeSelection intersector heap depthSelection bucketsMap viewMatrix
            projectionMatrix singleSelection).1.cachedHit h.delegateId h0 ∧
          (h0 = h ∨ intersector.HitSetEq h0 h = true)) ∧
    (∀ d,
      ((self._ComputeSelection intersector heap depthSelection bucketsMap viewMatrix
          projectionMatrix singleSelection).1._selectResults.find d).isSome = true
        ↔ ∃ h, h.delegateId = d ∧
          self.queriedHit intersector heap depthSelection bucketsMap viewMatrix
            projectionMatrix singleSelection h) ∧
    (∀ prior : UnorderedMap SdfPath HitSet,
      (_ComputeSelection { self with _selectResults := prior } intersector heap depthSelection
          bucketsMap viewMatrix projectionMatrix singleSelection).1._selectResults
        = (self._ComputeSelection intersector heap depthSelection bucketsMap viewMatrix
          projectionMatrix singleSelection).1._selectResults) ∧
    ((∀ a b, intersector.HitSetEq a b = true → a = b) →
      ∀ d h,
        (self._ComputeSelection intersector heap depthSelection bucketsMap viewMatrix
            projectionMatrix singleSelection).1.cachedHit d h
          ↔ (h.delegateId = d ∧
            self.queriedHit intersector heap depthSelection bucketsMap viewMatrix
              projectionMatrix singleSelection h)) := by
  have hsound : ∀ d h,
      (self._ComputeSelection intersector heap depthSelection bucketsMap viewMatrix
          projectionMatrix singleSelection).1.cachedHit d h →
        h.delegateId = d ∧
        self.queriedHit intersector heap depthSelection bucketsMap viewMatrix projectionMatrix
          singleSelection h := by
    intro d h hc
    unfold cachedHit at hc
    rw [ComputeSelection_selectResults] at hc
    rcases cached_intersect_imp _ _ _ _ _ _ _ d h hc with ⟨S, hS, -⟩ | h2
    · rw [UnorderedMap.find_empty] at hS
      cases hS
    · exact h2
  have hcover : ∀ h,
      self.queriedHit intersector heap depthSelection bucketsMap viewMatrix projectionMatrix
          singleSelection h →
        ∃ h0, (self._ComputeSelection intersector heap depthSelection bucketsMap viewMatrix
            projectionMatrix singleSelection).1.cachedHit h.delegateId h0 ∧
          (h0 = h ∨ intersector.HitSetEq h0 h = true) := by
    intro h hq
    obtain ⟨c, hc, hok, hmem⟩ := hq
    unfold cachedHit
    rw [ComputeSelection_selectResults]
    exact cached_intersect_covers _ _ _ _ _ _ _ c hc hok h hmem
  refine ⟨hsound, hcover, ?_, ?_, ?_⟩
  · intro d
    constructor
    · intro hsome
      obtain ⟨S, hS⟩ := Option.isSome_iff_exists.mp hsome
      -- a key of the cache was made by `emplace` with a hit: its set is not empty
      have hkey : ∀ (colls : List HdRprimCollection) (sr : UnorderedMap SdfPath HitSet)
          (q : List IntersectionQuery),
          (∀ d S, sr.find d = some S → S.elems ≠ []) →
          ∀ d S, (intersectCollections { self with _intersectorResolution := (256, 256) }
            intersector ⟨viewMatrix, projectionMatrix, 1, []⟩ singleSelection colls
            (sr, q)).1.find d = some S → S.elems ≠ [] := by
        intro colls
        induction colls with
        | nil => intro sr q hsr; simpa [intersectCollections] using hsr
        | cons c colls ih =>
          intro sr q hsr
          simp only [intersectCollections]
          have hfold : ∀ (hits : List Hit) (sr : UnorderedMap SdfPath HitSet),
              (∀ d S, sr.find d = some S → S.elems ≠ []) →
              ∀ d S, (hits.foldl (mergeHit intersector.HitSetEq) sr).find d = some S →
                S.elems ≠ [] := by
            intro hits
            induction hits with
            | nil => intro sr hsr; simpa using hsr
            | cons hit hits ih2 =>
              intro sr hsr
              rw [List.foldl_cons]
              apply ih2
              intro d S hS hemp
              obtain ⟨h, ⟨S0, hS0, hh⟩, -⟩ :=
                cached_mergeHit_covers intersector.HitSetEq sr hit
              by_cases hd : d = hit.delegateId
              · subst hd
                rw [hS0] at hS
                cases hS
                rw [hemp] at hh
                cases hh
              · rw [find_mergeHit] at hS
                simp only [hd, if_false] at hS
                exact hsr d S hS hemp
          split
          · exact ih sr _ hsr
          · exact ih _ _ (hfold _ sr hsr)
      have hne : S.elems ≠ [] := by
        rw [ComputeSelection_selectResults] at hS
        exact hkey _ UnorderedMap.empty []
          (fun d S h => by rw [UnorderedMap.find_empty] at h; cases h) d S hS
      obtain ⟨h, hh⟩ := List.exists_mem_of_ne_nil _ hne
      exact ⟨h, hsound d h ⟨S, hS, hh⟩⟩
    · rintro ⟨h, hd, hq⟩
      obtain ⟨h0, ⟨S, hS, -⟩, -⟩ := hcover h hq
      rw [← hd, hS]
      rfl
  · intro prior
    rw [ComputeSelection_selectResults, ComputeSelection_selectResults]
    simp only [_GetIntersectionRprimCollections]
    rw [intersectCollections_congr]
    rfl
  · intro heq d h
    constructor
    · exact hsound d h
    · rintro ⟨hd, hq⟩
      obtain ⟨h0, hc, he⟩ := hcover h hq
      have : h0 = h := by
        rcases he with he | he
        · exact he
        · exact heq h0 h he
      rw [← hd, ← this]
      rw [this] at hc ⊢
      exact hc

/-- C10 (amended) on the state after `A`, `B` and `C` were added, with depth selection: the
query of `B` fails, the hit on `c1` comes from the queries of `A` and of `C`; the cache holds
`c1` and `c2` for the delegate `C`, whatever it held before. -/
theorem C10_selection_cache_witness :
    (∀ a b, Example.intersector.HitSetEq a b = true → a = b) ∧
      (Example.afterABC._ComputeSelection Example.intersector Example.heap true
          Example.afterABC._shapeAdapterBuckets [] [] false).1._selectResults.entries
        = [(["A"], ⟨[Example.hit "A" "a1" 1]⟩),
            (["C"], ⟨[Example.hit "C" "c1" 2, Example.hit "C" "c2" 3]⟩)] ∧
      ∀ d h,
        (Example.afterABC._ComputeSelection Example.intersector Example.heap true
            Example.afterABC._shapeAdapterBuckets [] [] false).1.cachedHit d h
          ↔ (h.delegateId = d ∧
            Example.afterABC.queriedHit Example.intersector Example.heap true
              Example.afterABC._shapeAdapterBuckets [] [] false h) :=
  have heq : ∀ a b, Example.intersector.HitSetEq a b = true → a = b :=
    fun a b h => of_decide_eq_true h
  ⟨heq, by decide,
    (C10_selection_cache Example.afterABC Example.intersector Example.heap true
      Example.afterABC._shapeAdapterBuckets [] [] false).2.2.2.2 heq⟩

end UsdMayaGLBatchRenderer

/-! ## The nearest hit -/

namespace UsdMayaGLBatchRenderer

/-- The scan of `GetNearestHit` from a candidate `m` over the hits `l`: either the candidate
stays, and no hit of `l` is nearer, or the result is the first of the nearest hits of `l` and
is nearer than the candidate. -/
theorem nearest_scan (l : List Hit) (m : Hit) :
    ((l.foldl (fun minHit hit => if hit.less minHit then hit else minHit) m) = m ∧
        ∀ x ∈ l, m.ndcDepth ≤ x.ndcDepth) ∨
      ∃ pre post,
        l = pre ++ (l.foldl (fun minHit hit => if hit.less minHit then hit else minHit) m)
          :: post ∧
        (l.foldl (fun minHit hit => if hit.less minHit then hit else minHit) m).ndcDepth
          < m.ndcDepth ∧
        (∀ x ∈ pre,
          (l.foldl (fun minHit hit => if hit.less minHit then hit else minHit) m).ndcDepth
            < x.ndcDepth) ∧
        ∀ x ∈ post,
          (l.foldl (fun minHit hit => if hit.less minHit then hit else minHit) m).ndcDepth
            ≤ x.ndcDepth := by
  induction l generalizing m with
  | nil => exact Or.inl ⟨rfl, fun x hx => by cases hx⟩
  | cons x l ih =>
    rw [List.foldl_cons]
    by_cases hx : x.ndcDepth < m.ndcDepth
    · have hless : x.less m = true := by simp [Hit.less, hx]
      simp only [hless, if_true]
      rcases ih x with ⟨hr, hall⟩ | ⟨pre, post, hl, hlt, hpre, hpost⟩
      · refine Or.inr ⟨[], l, ?_, ?_, ?_, ?_⟩
        · rw [hr]; rfl
        · rw [hr]; exact hx
        · intro y hy; cases hy
        · intro y hy; rw [hr]; exact hall y hy
      · refine Or.inr ⟨x :: pre, post, ?_, ?_, ?_, hpost⟩
        · rw [List.cons_append, ← hl]
        · exact lt_trans hlt hx
        · intro y hy
          rcases List.mem_cons.mp hy with rfl | hy
          · exact hlt
          · exact hpre y hy
    · have hless : x.less m = false := by simp [Hit.less, hx]
      simp only [hless, Bool.false_eq_true, if_false]
      rcases ih m with ⟨hr, hall⟩ | ⟨pre, post, hl, hlt, hpre, hpost⟩
      · refine Or.inl ⟨hr, ?_⟩
        intro y hy
        rcases List.mem_cons.mp hy with rfl | hy
        · exact not_lt.mp hx
        · exact hall y hy
      · refine Or.inr ⟨x :: pre, post, ?_, hlt, ?_, hpost⟩
        · rw [List.cons_append, ← hl]
        · intro y hy
          rcases List.mem_cons.mp hy with rfl | hy
          · exact lt_of_lt_of_le hlt (not_lt.mp hx)
          · exact hpre y hy

/-- The nearest hit of a non-empty list of hits. -/
theorem nearest_of_cons (b : Hit) (l : List Hit) :
    ∃ h pre post, GetNearestHit (some ⟨b :: l⟩) = some h ∧ b :: l = pre ++ h :: post ∧
      (∀ x ∈ pre, h.ndcDepth < x.ndcDepth) ∧ ∀ x ∈ post, h.ndcDepth ≤ x.ndcDepth := by
  have hself : b.less b = false := by simp [Hit.less]
  have hres : GetNearestHit (some ⟨b :: l⟩)
      = some (l.foldl (fun minHit hit => if hit.less minHit then hit else minHit) b) := by
    simp only [GetNearestHit, List.foldl_cons, hself, Bool.false_eq_true, if_false]
  rcases nearest_scan l b with ⟨hr, hall⟩ | ⟨pre, post, hl, hlt, hpre, hpost⟩
  · refine ⟨b, [], l, ?_, rfl, fun x hx => (by cases hx), hall⟩
    rw [hres, hr]
  · refine ⟨_, b :: pre, post, hres, ?_, ?_, hpost⟩
    · rw [List.cons_append, ← hl]
    · intro y hy
      rcases List.mem_cons.mp hy with rfl | hy
      · exact hlt
      · exact hpre y hy

/-- The nearest hit of hits that are not none: a member of least depth. -/
theorem nearest_least (m : List Hit) (hm : m ≠ []) :
    ∃ h, GetNearestHit (some ⟨m⟩) = some h ∧ h ∈ m ∧ ∀ x ∈ m, h.ndcDepth ≤ x.ndcDepth := by
  cases m with
  | nil => exact absurd rfl hm
  | cons b l =>
    obtain ⟨h, pre, post, hres, hl, hpre, hpost⟩ := nearest_of_cons b l
    refine ⟨h, hres, by rw [hl]; simp, ?_⟩
    intro x hx
    rw [hl] at hx
    rcases List.mem_append.mp hx with h1 | h1
    · exact le_of_lt (hpre x h1)
    · rcases List.mem_cons.mp h1 with rfl | h2
      · exact le_refl _
      · exact hpost x h2

/-- C11: `GetNearestHit` returns none for the null hit set and for an empty hit set, and for
no other; for a hit set that is not empty it returns a member `h` of the set such that no
member has a smaller depth, and `h` is the first of the members of least depth in the iteration
order: every hit before it is deeper. -/
theorem C11_nearest_hit (set : HitSet) :
    GetNearestHit none = none ∧
    ((set.elems = [] ∧ GetNearestHit (some set) = none) ∨
      (set.elems ≠ [] ∧
        ∃ h, GetNearestHit (some set) = some h ∧ h ∈ set.elems ∧
          (∀ x ∈ set.elems, ¬ x.ndcDepth < h.ndcDepth) ∧
          ∃ pre post, set.elems = pre ++ h :: post ∧
            (∀ x ∈ pre, h.ndcDepth < x.ndcDepth) ∧ ∀ x ∈ post, h.ndcDepth ≤ x.ndcDepth)) := by
  refine ⟨rfl, ?_⟩
  rcases set with ⟨elems⟩
  cases elems with
  | nil => exact Or.inl ⟨rfl, rfl⟩
  | cons b l =>
    obtain ⟨h, pre, post, hres, hl, hpre, hpost⟩ := nearest_of_cons b l
    refine Or.inr ⟨by simp, h, hres, ?_, ?_, pre, post, hl, hpre, hpost⟩
    · show h ∈ b :: l
      rw [hl]; simp
    · intro x hx
      have hx' : x ∈ pre ++ h :: post := by rw [← hl]; exact hx
      rcases List.mem_append.mp hx' with h1 | h1
      · exact not_lt.mpr (le_of_lt (hpre x h1))
      · rcases List.mem_cons.mp h1 with rfl | h2
        · exact lt_irrefl _
        · exact not_lt.mpr (hpost x h2)

/-- C12: for hits with pairwise distinct depths, not none of them, `GetNearestHit` returns the
same hit for every order in which the container iterates them: the hit whose depth is less
than that of every other hit. -/
theorem C12_nearest_hit_determinism (l l' : List Hit) (hperm : l.Perm l') (hne : l ≠ [])
    (hdist : (l.map (fun h => h.ndcDepth)).Nodup) :
    GetNearestHit (some ⟨l'⟩) = GetNearestHit (some ⟨l⟩) ∧
      ∃ h, GetNearestHit (some ⟨l⟩) = some h ∧ h ∈ l ∧
        ∀ x ∈ l, x ≠ h → h.ndcDepth < x.ndcDepth := by
  have hne' : l' ≠ [] := fun h => hne (List.Perm.eq_nil (h ▸ hperm))
  have hinj := List.inj_on_of_nodup_map hdist
  obtain ⟨h, hres, hmem, hmin⟩ := nearest_least l hne
  obtain ⟨h', hres', hmem', hmin'⟩ := nearest_least l' hne'
  have hmem2 : h' ∈ l := hperm.mem_iff.mpr hmem'
  have heq : h' = h := by
    apply hinj hmem2 hmem
    exact le_antisymm (hmin' h (hperm.mem_iff.mp hmem)) (hmin h' hmem2)
  refine ⟨by rw [hres, hres', heq], h, hres, hmem, ?_⟩
  intro x hx hxh
  rcases lt_or_eq_of_le (hmin x hx) with hlt | hd
  · exact hlt
  · exact absurd (hinj hx hmem hd.symm) hxh

/-- C12 on the depths 0.3, 0.1 and 0.5 (in tenths): in each of the six orders the hit of depth
0.1 is returned. -/
theorem C12_nearest_hit_determinism_witness :
    [Example.h3, Example.h1, Example.h5].Perm [Example.h5, Example.h3, Example.h1] ∧
      [Example.h3, Example.h1, Example.h5] ≠ [] ∧
      ([Example.h3, Example.h1, Example.h5].map (fun h => h.ndcDepth)).Nodup ∧
      GetNearestHit (some ⟨[Example.h5, Example.h3, Example.h1]⟩)
        = GetNearestHit (some ⟨[Example.h3, Example.h1, Example.h5]⟩) ∧
      ∀ m ∈ [[Example.h3, Example.h1, Example.h5], [Example.h3, Example.h5, Example.h1],
          [Example.h1, Example.h3, Example.h5], [Example.h1, Example.h5, Example.h3],
          [Example.h5, Example.h3, Example.h1], [Example.h5, Example.h1, Example.h3]],
        GetNearestHit (some ⟨m⟩) = some Example.h1 :=
  ⟨by decide, by decide, by decide,
    (C12_nearest_hit_determinism [Example.h3, Example.h1, Example.h5]
      [Example.h5, Example.h3, Example.h1] (by decide) (by decide) (by decide)).1,
    by decide⟩

end UsdMayaGLBatchRenderer

/-! ## Null shape adapters and the independence of the two registries -/

namespace UsdMayaGLBatchRenderer

/-- C16: for every state, `AddShapeAdapter(nullptr)` and `RemoveShapeAdapter(nullptr)` return
false and leave the state, so both bucket maps and both handle maps, as it was. -/
theorem C16_null_shape_adapter (Hash : PxrMayaHdRenderParams → Nat)
    (self : UsdMayaGLBatchRenderer) :
    self.AddShapeAdapter Hash none = some (false, self) ∧
      self.RemoveShapeAdapter none = (false, self) ∧
      (∀ r s, self.AddShapeAdapter Hash none = some (r, s) →
        r = false ∧ s._shapeAdapterBuckets = self._shapeAdapterBuckets ∧
        s._legacyShapeAdapterBuckets = self._legacyShapeAdapterBuckets ∧
        s._shapeAdapterHandleMap = self._shapeAdapterHandleMap ∧
        s._legacyShapeAdapterHandleMap = self._legacyShapeAdapterHandleMap) ∧
      (self.RemoveShapeAdapter none).2._shapeAdapterBuckets = self._shapeAdapterBuckets ∧
      (self.RemoveShapeAdapter none).2._legacyShapeAdapterBuckets
        = self._legacyShapeAdapterBuckets ∧
      (self.RemoveShapeAdapter none).2._shapeAdapterHandleMap = self._shapeAdapterHandleMap ∧
      (self.RemoveShapeAdapter none).2._legacyShapeAdapterHandleMap
        = self._legacyShapeAdapterHandleMap := by
  refine ⟨rfl, rfl, ?_, rfl, rfl, rfl, rfl⟩
  intro r s h
  have h2 : (false, self) = (r, s) := Option.some.inj h
  cases h2
  exact ⟨rfl, rfl, rfl, rfl, rfl⟩

/-- Every result of `AddShapeAdapter` leaves the maps of the other viewport as they were. -/
theorem AddShapeAdapter_frame (Hash : PxrMayaHdRenderParams → Nat)
    (self : UsdMayaGLBatchRenderer) (a : PxrMayaHdShapeAdapter) (r : Bool)
    (s : UsdMayaGLBatchRenderer) (h : self.AddShapeAdapter Hash (some a) = some (r, s)) :
    ∀ w, w ≠ a.isViewport2 →
      s.bucketsMap w = self.bucketsMap w ∧ s.handleMap w = self.handleMap w := by
  intro w hw
  cases hf : (self.bucketsMap a.isViewport2).find (Hash a.renderParams) with
  | none =>
    rw [AddShapeAdapter_of_find_none Hash self a hf] at h
    cases h
    simp [hw]
  | some b =>
    by_cases hmem : a.addr ∈ b.2.elems
    · rw [AddShapeAdapter_of_mem Hash self a b hf hmem] at h
      cases h
      exact ⟨rfl, rfl⟩
    · by_cases hemp : b.2.elems = []
      · rw [AddShapeAdapter_of_empty Hash self a b hf hemp] at h
        cases h
      · rw [AddShapeAdapter_of_not_mem Hash self a b hf hmem hemp] at h
        cases h
        simp [hw]

/-- C17: for every state, `RemoveShapeAdapter` and every result of `AddShapeAdapter` with a
Viewport 2.0 shape adapter leave the legacy bucket map and the legacy handle map as they were,
and with a legacy shape adapter they leave the Viewport 2.0 bucket map and handle map as they
were; `AddShapeAdapter` has a result whenever the bucket of the hash of the render params, if
there is one, is not empty; and after every sequence of calls on a freshly constructed batch
renderer with one `IsViewport2` value per shape adapter, every call has a result and no shape
adapter is in buckets of both maps. -/
theorem C17_registry_independence (Hash : PxrMayaHdRenderParams → Nat)
    (self : UsdMayaGLBatchRenderer) (a : PxrMayaHdShapeAdapter) :
    (a.isViewport2 = true →
      ((self.RemoveShapeAdapter (some a)).2._legacyShapeAdapterBuckets
          = self._legacyShapeAdapterBuckets ∧
        (self.RemoveShapeAdapter (some a)).2._legacyShapeAdapterHandleMap
          = self._legacyShapeAdapterHandleMap) ∧
      ∀ r s, self.AddShapeAdapter Hash (some a) = some (r, s) →
        s._legacyShapeAdapterBuckets = self._legacyShapeAdapterBuckets ∧
        s._legacyShapeAdapterHandleMap = self._legacyShapeAdapterHandleMap) ∧
    (a.isViewport2 = false →
      ((self.RemoveShapeAdapter (some a)).2._shapeAdapterBuckets
          = self._shapeAdapterBuckets ∧
        (self.RemoveShapeAdapter (some a)).2._shapeAdapterHandleMap
          = self._shapeAdapterHandleMap) ∧
      ∀ r s, self.AddShapeAdapter Hash (some a) = some (r, s) →
        s._shapeAdapterBuckets = self._shapeAdapterBuckets ∧
        s._shapeAdapterHandleMap = self._shapeAdapterHandleMap) ∧
    ((∀ b, (self.bucketsMap a.isViewport2).find (Hash a.renderParams) = some b →
        b.2.elems ≠ []) →
      ∃ r s, self.AddShapeAdapter Hash (some a) = some (r, s)) ∧
    (∀ (x y z : Bool) (cs : List RegistryCall), FixedViewport cs →
      ∃ s, (new x y z).calls Hash cs = some s ∧
        ∀ addr, ¬ (isMember s._shapeAdapterBuckets addr = true ∧
          isMember s._legacyShapeAdapterBuckets addr = true)) := by
  obtain ⟨-, -, -, hrem, -⟩ := RemoveShapeAdapter_post self a
  refine ⟨?_, ?_, ?_, ?_⟩
  · intro hv
    have h1 := hrem false (by rw [hv]; decide)
    refine ⟨h1, ?_⟩
    intro r s hs
    exact AddShapeAdapter_frame Hash self a r s hs false (by rw [hv]; decide)
  · intro hv
    have h1 := hrem true (by rw [hv]; decide)
    refine ⟨h1, ?_⟩
    intro r s hs
    exact AddShapeAdapter_frame Hash self a r s hs true (by rw [hv]; decide)
  · intro hne
    obtain ⟨r, s, hs, -⟩ := AddShapeAdapter_post Hash self a hne
    exact ⟨r, s, hs⟩
  · intro x y z cs hfix
    obtain ⟨s, hs, -, hinv⟩ := one_bucket_invariant Hash x y z cs hfix
    refine ⟨s, hs, ?_⟩
    rintro addr ⟨h1, h2⟩
    obtain ⟨k1, hk1⟩ := (isMember_iff _ _).mp h1
    obtain ⟨k2, hk2⟩ := (isMember_iff _ _).mp h2
    have hk1' : inBucket (s.bucketsMap true) k1 addr = true := hk1
    have hk2' : inBucket (s.bucketsMap false) k2 addr = true := hk2
    cases hl : lastCall cs addr with
    | none =>
      have := (hinv addr).2 (fun a ha => by rw [hl] at ha; cases ha) true k1
      rw [this] at hk1'
      cases hk1'
    | some c =>
      cases c with
      | Remove b =>
        have := (hinv addr).2 (fun a ha => by rw [hl] at ha; cases ha) true k1
        rw [this] at hk1'
        cases hk1'
      | Add b =>
        have hother := ((hinv addr).1 b hl).2
        cases hb : b.isViewport2 with
        | true =>
          rw [hb] at hother
          have := hother k2
          simp only [Bool.not_true] at this
          rw [this] at hk2'
          cases hk2'
        | false =>
          rw [hb] at hother
          have := hother k1
          simp only [Bool.not_false] at this
          rw [this] at hk1'
          cases hk1'

/-- C17 on the example session, in which `A`, `B` and `C` are Viewport 2.0 shape adapters and
`L` is a legacy one: adding the Viewport 2.0 shape adapter `B` after `A` leaves the legacy maps,
and no shape adapter is in both maps after the session. -/
theorem C17_registry_independence_witness :
    Example.B.isViewport2 = true ∧ FixedViewport Example.session ∧
      (∀ r s, Example.afterA.AddShapeAdapter Example.Hash (some Example.B) = some (r, s) →
        s._legacyShapeAdapterBuckets = Example.afterA._legacyShapeAdapterBuckets ∧
        s._legacyShapeAdapterHandleMap = Example.afterA._legacyShapeAdapterHandleMap) ∧
      (Example.afterA.AddShapeAdapter Example.Hash (some Example.B)).isSome = true ∧
      ∃ s, Example.fresh.calls Example.Hash Example.session = some s ∧
        ∀ addr, ¬ (isMember s._shapeAdapterBuckets addr = true ∧
          isMember s._legacyShapeAdapterBuckets addr = true) :=
  ⟨rfl, by decide,
    ((C17_registry_independence Example.Hash Example.afterA Example.B).1 rfl).2,
    by decide,
    (C17_registry_independence Example.Hash Example.afterA Example.B).2.2.2 false true false
      Example.session (by decide)⟩

end UsdMayaGLBatchRenderer

/-! ## The render pass -/

namespace UsdMayaGLBatchRenderer

/-- A property of the freshly constructed batch renderer that every call with a result keeps
holds in every reachable state. -/
theorem reachable_induction (Hash : PxrMayaHdRenderParams → Nat)
    (P : UsdMayaGLBatchRenderer → Prop) (hnew : ∀ x y z, P (new x y z))
    (hstep : ∀ s c t, P s → (∀ w, NoEmptyBucket (s.bucketsMap w)) → s.call Hash c = some t →
      P t)
    (s : UsdMayaGLBatchRenderer) (hs : Reachable Hash s) : P s := by
  obtain ⟨x, y, z, cs, hcs⟩ := hs
  induction cs using List.reverseRecOn generalizing s with
  | nil =>
    simp only [calls, Option.some.injEq] at hcs
    rw [← hcs]
    exact hnew x y z
  | append_singleton cs c ih =>
    rw [calls_snoc] at hcs
    cases ht : (new x y z).calls Hash cs with
    | none => rw [ht] at hcs; cases hcs
    | some t =>
      rw [ht, Option.some_bind] at hcs
      exact hstep t c s (ih t ht) (reachable_noEmpty Hash t ⟨x, y, z, cs, ht⟩) hcs

theorem RenderBatches_of_isEmpty (Hash : PxrMayaHdRenderParams → Nat)
    (heap : Nat → PxrMayaHdShapeAdapter) (self : UsdMayaGLBatchRenderer)
    (vp2Context : Option MDrawContext) (worldToViewMatrix projectionMatrix : GfMatrix4d)
    (viewport : GfVec4d) (h : (self.bucketsMap vp2Context.isSome).isEmpty = true) :
    _RenderBatches Hash heap self vp2Context worldToViewMatrix projectionMatrix viewport
      = some (self, none) := by
  simp [_RenderBatches, h]

theorem RenderBatches_of_not_isEmpty (Hash : PxrMayaHdRenderParams → Nat)
    (heap : Nat → PxrMayaHdShapeAdapter) (self : UsdMayaGLBatchRenderer)
    (vp2Context : Option MDrawContext) (worldToViewMatrix projectionMatrix : GfMatrix4d)
    (viewport : GfVec4d) (h : (self.bucketsMap vp2Context.isSome).isEmpty = false)
    (hindex : self._renderIndex = true) :
    _RenderBatches Hash heap self vp2Context worldToViewMatrix projectionMatrix viewport
      = some (if vp2Context.isNone then
            _MayaRenderDidEnd
              { self with _selectResults := UnorderedMap.empty, _softSelectHelper := false }
          else { self with _selectResults := UnorderedMap.empty, _softSelectHelper := false },
         some (_Render Hash
           { self with _selectResults := UnorderedMap.empty, _softSelectHelper := false }
           worldToViewMatrix projectionMatrix viewport
           ((self.bucketsMap vp2Context.isSome).entries.map
             (fun iter => (iter.2.1,
               iter.2.2.elems.map
                 (fun shapeAdapter => (heap shapeAdapter).rprimCollection)))))) := by
  simp [_RenderBatches, h, hindex]

/-- Without render index `_RenderBatches` has no result when there is a bucket to render. -/
theorem RenderBatches_of_no_renderIndex (Hash : PxrMayaHdRenderParams → Nat)
    (heap : Nat → PxrMayaHdShapeAdapter) (self : UsdMayaGLBatchRenderer)
    (vp2Context : Option MDrawContext) (worldToViewMatrix projectionMatrix : GfMatrix4d)
    (viewport : GfVec4d) (h : (self.bucketsMap vp2Context.isSome).isEmpty = false)
    (hindex : self._renderIndex = false) :
    _RenderBatches Hash heap self vp2Context worldToViewMatrix projectionMatrix viewport
      = none := by
  simp [_RenderBatches, h, hindex]

end UsdMayaGLBatchRenderer

namespace UsdMayaGLBatchRenderer

/-- C13 (as stated, refuted): `_RenderBatches` returns at once when the bucket map of the
rendered viewport is empty, before the selection cache is cleared.  After an area selection on
the Viewport 2.0 shape adapters `A`, `B`, `C` a render pass of the legacy viewport, which has
no shape adapter, leaves the state with its selection cache as it was, not empty; and so does
a render pass of Viewport 2.0 after the three shape adapters were removed.  (In a batch
renderer without render index whose legacy bucket map holds `L` the call has no result at all,
so the selection cache is not empty after it either.) -/
theorem C13_render_keeps_cache_without_buckets :
    (Example.afterPick._selectResults.isEmpty = false ∧
      _RenderBatches Example.Hash Example.heap Example.afterPick none [] [] []
        = some (Example.afterPick, none)) ∧
    (Example.afterPickAndRemove._shapeAdapterBuckets.isEmpty = true ∧
      Example.afterPickAndRemove._selectResults.isEmpty = false ∧
      _RenderBatches Example.Hash Example.heap Example.afterPickAndRemove
        (some Example.context) [] [] [] = some (Example.afterPickAndRemove, none)) ∧
    (Example.noRenderIndexAfterL._renderIndex = false ∧
      Example.noRenderIndexAfterL._legacyShapeAdapterBuckets.isEmpty = false ∧
      _RenderBatches Example.Hash Example.heap Example.noRenderIndexAfterL none [] [] []
        = none) := by
  refine ⟨⟨by decide, by decide⟩, ⟨by decide, by decide, by decide⟩, by decide, by decide,
    by decide⟩

/-- C13 (amended): for every state with a render index and both viewports, when the bucket map
of the rendered viewport is not empty `_RenderBatches` returns and the selection cache is empty
after it; for every state, when that bucket map is empty `_RenderBatches` renders nothing and
leaves the state, with the selection cache, as it was. -/
theorem C13_render_clears_cache (Hash : PxrMayaHdRenderParams → Nat)
    (heap : Nat → PxrMayaHdShapeAdapter) (self : UsdMayaGLBatchRenderer)
    (vp2Context : Option MDrawContext) (worldToViewMatrix projectionMatrix : GfMatrix4d)
    (viewport : GfVec4d) :
    ((self.bucketsMap vp2Context.isSome).isEmpty = false → self._renderIndex = true →
      ∃ r, _RenderBatches Hash heap self vp2Context worldToViewMatrix projectionMatrix
          viewport = some r ∧
        r.1._selectResults = UnorderedMap.empty ∧ r.1._selectResults.isEmpty = true) ∧
    ((self.bucketsMap vp2Context.isSome).isEmpty = true →
      _RenderBatches Hash heap self vp2Context worldToViewMatrix projectionMatrix viewport
        = some (self, none)) := by
  refine ⟨?_, RenderBatches_of_isEmpty Hash heap self vp2Context _ _ _⟩
  intro h hindex
  rw [RenderBatches_of_not_isEmpty Hash heap self vp2Context _ _ _ h hindex]
  refine ⟨_, rfl, ?_⟩
  cases vp2Context with
  | none =>
    simp only [Option.isNone_none, if_true, _MayaRenderDidEnd, _UpdateLegacySelectionPending]
    split <;> exact ⟨rfl, rfl⟩
  | some c => exact ⟨rfl, rfl⟩

/-- C13 (amended) on the state after an area selection, rendered for Viewport 2.0. -/
theorem C13_render_clears_cache_witness :
    (Example.afterPick.bucketsMap (some Example.context).isSome).isEmpty = false ∧
      Example.afterPick._renderIndex = true ∧
      Example.afterPick._selectResults.isEmpty = false ∧
      ∃ r, _RenderBatches Example.Hash Example.heap Example.afterPick (some Example.context)
          [] [] [] = some r ∧
        r.1._selectResults = UnorderedMap.empty ∧ r.1._selectResults.isEmpty = true :=
  ⟨by decide, by decide, by decide,
    (C13_render_clears_cache Example.Hash Example.heap Example.afterPick
      (some Example.context) [] [] []).1 (by decide) (by decide)⟩

end UsdMayaGLBatchRenderer
namespace UsdMayaGLBatchRenderer

theorem MayaRenderDidEnd_flags (self : UsdMayaGLBatchRenderer) :
    self._MayaRenderDidEnd._legacySelectionPending = true ∧
      self._MayaRenderDidEnd._drawnMayaRenderPasses = UnorderedSet.empty := by
  cases h : self._legacySelectionPending <;>
    simp [_MayaRenderDidEnd, _UpdateLegacySelectionPending, h]

theorem RenderBatches_flags_vp2 (Hash : PxrMayaHdRenderParams → Nat)
    (heap : Nat → PxrMayaHdShapeAdapter) (self : UsdMayaGLBatchRenderer)
    (context : MDrawContext) (worldToViewMatrix projectionMatrix : GfMatrix4d)
    (viewport : GfVec4d) (r : UsdMayaGLBatchRenderer × Option RenderSubmission)
    (hr : _RenderBatches Hash heap self (some context) worldToViewMatrix projectionMatrix
      viewport = some r) :
    r.1._legacySelectionPending = self._legacySelectionPending ∧
      r.1._drawnMayaRenderPasses = self._drawnMayaRenderPasses := by
  cases h : (self.bucketsMap (some context).isSome).isEmpty with
  | true =>
    rw [RenderBatches_of_isEmpty Hash heap self (some context) _ _ _ h,
      Option.some.injEq] at hr
    subst hr
    exact ⟨rfl, rfl⟩
  | false =>
    cases hi : self._renderIndex with
    | false =>
      rw [RenderBatches_of_no_renderIndex Hash heap self (some context) _ _ _ h hi] at hr
      cases hr
    | true =>
      rw [RenderBatches_of_not_isEmpty Hash heap self (some context) _ _ _ h hi,
        Option.some.injEq] at hr
      subst hr
      exact ⟨rfl, rfl⟩

theorem lookupSelectResults_state (self : UsdMayaGLBatchRenderer) (delegateId : SdfPath)
    (computedSelection legacy : Bool) (queries : List IntersectionQuery) :
    (lookupSelectResults self delegateId computedSelection legacy queries).state = self := by
  unfold lookupSelectResults
  split
  · rfl
  · split <;> rfl

theorem lookupSelectResults_computed (self : UsdMayaGLBatchRenderer) (delegateId : SdfPath)
    (computedSelection legacy : Bool) (queries : List IntersectionQuery) :
    (lookupSelectResults self delegateId computedSelection legacy queries).computedSelection
      = computedSelection := by
  unfold lookupSelectResults
  split
  · rfl
  · split <;> rfl

/-- A `Draw` call for a render pass that is in the set of drawn passes does nothing, with or
without render index. -/
theorem Draw_of_drawn (Hash : PxrMayaHdRenderParams → Nat) (heap : Nat → PxrMayaHdShapeAdapter)
    (self : UsdMayaGLBatchRenderer) (drawAPIIsOpenGL : Bool) (context : MDrawContext)
    (hdUserData : Option PxrMayaHdUserData)
    (h : context.passIdentifier ∈ self._drawnMayaRenderPasses.elems) :
    ∃ renderedBoundingBox, Draw Hash heap self drawAPIIsOpenGL context hdUserData
      = some ⟨self, renderedBoundingBox, none⟩ := by
  have hc : self._drawnMayaRenderPasses.contains context.passIdentifier = true :=
    (UnorderedSet.contains_iff _ _).mpr h
  cases drawAPIIsOpenGL with
  | false => exact ⟨false, rfl⟩
  | true =>
    cases hdUserData with
    | none => exact ⟨false, rfl⟩
    | some userData =>
      refine ⟨userData.boundingBox.isSome, ?_⟩
      simp only [Draw, Bool.not_true, Bool.false_eq_true, if_false, hc, if_true]

/-- A `Draw` call for a render pass that is not in the set of drawn passes, with user data and
OpenGL: the pass is recorded; the batch render is made when the shape is drawn and the frame
stamp is not the stored one. -/
theorem Draw_of_new (Hash : PxrMayaHdRenderParams → Nat) (heap : Nat → PxrMayaHdShapeAdapter)
    (self : UsdMayaGLBatchRenderer) (context : MDrawContext) (userData : PxrMayaHdUserData)
    (h : context.passIdentifier ∉ self._drawnMayaRenderPasses.elems) :
    Draw Hash heap self true context (some userData)
      = if userData.drawShape = true ∧ self._lastRenderFrameStamp ≠ context.frameStamp then
          (_RenderBatches Hash heap
              { self with
                _drawnMayaRenderPasses :=
                  self._drawnMayaRenderPasses.insert context.passIdentifier
                _lastRenderFrameStamp := context.frameStamp }
              (some context) context.viewMatrix context.projectionMatrix
              context.viewport).map
            (fun r => ⟨r.1, userData.boundingBox.isSome, r.2⟩)
        else
          some ⟨{ self with
              _drawnMayaRenderPasses :=
                self._drawnMayaRenderPasses.insert context.passIdentifier },
            userData.boundingBox.isSome, none⟩ := by
  have hc : self._drawnMayaRenderPasses.contains context.passIdentifier = false := by
    cases hx : self._drawnMayaRenderPasses.contains context.passIdentifier with
    | false => rfl
    | true => exact absurd ((UnorderedSet.contains_iff _ _).mp hx) h
  by_cases hd : userData.drawShape = true
  · by_cases hf : self._lastRenderFrameStamp = context.frameStamp
    · simp only [Draw, Bool.not_true, Bool.false_eq_true, if_false, hc, hd, if_true,
        _UpdateRenderFrameStamp, hf, ne_eq, not_true_eq_false, and_false]
    · simp only [Draw, Bool.not_true, Bool.false_eq_true, if_false, hc, hd, if_true,
        _UpdateRenderFrameStamp, hf, ne_eq, not_false_eq_true, and_self]
      split
      · rename_i hn
        rw [hn]
        rfl
      · rename_i r hs
        rw [hs]
        rfl
  · simp only [Draw, Bool.not_true, Bool.false_eq_true, if_false, hc, hd, false_and]

theorem Draw_flags (Hash : PxrMayaHdRenderParams → Nat) (heap : Nat → PxrMayaHdShapeAdapter)
    (self : UsdMayaGLBatchRenderer) (drawAPIIsOpenGL : Bool) (context : MDrawContext)
    (hdUserData : Option PxrMayaHdUserData) (r : DrawResult)
    (hr : Draw Hash heap self drawAPIIsOpenGL context hdUserData = some r) :
    r.state._legacySelectionPending = self._legacySelectionPending ∧
      ∀ passId, passId ∈ self._drawnMayaRenderPasses.elems →
        passId ∈ r.state._drawnMayaRenderPasses.elems := by
  have hins : ∀ passId, passId ∈ self._drawnMayaRenderPasses.elems →
      passId ∈ (self._drawnMayaRenderPasses.insert context.passIdentifier).elems :=
    fun passId h => (UnorderedSet.mem_insert _ _ _).mpr (Or.inr h)
  by_cases hp : context.passIdentifier ∈ self._drawnMayaRenderPasses.elems
  · obtain ⟨bb, hD⟩ := Draw_of_drawn Hash heap self drawAPIIsOpenGL context hdUserData hp
    rw [hD, Option.some.injEq] at hr
    subst hr
    exact ⟨rfl, fun _ h => h⟩
  · cases drawAPIIsOpenGL with
    | false =>
      simp only [Draw, Bool.not_false, if_true, Option.some.injEq] at hr
      subst hr
      exact ⟨rfl, fun _ h => h⟩
    | true =>
      cases hdUserData with
      | none =>
        simp only [Draw, Bool.not_true, Bool.false_eq_true, if_false,
          Option.some.injEq] at hr
        subst hr
        exact ⟨rfl, fun _ h => h⟩
      | some userData =>
        rw [Draw_of_new Hash heap self context userData hp] at hr
        split at hr
        · obtain ⟨rb, hrb, hr2⟩ := Option.map_eq_some'.mp hr
          subst hr2
          obtain ⟨h1, h2⟩ := RenderBatches_flags_vp2 _ _ _ _ _ _ _ _ hrb
          refine ⟨h1, fun passId hpass => ?_⟩
          show passId ∈ rb.1._drawnMayaRenderPasses.elems
          rw [h2]
          exact hins passId hpass
        · rw [Option.some.injEq] at hr
          subst hr
          exact ⟨rfl, hins⟩

end UsdMayaGLBatchRenderer

namespace UsdMayaGLBatchRenderer

theorem TestIntersectionLegacy_of_guard (intersector : HdxIntersector)
    (heap : Nat → PxrMayaHdShapeAdapter) (depth : Bool)
    (mul : GfMatrix4d → GfMatrix4d → GfMatrix4d) (self : UsdMayaGLBatchRenderer)
    (shapeAdapter : PxrMayaHdShapeAdapter) (rootXformInverse : GfMatrix4d) (view : M3dView)
    (singleSelection : Bool)
    (h : (!self._renderIndex || (self.bucketsMap
      (view.isViewport2Renderer && self._viewport2UsesLegacySelection)).isEmpty) = true) :
    TestIntersectionLegacy intersector heap depth mul self shapeAdapter rootXformInverse view
        singleSelection
      = ⟨none, { self with _selectResults := UnorderedMap.empty }, false, false, []⟩ := by
  unfold TestIntersectionLegacy
  simp only [h, if_true]

theorem TestIntersectionLegacy_of_not_guard (intersector : HdxIntersector)
    (heap : Nat → PxrMayaHdShapeAdapter) (depth : Bool)
    (mul : GfMatrix4d → GfMatrix4d → GfMatrix4d) (self : UsdMayaGLBatchRenderer)
    (shapeAdapter : PxrMayaHdShapeAdapter) (rootXformInverse : GfMatrix4d) (view : M3dView)
    (singleSelection : Bool)
    (h : (!self._renderIndex || (self.bucketsMap
      (view.isViewport2Renderer && self._viewport2UsesLegacySelection)).isEmpty) = false) :
    (TestIntersectionLegacy intersector heap depth mul self shapeAdapter rootXformInverse view
        singleSelection).computedSelection = self._legacySelectionPending ∧
      (TestIntersectionLegacy intersector heap depth mul self shapeAdapter rootXformInverse view
        singleSelection).state._legacySelectionPending = false ∧
      (TestIntersectionLegacy intersector heap depth mul self shapeAdapter rootXformInverse view
        singleSelection).state._drawnMayaRenderPasses = self._drawnMayaRenderPasses := by
  unfold TestIntersectionLegacy
  simp only [h, Bool.false_eq_true, if_false, _UpdateLegacySelectionPending]
  cases hp : self._legacySelectionPending with
  | false =>
    simp only [if_true, Bool.false_eq_true, if_false, lookupSelectResults_state,
      lookupSelectResults_computed, hp, and_self]
  | true =>
    simp only [Bool.true_eq_false, if_false, if_true, lookupSelectResults_state,
      lookupSelectResults_computed, _ComputeSelection, and_self]

end UsdMayaGLBatchRenderer

namespace UsdMayaGLBatchRenderer

end UsdMayaGLBatchRenderer
namespace UsdMayaGLBatchRenderer

theorem TestIntersectionLegacy_frame (intersector : HdxIntersector)
    (heap : Nat → PxrMayaHdShapeAdapter) (depth : Bool)
    (mul : GfMatrix4d → GfMatrix4d → GfMatrix4d) (self : UsdMayaGLBatchRenderer)
    (shapeAdapter : PxrMayaHdShapeAdapter) (rootXformInverse : GfMatrix4d) (view : M3dView)
    (singleSelection : Bool) :
    (TestIntersectionLegacy intersector heap depth mul self shapeAdapter rootXformInverse view
        singleSelection).computedSelection
      = (!(!self._renderIndex || (self.bucketsMap
          (view.isViewport2Renderer && self._viewport2UsesLegacySelection)).isEmpty)
        && self._legacySelectionPending) ∧
    (TestIntersectionLegacy intersector heap depth mul self shapeAdapter rootXformInverse view
        singleSelection).state._legacySelectionPending
      = ((!self._renderIndex || (self.bucketsMap
          (view.isViewport2Renderer && self._viewport2UsesLegacySelection)).isEmpty)
        && self._legacySelectionPending) := by
  cases h : (!self._renderIndex || (self.bucketsMap
      (view.isViewport2Renderer && self._viewport2UsesLegacySelection)).isEmpty) with
  | true =>
    rw [TestIntersectionLegacy_of_guard intersector heap depth mul self shapeAdapter
      rootXformInverse view singleSelection h]
    simp
  | false =>
    obtain ⟨h1, h2, -⟩ := TestIntersectionLegacy_of_not_guard intersector heap depth mul self
      shapeAdapter rootXformInverse view singleSelection h
    rw [h1, h2]
    simp

theorem legacyPicks_count (intersector : HdxIntersector)
    (heap : Nat → PxrMayaHdShapeAdapter) (depth : Bool)
    (mul : GfMatrix4d → GfMatrix4d → GfMatrix4d) (picks : List LegacyPick) :
    ∀ self : UsdMayaGLBatchRenderer,
      (legacyPicks intersector heap depth mul self picks).2.count true
        ≤ if self._legacySelectionPending = true then 1 else 0 := by
  induction picks with
  | nil => intro self; simp [legacyPicks]
  | cons pick rest ih =>
    intro self
    obtain ⟨h1, h2⟩ := TestIntersectionLegacy_frame intersector heap depth mul self
      pick.shapeAdapter pick.rootXformInverse pick.view pick.singleSelection
    have hrest := ih (TestIntersectionLegacy intersector heap depth mul self
      pick.shapeAdapter pick.rootXformInverse pick.view pick.singleSelection).state
    simp only [legacyPicks, List.count_cons]
    rw [h2] at hrest
    rw [h1]
    revert hrest
    cases (!self._renderIndex || (self.bucketsMap
      (pick.view.isViewport2Renderer && self._viewport2UsesLegacySelection)).isEmpty) <;>
    cases self._legacySelectionPending <;> simp

theorem MayaRenderDidEnd_frame (self : UsdMayaGLBatchRenderer) :
    self._MayaRenderDidEnd._renderIndex = self._renderIndex ∧
      self._MayaRenderDidEnd._viewport2UsesLegacySelection
        = self._viewport2UsesLegacySelection ∧
      ∀ w, self._MayaRenderDidEnd.bucketsMap w = self.bucketsMap w := by
  cases h : self._legacySelectionPending <;>
    simp [_MayaRenderDidEnd, _UpdateLegacySelectionPending, h, bucketsMap]

/-- C18 (as stated, refuted): in a state with a bucket in the legacy bucket map the first
`TestIntersection` call of the legacy viewport after `_MayaRenderDidEnd` does not compute the
selection when the renderer of the view is Viewport 2.0, `MAYA_VP2_USE_VP1_SELECTION` is set
and the Viewport 2.0 bucket map is empty, nor when there is no render index. -/
theorem C18_first_pick_without_recompute :
    (Example.legacySelectionAfterL._legacyShapeAdapterBuckets.isEmpty = false ∧
      Example.legacySelectionAfterL._renderIndex = true ∧
      Example.legacySelectionAfterL._MayaRenderDidEnd._legacySelectionPending = true ∧
      (TestIntersectionLegacy Example.intersector Example.heap true Example.mul
        Example.legacySelectionAfterL._MayaRenderDidEnd Example.L [] Example.viewOfViewport2
        false).computedSelection = false ∧
      (legacyPicks Example.intersector Example.heap true Example.mul
        Example.legacySelectionAfterL._MayaRenderDidEnd
        [Example.pick, Example.pick]).2 = [false, false]) ∧
    (Example.noRenderIndexAfterL._legacyShapeAdapterBuckets.isEmpty = false ∧
      Example.noRenderIndexAfterL._renderIndex = false ∧
      (TestIntersectionLegacy Example.intersector Example.heap true Example.mul
        Example.noRenderIndexAfterL._MayaRenderDidEnd Example.L [] Example.view
        false).computedSelection = false) := by
  refine ⟨⟨by decide, by decide, by decide, by decide, by decide⟩,
    by decide, by decide, by decide⟩

/-- C18 (amended): `_UpdateLegacySelectionPending(p)` returns true exactly when the stored flag
differs from `p`, and the flag is `p` after it.  For every state, of any number of consecutive
`TestIntersection` calls of the legacy viewport at most one computes the selection; and after
`_MayaRenderDidEnd`, when there is a render index and the bucket map that the first call
selects (the Viewport 2.0 one when the renderer of the view is Viewport 2.0 and
`MAYA_VP2_USE_VP1_SELECTION` is set, else the legacy one) is not empty, the first call computes
the selection and no later call does. -/
theorem C18_legacy_flag_gate (intersector : HdxIntersector)
    (heap : Nat → PxrMayaHdShapeAdapter) (depth : Bool)
    (mul : GfMatrix4d → GfMatrix4d → GfMatrix4d) (self : UsdMayaGLBatchRenderer) :
    (∀ p : Bool,
      ((self._UpdateLegacySelectionPending p).1 = true ↔ self._legacySelectionPending ≠ p) ∧
      (self._UpdateLegacySelectionPending p).2 = { self with _legacySelectionPending := p } ∧
      (self._UpdateLegacySelectionPending p).2._legacySelectionPending = p) ∧
    (∀ picks : List LegacyPick,
      (legacyPicks intersector heap depth mul self picks).2.count true ≤ 1 ∧
      (legacyPicks intersector heap depth mul self._MayaRenderDidEnd picks).2.count true
        ≤ 1) ∧
    (∀ (pick : LegacyPick) (picks : List LegacyPick), self._renderIndex = true →
      (self.bucketsMap (pick.view.isViewport2Renderer
        && self._viewport2UsesLegacySelection)).isEmpty = false →
      (legacyPicks intersector heap depth mul self._MayaRenderDidEnd (pick :: picks)).2
        = true :: List.replicate picks.length false) := by
  have hle : ∀ (s : UsdMayaGLBatchRenderer) (picks : List LegacyPick),
      (legacyPicks intersector heap depth mul s picks).2.count true ≤ 1 := by
    intro s picks
    refine le_trans (legacyPicks_count intersector heap depth mul picks s) ?_
    split <;> simp
  have hlen : ∀ (picks : List LegacyPick) (s : UsdMayaGLBatchRenderer),
      (legacyPicks intersector heap depth mul s picks).2.length = picks.length := by
    intro picks
    induction picks with
    | nil => intro s; rfl
    | cons pick rest ih => intro s; simp [legacyPicks, ih]
  refine ⟨fun p => ?_, fun picks => ⟨hle _ picks, hle _ picks⟩, fun pick picks hri hne => ?_⟩
  · unfold _UpdateLegacySelectionPending
    by_cases h : self._legacySelectionPending = p
    · simp only [h, if_true, ne_eq, not_true_eq_false, iff_false, Bool.false_eq_true,
        not_false_eq_true, true_and]
      subst h
      exact ⟨rfl, trivial⟩
    · simp [h]
  · obtain ⟨e1, e2, e3⟩ := MayaRenderDidEnd_frame self
    obtain ⟨h1, h2⟩ := TestIntersectionLegacy_frame intersector heap depth mul
      self._MayaRenderDidEnd pick.shapeAdapter pick.rootXformInverse pick.view
      pick.singleSelection
    rw [e1, e2, e3, hri, hne, (MayaRenderDidEnd_flags self).1] at h1 h2
    have hrest := legacyPicks_count intersector heap depth mul picks
      (TestIntersectionLegacy intersector heap depth mul self._MayaRenderDidEnd
        pick.shapeAdapter pick.rootXformInverse pick.view pick.singleSelection).state
    rw [h2] at hrest
    simp only [Bool.not_true, Bool.or_false, Bool.false_and, Bool.false_eq_true, if_false,
      Nat.le_zero, List.count_eq_zero] at hrest
    simp only [legacyPicks, h1]
    simp only [Bool.not_true, Bool.or_false, Bool.not_false, Bool.and_self, List.cons.injEq,
      true_and]
    refine List.eq_replicate_iff.mpr ⟨hlen _ _, fun b hb => ?_⟩
    cases b with
    | false => rfl
    | true => exact absurd hb hrest

/-- C18 (amended) on a batch renderer with `MAYA_VP2_USE_VP1_SELECTION` set and the shape
adapters `A`, `B`, `C`: of three selections after the end of a render the first computes the
selection. -/
theorem C18_legacy_flag_gate_witness :
    Example.legacySelectionAfterABC._renderIndex = true ∧
      (Example.legacySelectionAfterABC.bucketsMap (Example.pick.view.isViewport2Renderer
        && Example.legacySelectionAfterABC._viewport2UsesLegacySelection)).isEmpty = false ∧
      (legacyPicks Example.intersector Example.heap true Example.mul
        Example.legacySelectionAfterABC._MayaRenderDidEnd
        [Example.pick, Example.pick, Example.pick]).2 = [true, false, false] :=
  ⟨by decide, by decide,
    (C18_legacy_flag_gate Example.intersector Example.heap true Example.mul
      Example.legacySelectionAfterABC).2.2 Example.pick [Example.pick, Example.pick]
      (by decide) (by decide)⟩

end UsdMayaGLBatchRenderer

namespace UsdMayaGLBatchRenderer

theorem adds_invariant (Hash : PxrMayaHdRenderParams → Nat) (x y z : Bool)
    (as : List PxrMayaHdShapeAdapter) :
    (∀ a ∈ as, a.isViewport2 = true) → (as.map (fun a => a.addr)).Nodup →
    ∃ s, (new x y z).calls Hash (as.map RegistryCall.Add) = some s ∧
      (∀ k n, inBucket (s.bucketsMap true) k n = true ↔
        ∃ a ∈ as, a.addr = n ∧ Hash a.renderParams = k) ∧
      (∀ k b, (s.bucketsMap true).find k = some b →
        Hash b.1 = k ∧ ∃ a ∈ as, a.renderParams = b.1) ∧
      NoEmptyBucket (s.bucketsMap true) := by
  induction as using List.reverseRecOn with
  | nil =>
    intro _ _
    refine ⟨new x y z, rfl, fun k n => ?_, fun k b hb => ?_, ?_⟩
    · simp [inBucket, new_bucketsMap, UnorderedMap.find_empty]
    · rw [new_bucketsMap, UnorderedMap.find_empty] at hb
      cases hb
    · rw [new_bucketsMap]
      intro e he
      cases he
  | append_singleton l a ih =>
    intro hvp hnd
    rw [List.map_append, List.nodup_append] at hnd
    obtain ⟨hndl, -, hdisj⟩ := hnd
    obtain ⟨s, hs, I1, I2, I3⟩ := ih (fun b hb => hvp b (List.mem_append_left _ hb)) hndl
    have ha : a.isViewport2 = true := hvp a (List.mem_append_right _ (List.mem_singleton_self a))
    have hnot : ∀ k, inBucket (s.bucketsMap true) k a.addr = false := by
      intro k
      cases h : inBucket (s.bucketsMap true) k a.addr with
      | false => rfl
      | true =>
        obtain ⟨b, hb, hba, -⟩ := (I1 k a.addr).mp h
        exact absurd (List.mem_map_of_mem (fun a => a.addr) hb)
          (fun hmem => hdisj hmem (by simp [hba]))
    have hmap : s.bucketsMap a.isViewport2 = s.bucketsMap true := by rw [ha]
    have hcall : ∃ s1 v, s.AddShapeAdapter Hash (some a) = some (true, s1) ∧
        s1.bucketsMap true = (s.bucketsMap true).set (Hash a.renderParams) v ∧
        (v.1 = a.renderParams ∨ ∃ b, (s.bucketsMap true).find (Hash a.renderParams) = some b ∧
          v.1 = b.1) ∧
        (∀ n, n ∈ v.2.elems ↔ n = a.addr ∨
          inBucket (s.bucketsMap true) (Hash a.renderParams) n = true) := by
      have herase : (eraseFromBuckets (s.bucketsMap true) a.addr).2 = s.bucketsMap true :=
        eraseFromBuckets_of_not_member _ _ I3 hnot
      cases hf : (s.bucketsMap true).find (Hash a.renderParams) with
      | none =>
        refine ⟨_, (a.renderParams, UnorderedSet.singleton a.addr),
          AddShapeAdapter_of_find_none Hash s a (by rw [hmap]; exact hf), ?_, Or.inl rfl, ?_⟩
        · simp only [bucketsMap_setHandleMap, bucketsMap_setBucketsMap, ha, if_true, herase]
        · intro n
          simp [UnorderedSet.singleton, inBucket, hf]
      | some b =>
        have hmem : a.addr ∉ b.2.elems := by
          intro hmem
          have := (inBucket_iff (s.bucketsMap true) (Hash a.renderParams) a.addr).mpr
            ⟨b, hf, hmem⟩
          rw [hnot] at this
          cases this
        have hne : b.2.elems ≠ [] :=
          (noEmptyBucket_iff _).mp I3 _ b hf
        refine ⟨_, (b.1, b.2.insert a.addr),
          AddShapeAdapter_of_not_mem Hash s a b (by rw [hmap]; exact hf) hmem hne, ?_,
          Or.inr ⟨b, rfl, rfl⟩, ?_⟩
        · simp only [bucketsMap_setHandleMap, bucketsMap_setBucketsMap, ha, if_true, herase]
        · intro n
          simp [UnorderedSet.mem_insert, inBucket, hf, UnorderedSet.contains]
    obtain ⟨s1, v, hadd, hbm, hv1, hv2⟩ := hcall
    refine ⟨s1, ?_, fun k n => ?_, fun k b hb => ?_, ?_⟩
    · rw [List.map_append, List.map_singleton, calls_snoc, hs]
      simp [call, hadd]
    · rw [hbm, inBucket_set]
      by_cases hk : k = Hash a.renderParams
      · simp only [hk, if_true, UnorderedSet.contains_iff, hv2, List.mem_append,
          List.mem_singleton]
        constructor
        · rintro (rfl | h)
          · exact ⟨a, Or.inr rfl, rfl, rfl⟩
          · obtain ⟨b, hb, hb1, hb2⟩ := (I1 _ _).mp h
            exact ⟨b, Or.inl hb, hb1, hb2⟩
        · rintro ⟨b, hb | hb, hb1, hb2⟩
          · exact Or.inr ((I1 _ _).mpr ⟨b, hb, hb1, hb2⟩)
          · subst hb
            exact Or.inl hb1.symm
      · simp only [hk, if_false, List.mem_append, List.mem_singleton]
        rw [I1]
        constructor
        · rintro ⟨b, hb, hb1, hb2⟩
          exact ⟨b, Or.inl hb, hb1, hb2⟩
        · rintro ⟨b, hb | hb, hb1, hb2⟩
          · exact ⟨b, hb, hb1, hb2⟩
          · subst hb
            exact absurd hb2.symm hk
    · rw [hbm, UnorderedMap.find_set] at hb
      by_cases hk : k = Hash a.renderParams
      · rw [if_pos hk] at hb
        cases hb
        rcases hv1 with h | ⟨b, hb, hb1⟩
        · rw [h, hk]
          exact ⟨rfl, a, List.mem_append_right _ (List.mem_singleton_self a), rfl⟩
        · obtain ⟨h1, c, hc, hc1⟩ := I2 _ b hb
          rw [hb1, hk]
          exact ⟨h1, c, List.mem_append_left _ hc, hc1⟩
      · rw [if_neg hk] at hb
        obtain ⟨h1, c, hc, hc1⟩ := I2 _ b hb
        exact ⟨h1, c, List.mem_append_left _ hc, hc1⟩
    · rw [noEmptyBucket_iff]
      intro k b hb
      rw [hbm, UnorderedMap.find_set] at hb
      by_cases hk : k = Hash a.renderParams
      · rw [if_pos hk] at hb
        cases hb
        intro hnil
        have := (hv2 a.addr).mpr (Or.inl rfl)
        rw [hnil] at this
        cases this
      · rw [if_neg hk] at hb
        exact (noEmptyBucket_iff _).mp I3 _ b hb

end UsdMayaGLBatchRenderer

namespace UsdMayaGLBatchRenderer

theorem setBucketsMap_renderIndex (s : UsdMayaGLBatchRenderer) (v : Bool)
    (m : _ShapeAdapterBucketsMap) : (s.setBucketsMap v m)._renderIndex = s._renderIndex := by
  cases v <;> rfl

theorem setHandleMap_renderIndex (s : UsdMayaGLBatchRenderer) (v : Bool)
    (m : _ShapeAdapterHandleMap) : (s.setHandleMap v m)._renderIndex = s._renderIndex := by
  cases v <;> rfl

theorem RemoveShapeAdapter_renderIndex (self : UsdMayaGLBatchRenderer)
    (shapeAdapter : Option PxrMayaHdShapeAdapter) :
    (self.RemoveShapeAdapter shapeAdapter).2._renderIndex = self._renderIndex := by
  cases shapeAdapter with
  | none => rfl
  | some a =>
    simp only [RemoveShapeAdapter, setHandleMap_renderIndex, setBucketsMap_renderIndex]

theorem AddShapeAdapter_renderIndex (Hash : PxrMayaHdRenderParams → Nat)
    (self : UsdMayaGLBatchRenderer) (shapeAdapter : Option PxrMayaHdShapeAdapter) (r : Bool)
    (s : UsdMayaGLBatchRenderer) (h : self.AddShapeAdapter Hash shapeAdapter = some (r, s)) :
    s._renderIndex = self._renderIndex := by
  cases shapeAdapter with
  | none =>
    simp only [AddShapeAdapter, Option.some.injEq, Prod.mk.injEq] at h
    rw [← h.2]
  | some a =>
    have hrem := RemoveShapeAdapter_renderIndex self (some a)
    simp only [AddShapeAdapter] at h
    split at h
    · simp only [Option.some.injEq, Prod.mk.injEq] at h
      rw [← h.2]
      simp only [setHandleMap_renderIndex, setBucketsMap_renderIndex, hrem]
    · split at h
      · simp only [Option.some.injEq, Prod.mk.injEq] at h
        rw [← h.2]
      · split at h
        · cases h
        · simp only [Option.some.injEq, Prod.mk.injEq] at h
          rw [← h.2]
          simp only [setHandleMap_renderIndex, setBucketsMap_renderIndex, hrem]

/-- The calls of `AddShapeAdapter` and `RemoveShapeAdapter` leave the render index as it
is. -/
theorem calls_renderIndex (Hash : PxrMayaHdRenderParams → Nat) (cs : List RegistryCall) :
    ∀ s t : UsdMayaGLBatchRenderer, s.calls Hash cs = some t →
      t._renderIndex = s._renderIndex := by
  induction cs with
  | nil =>
    intro s t h
    simp only [calls, Option.some.injEq] at h
    rw [h]
  | cons c cs ih =>
    intro s t h
    simp only [calls] at h
    cases hc : s.call Hash c with
    | none => rw [hc] at h; cases h
    | some u =>
      rw [hc, Option.some_bind] at h
      rw [ih u t h]
      cases c with
      | Add a =>
        simp only [call] at hc
        cases ha : s.AddShapeAdapter Hash (some a) with
        | none => rw [ha] at hc; cases hc
        | some ru =>
          rw [ha, Option.map_some', Option.some.injEq] at hc
          rw [← hc]
          exact AddShapeAdapter_renderIndex Hash s (some a) ru.1 ru.2 ha
      | Remove a =>
        simp only [call, Option.some.injEq] at hc
        rw [← hc]
        exact RemoveShapeAdapter_renderIndex s (some a)

theorem bucket_perm_of_inBucket (m : _ShapeAdapterBucketsMap) (as : List PxrMayaHdShapeAdapter)
    (hnd : (as.map (fun a => a.addr)).Nodup) (p : PxrMayaHdShapeAdapter → Bool) (k : Nat)
    (b : _ShapeAdapterBucket) (hf : m.find k = some b)
    (hI : ∀ n, inBucket m k n = true ↔ ∃ a ∈ as, a.addr = n ∧ p a = true) :
    b.2.elems.Perm ((as.filter p).map (fun a => a.addr)) := by
  have hnd2 : ((as.filter p).map (fun a => a.addr)).Nodup :=
    List.Nodup.sublist (List.Sublist.map _ (List.filter_sublist as)) hnd
  refine (List.perm_ext_iff_of_nodup b.2.nodup hnd2).mpr (fun n => ?_)
  have hin : inBucket m k n = true ↔ n ∈ b.2.elems := by
    simp [inBucket, hf, UnorderedSet.contains]
  rw [← hin, hI]
  simp only [List.mem_map, List.mem_filter]
  constructor
  · rintro ⟨a, ha, h1, h2⟩
    exact ⟨a, ⟨ha, h2⟩, h1⟩
  · rintro ⟨a, ⟨ha, h2⟩, h1⟩
    exact ⟨a, ha, h1, h2⟩

theorem collections_of_addrs (heap : Nat → PxrMayaHdShapeAdapter)
    (as l : List PxrMayaHdShapeAdapter) (hheap : ∀ a ∈ as, heap a.addr = a)
    (hl : ∀ a ∈ l, a ∈ as) :
    (l.map (fun a => a.addr)).map (fun n => (heap n).rprimCollection)
      = l.map (fun a => a.rprimCollection) := by
  rw [List.map_map]
  refine List.map_congr_left (fun a ha => ?_)
  simp only [Function.comp, hheap a (hl a ha)]

end UsdMayaGLBatchRenderer

namespace UsdMayaGLBatchRenderer

/-- C15 (as stated, refuted): the buckets are keyed by the hash of the render params, so two
shape adapters whose different render params have the same hash share a bucket.  With the
hash of the examples `A`, `B` and `C` have three distinct render params, yet `_RenderBatches`
submits two work items, and the item with the render params of `A` holds the collection of `B`
as well, whose render params differ.  (Added to a batch renderer without render index, the
three make `_RenderBatches` end without result and without submission.) -/
theorem C15_hash_collision_merges_keys :
    ([Example.A, Example.B, Example.C].map (fun a => a.renderParams)).Nodup ∧
    Example.fresh.calls Example.Hash
      [RegistryCall.Add Example.A, RegistryCall.Add Example.B, RegistryCall.Add Example.C]
      = some Example.afterABC ∧
    ((_RenderBatches Example.Hash Example.heap Example.afterABC (some Example.context) [] []
      []).map (fun r => submittedItems r.2))
      = some [(Example.C.renderParams, [Example.C.rprimCollection]),
          (Example.A.renderParams, [Example.B.rprimCollection, Example.A.rprimCollection])] ∧
    Example.B.renderParams ≠ Example.A.renderParams ∧
    (UsdMayaGLBatchRenderer.new false false false).calls Example.Hash
      [RegistryCall.Add Example.A, RegistryCall.Add Example.B, RegistryCall.Add Example.C]
      = some Example.noRenderIndexAfterABC ∧
    _RenderBatches Example.Hash Example.heap Example.noRenderIndexAfterABC
      (some Example.context) [] [] [] = none := by
  refine ⟨by decide, by decide, by decide, by decide, by decide, by decide⟩

end UsdMayaGLBatchRenderer

namespace UsdMayaGLBatchRenderer

/-- C15 (amended): for every list of distinct Viewport 2.0 shape adapters, each with fixed
render params, added to a freshly constructed batch renderer with a render index,
`_RenderBatches` returns and submits exactly one work item per distinct hash of render params
among them; the item of a hash has the render params of one of the shape adapters with that
hash and exactly the collections of the shape adapters whose render params have that hash.
When no two of the shape adapters have different render params with the same hash this is one
item per distinct render params, with the collections of the shape adapters that have these
render params.  Removing a shape adapter whose hash is shared by others leaves a bucket for
that hash with exactly the remaining shape adapters of that hash. -/
theorem C15_end_to_end_grouping (Hash : PxrMayaHdRenderParams → Nat)
    (heap : Nat → PxrMayaHdShapeAdapter) (x z : Bool) (context : MDrawContext)
    (worldToViewMatrix projectionMatrix : GfMatrix4d) (viewport : GfVec4d)
    (as : List PxrMayaHdShapeAdapter) (hvp : ∀ a ∈ as, a.isViewport2 = true)
    (hnd : (as.map (fun a => a.addr)).Nodup) (hheap : ∀ a ∈ as, heap a.addr = a) :
    ∃ s r, (new x true z).calls Hash (as.map RegistryCall.Add) = some s ∧
      _RenderBatches Hash heap s (some context) worldToViewMatrix projectionMatrix viewport
        = some r ∧
      ((submittedItems r.2).map (fun item => Hash item.1)).Perm
        ((as.map (fun a => Hash a.renderParams)).dedup) ∧
      (∀ item ∈ submittedItems r.2, (∃ a ∈ as, a.renderParams = item.1) ∧
        item.2.Perm ((as.filter (fun a => decide (Hash a.renderParams = Hash item.1))).map
          (fun a => a.rprimCollection))) ∧
      ((∀ a ∈ as, ∀ b ∈ as, Hash a.renderParams = Hash b.renderParams →
          a.renderParams = b.renderParams) →
        ((submittedItems r.2).map (fun item => item.1)).Perm
          ((as.map (fun a => a.renderParams)).dedup) ∧
        ∀ item ∈ submittedItems r.2,
          item.2.Perm ((as.filter (fun a => decide (a.renderParams = item.1))).map
            (fun a => a.rprimCollection))) ∧
      (∀ b ∈ as, (∃ a ∈ as, a.addr ≠ b.addr ∧ Hash a.renderParams = Hash b.renderParams) →
        ∃ bucket, (s.RemoveShapeAdapter (some b)).2._shapeAdapterBuckets.find
            (Hash b.renderParams) = some bucket ∧
          bucket.2.elems.Perm
            ((as.filter (fun a => decide (Hash a.renderParams = Hash b.renderParams)
              && decide (a.addr ≠ b.addr))).map (fun a => a.addr))) := by
  obtain ⟨s, hs, I1, I2, I3⟩ := adds_invariant Hash x true z as hvp hnd
  have hindex : s._renderIndex = true := calls_renderIndex Hash _ _ s hs
  have hentry : ∀ e ∈ (s.bucketsMap true).entries, (s.bucketsMap true).find e.1 = some e.2 :=
    fun e he => (UnorderedMap.find_eq_some_iff _ _ _).mpr he
  have hkey : ∀ e ∈ (s.bucketsMap true).entries, Hash e.2.1 = e.1 :=
    fun e he => (I2 e.1 e.2 (hentry e he)).1
  have hfind : ∀ a ∈ as, ∃ b, (s.bucketsMap true).find (Hash a.renderParams) = some b := by
    intro a ha
    obtain ⟨b, hb, -⟩ := (inBucket_iff _ _ _).mp ((I1 _ _).mpr ⟨a, ha, rfl, rfl⟩)
    exact ⟨b, hb⟩
  have hitems : ∃ r, _RenderBatches Hash heap s (some context) worldToViewMatrix
        projectionMatrix viewport = some r ∧
      submittedItems r.2 = (s.bucketsMap true).entries.map
        (fun e => (e.2.1, e.2.2.elems.map (fun n => (heap n).rprimCollection))) := by
    cases hE : (s.bucketsMap (some context).isSome).isEmpty with
    | true =>
      refine ⟨_, RenderBatches_of_isEmpty Hash heap s (some context) _ _ _ hE, ?_⟩
      have hnil : (s.bucketsMap true).entries = [] := List.isEmpty_iff.mp hE
      rw [hnil]
      rfl
    | false =>
      exact ⟨_, RenderBatches_of_not_isEmpty Hash heap s (some context) _ _ _ hE hindex, rfl⟩
  obtain ⟨r, hr, hri⟩ := hitems
  have hkeys : ((s.bucketsMap true).entries.map
      (fun e => (e.2.1, e.2.2.elems.map (fun n => (heap n).rprimCollection)))).map
        (fun item => Hash item.1) = (s.bucketsMap true).entries.map Prod.fst := by
    rw [List.map_map]
    exact List.map_congr_left (fun e he => hkey e he)
  have hmemkeys : ∀ k, k ∈ (s.bucketsMap true).entries.map Prod.fst ↔
      ∃ a ∈ as, Hash a.renderParams = k := by
    intro k
    constructor
    · intro hk
      obtain ⟨e, he, rfl⟩ := List.mem_map.mp hk
      obtain ⟨n, hn⟩ := List.exists_mem_of_ne_nil _ (I3 e he)
      obtain ⟨a, ha, -, ha2⟩ := (I1 e.1 n).mp ((inBucket_iff _ _ _).mpr ⟨e.2, hentry e he, hn⟩)
      exact ⟨a, ha, ha2⟩
    · rintro ⟨a, ha, rfl⟩
      obtain ⟨b, hb⟩ := hfind a ha
      exact List.mem_map.mpr ⟨_, (UnorderedMap.find_eq_some_iff _ _ _).mp hb, rfl⟩
  have hitem : ∀ e ∈ (s.bucketsMap true).entries,
      (e.2.2.elems.map (fun n => (heap n).rprimCollection)).Perm
        ((as.filter (fun a => decide (Hash a.renderParams = Hash e.2.1))).map
          (fun a => a.rprimCollection)) := by
    intro e he
    have hp := bucket_perm_of_inBucket (s.bucketsMap true) as hnd
      (fun a => decide (Hash a.renderParams = Hash e.2.1)) e.1 e.2 (hentry e he)
      (fun n => by rw [I1, hkey e he]; simp)
    have := hp.map (fun n => (heap n).rprimCollection)
    rwa [collections_of_addrs heap as _ hheap (fun a ha => List.mem_of_mem_filter ha)] at this
  refine ⟨s, r, hs, hr, ?_, ?_, ?_, ?_⟩
  · rw [hri, hkeys]
    refine (List.perm_ext_iff_of_nodup (s.bucketsMap true).nodupKeys (List.nodup_dedup _)).mpr
      (fun k => ?_)
    rw [hmemkeys, List.mem_dedup, List.mem_map]
  · intro item hitemmem
    rw [hri] at hitemmem
    obtain ⟨e, he, rfl⟩ := List.mem_map.mp hitemmem
    exact ⟨(I2 e.1 e.2 (hentry e he)).2, hitem e he⟩
  · intro hinj
    constructor
    · rw [hri]
      have hnd1 : (((s.bucketsMap true).entries.map
          (fun e => (e.2.1, e.2.2.elems.map (fun n => (heap n).rprimCollection)))).map
            (fun item => item.1)).Nodup := by
        refine List.Nodup.of_map Hash ?_
        rw [List.map_map]
        have := hkeys
        rw [List.map_map] at this ⊢
        rw [show (Hash ∘ (fun item : _RenderItem => item.1)) ∘
            (fun e : Nat × _ShapeAdapterBucket =>
              (e.2.1, e.2.2.elems.map (fun n => (heap n).rprimCollection)))
          = (fun item : _RenderItem => Hash item.1) ∘
            (fun e : Nat × _ShapeAdapterBucket =>
              (e.2.1, e.2.2.elems.map (fun n => (heap n).rprimCollection))) from rfl, this]
        exact (s.bucketsMap true).nodupKeys
      refine (List.perm_ext_iff_of_nodup hnd1 (List.nodup_dedup _)).mpr (fun p => ?_)
      rw [List.mem_dedup, List.map_map]
      simp only [List.mem_map, Function.comp]
      constructor
      · rintro ⟨e, he, rfl⟩
        exact (I2 e.1 e.2 (hentry e he)).2
      · rintro ⟨a, ha, rfl⟩
        obtain ⟨b, hb⟩ := hfind a ha
        obtain ⟨h1, c, hc, hc1⟩ := I2 _ b hb
        refine ⟨_, (UnorderedMap.find_eq_some_iff _ _ _).mp hb, ?_⟩
        show b.1 = a.renderParams
        rw [← hc1]
        exact hinj c hc a ha (by rw [hc1]; exact h1)
    · intro item hitemmem
      rw [hri] at hitemmem
      obtain ⟨e, he, rfl⟩ := List.mem_map.mp hitemmem
      obtain ⟨c, hc, hc1⟩ := (I2 e.1 e.2 (hentry e he)).2
      have hcongr : as.filter (fun a => decide (a.renderParams = e.2.1))
          = as.filter (fun a => decide (Hash a.renderParams = Hash e.2.1)) := by
        refine List.filter_congr (fun a ha => ?_)
        refine decide_eq_decide.mpr ⟨fun h => by rw [h], fun h => ?_⟩
        rw [← hc1] at h ⊢
        exact hinj a ha c hc h
      show (e.2.2.elems.map (fun n => (heap n).rprimCollection)).Perm _
      rw [hcongr]
      exact hitem e he
  · intro b hb hshared
    obtain ⟨a, ha, hab, hhash⟩ := hshared
    have hb2 : b.isViewport2 = true := hvp b hb
    have post := (RemoveShapeAdapter_post s b).2.1
    rw [hb2] at post
    have hin : inBucket ((s.RemoveShapeAdapter (some b)).2.bucketsMap true)
        (Hash b.renderParams) a.addr = true := by
      rw [post, (I1 _ _).mpr ⟨a, ha, rfl, hhash⟩]
      simp [hab]
    obtain ⟨bucket, hbucket, -⟩ := (inBucket_iff _ _ _).mp hin
    refine ⟨bucket, hbucket, ?_⟩
    refine bucket_perm_of_inBucket _ as hnd _ (Hash b.renderParams) bucket hbucket
      (fun n => ?_)
    rw [post]
    simp only [Bool.and_eq_true, decide_eq_true_eq, I1]
    constructor
    · rintro ⟨⟨c, hc, hc1, hc2⟩, hn⟩
      exact ⟨c, hc, hc1, hc2, by rw [hc1]; exact hn⟩
    · rintro ⟨c, hc, hc1, hc2, hn⟩
      exact ⟨⟨c, hc, hc1, hc2⟩, by rw [← hc1]; exact hn⟩

end UsdMayaGLBatchRenderer

namespace UsdMayaGLBatchRenderer

/-- C15 (amended) on `A`, `B` and `C`, whose hashes are 0, 0 and 1: two work items; after `B`
is removed the bucket of the hash 0 holds `A` alone. -/
theorem C15_end_to_end_grouping_witness :
    (∀ a ∈ [Example.A, Example.B, Example.C], a.isViewport2 = true) ∧
      ([Example.A, Example.B, Example.C].map (fun a => a.addr)).Nodup ∧
      (∀ a ∈ [Example.A, Example.B, Example.C], Example.heap a.addr = a) ∧
      (∃ s r, Example.fresh.calls Example.Hash
          ([Example.A, Example.B, Example.C].map RegistryCall.Add) = some s ∧
        _RenderBatches Example.Hash Example.heap s (some Example.context) [] [] [] = some r ∧
        ((submittedItems r.2).map (fun item => Example.Hash item.1)).Perm [0, 1]) ∧
      ((Example.afterABC.RemoveShapeAdapter (some Example.B)).2._shapeAdapterBuckets.find 0).map
        (fun bucket => bucket.2.elems) = some [Example.A.addr] := by
  obtain ⟨s, r, h1, h2, h3, -⟩ := C15_end_to_end_grouping Example.Hash Example.heap false
    false Example.context [] [] [] [Example.A, Example.B, Example.C] (by decide)
    (by decide) (by decide)
  exact ⟨by decide, by decide, by decide, ⟨s, r, h1, h2, h3⟩, by decide⟩

end UsdMayaGLBatchRenderer
namespace UsdMayaGLBatchRenderer

theorem foldl_last (g : Nat → Bool) (l : List Nat) (init : Bool) :
    l.foldl (fun _ x => g x) init = (l.getLast?.map g).getD init := by
  induction l generalizing init with
  | nil => rfl
  | cons a l ih =>
    rw [List.foldl_cons, ih]
    cases l with
    | nil => rfl
    | cons b l =>
      rw [List.getLast?_cons_cons]
      cases h : (b :: l).getLast? with
      | none => simp at h
      | some x => rfl

theorem collections_inner (heap : Nat → PxrMayaHdShapeAdapter) (useDepthSelection : Bool)
    (elems : List Nat) (locals : Bool × List HdRprimCollection) :
    elems.foldl
        (fun (locals : Bool × List HdRprimCollection) shapeAdapter =>
          let isViewport2 := (heap shapeAdapter).isViewport2
          if !useDepthSelection then (isViewport2, locals.2)
          else (isViewport2, locals.2 ++ [(heap shapeAdapter).rprimCollection]))
        locals
      = (elems.foldl (fun _ x => (heap x).isViewport2) locals.1,
          if useDepthSelection then
            locals.2 ++ elems.map (fun x => (heap x).rprimCollection)
          else locals.2) := by
  induction elems generalizing locals with
  | nil => cases useDepthSelection <;> simp
  | cons a l ih =>
    rw [List.foldl_cons, ih]
    cases useDepthSelection <;> simp

theorem collections_outer (heap : Nat → PxrMayaHdShapeAdapter) (useDepthSelection : Bool)
    (entries : List (Nat × _ShapeAdapterBucket)) (locals : Bool × List HdRprimCollection) :
    entries.foldl
        (fun (locals : Bool × List HdRprimCollection) iter =>
          iter.2.2.elems.foldl
            (fun (locals : Bool × List HdRprimCollection) shapeAdapter =>
              let isViewport2 := (heap shapeAdapter).isViewport2
              if !useDepthSelection then (isViewport2, locals.2)
              else (isViewport2, locals.2 ++ [(heap shapeAdapter).rprimCollection]))
            locals)
        locals
      = ((entries.flatMap (fun e => e.2.2.elems)).foldl (fun _ x => (heap x).isViewport2)
            locals.1,
          if useDepthSelection then
            locals.2 ++ (entries.flatMap (fun e => e.2.2.elems)).map
              (fun x => (heap x).rprimCollection)
          else locals.2) := by
  induction entries generalizing locals with
  | nil => cases useDepthSelection <;> simp
  | cons e l ih =>
    rw [List.foldl_cons, collections_inner, ih]
    cases useDepthSelection <;> simp [List.flatMap_cons, List.foldl_append]

/-- The collections of `_GetIntersectionRprimCollections` in closed form. -/
theorem GetIntersectionRprimCollections_eq (self : UsdMayaGLBatchRenderer)
    (heap : Nat → PxrMayaHdShapeAdapter) (bucketsMap : _ShapeAdapterBucketsMap)
    (useDepthSelection : Bool) :
    self._GetIntersectionRprimCollections heap bucketsMap useDepthSelection
      = if bucketsMap.isEmpty then []
        else if useDepthSelection then
          (registeredAdapters bucketsMap).map (fun x => (heap x).rprimCollection)
        else if (((registeredAdapters bucketsMap).getLast?.map
            (fun x => (heap x).isViewport2)).getD true) then [self._viewport2RprimCollection]
        else [self._legacyViewportRprimCollection] := by
  unfold _GetIntersectionRprimCollections
  by_cases hE : bucketsMap.isEmpty = true
  · simp [hE]
  · simp only [hE, if_false, collections_outer, foldl_last, registeredAdapters]
    cases useDepthSelection <;> simp

/-- The call of `_intersector->Query` that `_TestIntersection` makes: one, of the collection
with its render tags, whatever comes of it. -/
theorem TestIntersection_queries (self : UsdMayaGLBatchRenderer)
    (intersector : HdxIntersector) (c : HdRprimCollection) (qparams : HdxIntersectorParams)
    (singleSelection : Bool) (out : HitSet) :
    (self._TestIntersection intersector c qparams singleSelection out).2.2
      = [({ qparams with renderTags := c.renderTags }, c)] := by
  unfold _TestIntersection
  simp only
  split
  · rfl
  · split
    · split <;> rfl
    · split <;> rfl

theorem intersectCollections_queries (self : UsdMayaGLBatchRenderer)
    (intersector : HdxIntersector) (qparams : HdxIntersectorParams) (singleSelection : Bool)
    (l : List HdRprimCollection)
    (locals : UnorderedMap SdfPath HitSet × List IntersectionQuery) :
    (intersectCollections self intersector qparams singleSelection l locals).2
      = locals.2 ++ l.map (fun c => ({ qparams with renderTags := c.renderTags }, c)) := by
  induction l generalizing locals with
  | nil => simp [intersectCollections]
  | cons c l ih =>
    simp only [intersectCollections, TestIntersection_queries]
    split <;> rw [ih] <;> simp

/-- The queries of `_ComputeSelection`: one for each collection of
`_GetIntersectionRprimCollections`, in order, whether or not the queries before it
succeeded. -/
theorem ComputeSelection_queries (self : UsdMayaGLBatchRenderer)
    (intersector : HdxIntersector) (heap : Nat → PxrMayaHdShapeAdapter) (depth : Bool)
    (bucketsMap : _ShapeAdapterBucketsMap) (viewMatrix projectionMatrix : GfMatrix4d)
    (singleSelection : Bool) :
    (self._ComputeSelection intersector heap depth bucketsMap viewMatrix projectionMatrix
        singleSelection).2
      = (self._GetIntersectionRprimCollections heap bucketsMap
          (!singleSelection && depth)).map
        (fun c => (⟨viewMatrix, projectionMatrix, 1, c.renderTags⟩, c)) := by
  simp only [_ComputeSelection, intersectCollections_queries, List.nil_append]

/-- The collections of the queries of `_ComputeSelection` are those of
`_GetIntersectionRprimCollections`. -/
theorem ComputeSelection_collections (self : UsdMayaGLBatchRenderer)
    (intersector : HdxIntersector) (heap : Nat → PxrMayaHdShapeAdapter) (depth : Bool)
    (bucketsMap : _ShapeAdapterBucketsMap) (viewMatrix projectionMatrix : GfMatrix4d)
    (singleSelection : Bool) :
    (self._ComputeSelection intersector heap depth bucketsMap viewMatrix projectionMatrix
        singleSelection).2.map Prod.snd
      = self._GetIntersectionRprimCollections heap bucketsMap (!singleSelection && depth) := by
  rw [ComputeSelection_queries, List.map_map]
  exact List.map_id _

end UsdMayaGLBatchRenderer

namespace UsdMayaGLBatchRenderer

/-- C21: when `singleSelection` is true or the depth selection setting is off, the calls of
`_intersector->Query` that `_ComputeSelection` makes are those of the collections of
`_GetIntersectionRprimCollections`: none for an empty bucket map and exactly one for a bucket
map that is not empty, of one of the two whole-viewport collections, the Viewport 2.0 one when
the shape adapters of the buckets are Viewport 2.0 shape adapters, the legacy one when there is
a shape adapter and the shape adapters are legacy ones. -/
theorem C21_aggregation_condition (self : UsdMayaGLBatchRenderer)
    (intersector : HdxIntersector)
    (heap : Nat → PxrMayaHdShapeAdapter) (depth : Bool) (bucketsMap : _ShapeAdapterBucketsMap)
    (viewMatrix projectionMatrix : GfMatrix4d) (singleSelection : Bool)
    (h : singleSelection = true ∨ depth = false) :
    (self._ComputeSelection intersector heap depth bucketsMap viewMatrix projectionMatrix
        singleSelection).2.map Prod.snd
      = self._GetIntersectionRprimCollections heap bucketsMap (!singleSelection && depth) ∧
    (bucketsMap.isEmpty = true →
      (self._ComputeSelection intersector heap depth bucketsMap viewMatrix projectionMatrix
        singleSelection).2 = []) ∧
    (bucketsMap.isEmpty = false →
      (∃ c, (self._ComputeSelection intersector heap depth bucketsMap viewMatrix
            projectionMatrix singleSelection).2.map Prod.snd = [c] ∧
        (c = self._viewport2RprimCollection ∨ c = self._legacyViewportRprimCollection)) ∧
      ((∀ x ∈ registeredAdapters bucketsMap, (heap x).isViewport2 = true) →
        (self._ComputeSelection intersector heap depth bucketsMap viewMatrix projectionMatrix
          singleSelection).2.map Prod.snd = [self._viewport2RprimCollection]) ∧
      ((∀ x ∈ registeredAdapters bucketsMap, (heap x).isViewport2 = false) →
        registeredAdapters bucketsMap ≠ [] →
        (self._ComputeSelection intersector heap depth bucketsMap viewMatrix projectionMatrix
          singleSelection).2.map Prod.snd = [self._legacyViewportRprimCollection])) := by
  have hd : (!singleSelection && depth) = false := by
    rcases h with h | h <;> simp [h]
  refine ⟨ComputeSelection_collections self intersector heap depth bucketsMap viewMatrix
    projectionMatrix singleSelection, fun hE => ?_, fun hE => ?_⟩
  · rw [ComputeSelection_queries, hd, GetIntersectionRprimCollections_eq, if_pos hE]
    rfl
  · rw [ComputeSelection_collections, hd, GetIntersectionRprimCollections_eq]
    simp only [hE, Bool.false_eq_true, if_false]
    refine ⟨?_, fun hall => ?_, fun hall hne => ?_⟩
    · split
      · exact ⟨_, rfl, Or.inl rfl⟩
      · exact ⟨_, rfl, Or.inr rfl⟩
    · cases hl : (registeredAdapters bucketsMap).getLast? with
      | none => simp
      | some x =>
        have := hall x (List.mem_of_getLast?_eq_some hl)
        simp [this]
    · cases hl : (registeredAdapters bucketsMap).getLast? with
      | none => exact absurd (List.getLast?_eq_none_iff.mp hl) hne
      | some x =>
        have := hall x (List.mem_of_getLast?_eq_some hl)
        simp [this]

/-- C21 on the Viewport 2.0 shape adapters `A`, `B`, `C`: a single selection queries the
Viewport 2.0 collection of the batch renderer and nothing else. -/
theorem C21_aggregation_condition_witness :
    ((true = true ∨ true = false) ∧
      Example.afterABC._shapeAdapterBuckets.isEmpty = false ∧
      ∀ x ∈ registeredAdapters Example.afterABC._shapeAdapterBuckets,
        (Example.heap x).isViewport2 = true) ∧
    (Example.afterABC._ComputeSelection Example.intersector Example.heap true
        Example.afterABC._shapeAdapterBuckets [] [] true).2.map Prod.snd
      = [Example.afterABC._viewport2RprimCollection] ∧
    Example.afterABC._viewport2RprimCollection
      = ⟨"MayaHdBatchRenderer_Viewport2", "refined",
          [["MayaHdBatchRenderer", "Viewport2"]], ["geometry", "proxy"]⟩ :=
  ⟨⟨Or.inl rfl, by decide, by decide⟩,
    ((C21_aggregation_condition Example.afterABC Example.intersector Example.heap true
      Example.afterABC._shapeAdapterBuckets [] [] true (Or.inl rfl)).2.2 (by decide)).2.1
      (by decide),
    by decide⟩

/-- C22 (as stated, refuted): a single selection is answered through the whole-viewport
collection.  With the shape adapters `A`, `B`, `C` in the buckets and the depth selection
setting on, `_ComputeSelection` with `singleSelection = true` makes one query, of the
Viewport 2.0 collection of the batch renderer, where the collections of the three shape adapters
are others; with `singleSelection = false` it queries these three. -/
theorem C22_single_pick_queries_aggregate :
    (Example.afterABC._ComputeSelection Example.intersector Example.heap true
        Example.afterABC._shapeAdapterBuckets [] [] true).2.map Prod.snd
      = [Example.afterABC._viewport2RprimCollection] ∧
    (Example.afterABC._ComputeSelection Example.intersector Example.heap true
        Example.afterABC._shapeAdapterBuckets [] [] false).2.map Prod.snd
      = [Example.C.rprimCollection, Example.B.rprimCollection, Example.A.rprimCollection] ∧
    Example.afterABC._viewport2RprimCollection
      ∉ [Example.C.rprimCollection, Example.B.rprimCollection, Example.A.rprimCollection] := by
  refine ⟨by decide, by decide, by decide⟩

/-- C22 (amended): for every bucket map and every value of the depth selection setting,
`_ComputeSelection` with `singleSelection = true` queries no collection when the bucket map is
empty and else exactly one, which is one of the two whole-viewport collections; the collections
of the shape adapters, one per shape adapter of the buckets, are what is queried when
`singleSelection` is false and the depth selection setting is on, and with `singleSelection`
false and the setting off the queries are those of a single selection. -/
theorem C22_single_pick_uses_aggregate (self : UsdMayaGLBatchRenderer)
    (intersector : HdxIntersector)
    (heap : Nat → PxrMayaHdShapeAdapter) (depth : Bool) (bucketsMap : _ShapeAdapterBucketsMap)
    (viewMatrix projectionMatrix : GfMatrix4d) :
    (bucketsMap.isEmpty = true →
      (self._ComputeSelection intersector heap depth bucketsMap viewMatrix projectionMatrix
        true).2 = []) ∧
    (bucketsMap.isEmpty = false →
      ∃ c, (self._ComputeSelection intersector heap depth bucketsMap viewMatrix
          projectionMatrix true).2.map Prod.snd = [c] ∧
        (c = self._viewport2RprimCollection ∨ c = self._legacyViewportRprimCollection)) ∧
    (bucketsMap.isEmpty = false →
      (self._ComputeSelection intersector heap true bucketsMap viewMatrix projectionMatrix
          false).2.map Prod.snd
        = (registeredAdapters bucketsMap).map (fun x => (heap x).rprimCollection)) ∧
    (self._ComputeSelection intersector heap false bucketsMap viewMatrix projectionMatrix
        false).2
      = (self._ComputeSelection intersector heap false bucketsMap viewMatrix projectionMatrix
          true).2 := by
  refine ⟨fun hE => ?_, fun hE => ?_, fun hE => ?_, ?_⟩
  · rw [ComputeSelection_queries, GetIntersectionRprimCollections_eq, if_pos hE]
    rfl
  · rw [ComputeSelection_collections, GetIntersectionRprimCollections_eq]
    simp only [hE, Bool.false_eq_true, if_false, Bool.not_true, Bool.false_and]
    split
    · exact ⟨_, rfl, Or.inl rfl⟩
    · exact ⟨_, rfl, Or.inr rfl⟩
  · rw [ComputeSelection_collections, GetIntersectionRprimCollections_eq]
    simp [hE]
  · rw [ComputeSelection_queries, ComputeSelection_queries]
    simp

/-- C22 (amended) on the shape adapters `A`, `B`, `C`. -/
theorem C22_single_pick_uses_aggregate_witness :
    Example.afterABC._shapeAdapterBuckets.isEmpty = false ∧
      ∃ c, (Example.afterABC._ComputeSelection Example.intersector Example.heap true
          Example.afterABC._shapeAdapterBuckets [] [] true).2.map Prod.snd = [c] ∧
        (c = Example.afterABC._viewport2RprimCollection ∨
          c = Example.afterABC._legacyViewportRprimCollection) :=
  ⟨by decide,
    (C22_single_pick_uses_aggregate Example.afterABC Example.intersector Example.heap true
      Example.afterABC._shapeAdapterBuckets [] []).2.1 (by decide)⟩

/-- C23 (as stated, refuted): with depth selection in use `_ComputeSelection` queries the
collection of each shape adapter, not one collection per bucket: with `A` and `B` in one bucket
and `C` in another there are two buckets and three queries.  And without depth selection there
is no query at all when the bucket map is empty. -/
theorem C23_queries_per_adapter_not_bucket :
    (Example.afterABC._shapeAdapterBuckets.size = 2 ∧
      (Example.afterABC._ComputeSelection Example.intersector Example.heap true
        Example.afterABC._shapeAdapterBuckets [] [] false).2.length = 3) ∧
    (Example.fresh._ComputeSelection Example.intersector Example.heap true
      Example.fresh._shapeAdapterBuckets [] [] true).2.length = 0 := by
  refine ⟨⟨by decide, by decide⟩, by decide⟩

/-- C23 (amended): for every bucket map, with depth selection in use (`singleSelection` false
and the depth selection setting on) `_ComputeSelection` makes exactly one query per shape
adapter of the buckets, so as many queries as there are shape adapters in the buckets, which is
the number of buckets when every bucket holds one shape adapter; otherwise it makes exactly one
query when the bucket map is not empty and none when it is empty. -/
theorem C23_query_count (self : UsdMayaGLBatchRenderer) (intersector : HdxIntersector)
    (heap : Nat → PxrMayaHdShapeAdapter) (depth : Bool) (bucketsMap : _ShapeAdapterBucketsMap)
    (viewMatrix projectionMatrix : GfMatrix4d) (singleSelection : Bool) :
    ((singleSelection = false ∧ depth = true) →
      (self._ComputeSelection intersector heap depth bucketsMap viewMatrix projectionMatrix
          singleSelection).2.map Prod.snd
        = (registeredAdapters bucketsMap).map (fun x => (heap x).rprimCollection) ∧
      (self._ComputeSelection intersector heap depth bucketsMap viewMatrix projectionMatrix
          singleSelection).2.length = (registeredAdapters bucketsMap).length ∧
      ((∀ e ∈ bucketsMap.entries, e.2.2.size = 1) →
        (self._ComputeSelection intersector heap depth bucketsMap viewMatrix projectionMatrix
          singleSelection).2.length = bucketsMap.size)) ∧
    (¬ (singleSelection = false ∧ depth = true) →
      (self._ComputeSelection intersector heap depth bucketsMap viewMatrix projectionMatrix
          singleSelection).2.length = if bucketsMap.isEmpty then 0 else 1) := by
  have hlen : (self._ComputeSelection intersector heap depth bucketsMap viewMatrix
      projectionMatrix singleSelection).2.length
      = (self._GetIntersectionRprimCollections heap bucketsMap
          (!singleSelection && depth)).length := by
    rw [← ComputeSelection_collections self intersector heap depth bucketsMap viewMatrix
      projectionMatrix singleSelection, List.length_map]
  have hnil : bucketsMap.isEmpty = true → registeredAdapters bucketsMap = [] := by
    intro hE
    have : bucketsMap.entries = [] := List.isEmpty_iff.mp hE
    simp [registeredAdapters, this]
  have hcoll : (singleSelection = false ∧ depth = true) →
      self._GetIntersectionRprimCollections heap bucketsMap (!singleSelection && depth)
        = (registeredAdapters bucketsMap).map (fun x => (heap x).rprimCollection) := by
    rintro ⟨h1, h2⟩
    rw [GetIntersectionRprimCollections_eq, h1, h2]
    by_cases hE : bucketsMap.isEmpty = true
    · simp [hE, hnil hE]
    · simp [hE]
  refine ⟨fun h => ⟨?_, ?_, fun hone => ?_⟩, fun h => ?_⟩
  · rw [ComputeSelection_collections, hcoll h]
  · rw [hlen, hcoll h, List.length_map]
  · rw [hlen, hcoll h, List.length_map]
    simp only [registeredAdapters, UnorderedMap.size]
    generalize bucketsMap.entries = l at hone
    induction l with
    | nil => rfl
    | cons e l ih =>
      have h1 : e.2.2.elems.length = 1 := hone e (List.mem_cons_self _ _)
      rw [List.flatMap_cons, List.length_append, h1,
        ih (fun e he => hone e (List.mem_cons_of_mem _ he)), List.length_cons]
      omega
  · have hd : (!singleSelection && depth) = false := by
      cases singleSelection <;> cases depth <;> simp at h ⊢
    rw [hlen, hd, GetIntersectionRprimCollections_eq]
    by_cases hE : bucketsMap.isEmpty = true
    · simp [hE]
    · simp only [hE, if_false, Bool.false_eq_true]
      split <;> rfl

/-- C23 (amended) on the shape adapters `A`, `B`, `C`: three queries with depth selection. -/
theorem C23_query_count_witness :
    (false = false ∧ true = true) ∧
      (Example.afterABC._ComputeSelection Example.intersector Example.heap true
        Example.afterABC._shapeAdapterBuckets [] [] false).2.length
        = (registeredAdapters Example.afterABC._shapeAdapterBuckets).length ∧
      (registeredAdapters Example.afterABC._shapeAdapterBuckets).length = 3 :=
  ⟨⟨rfl, rfl⟩,
    ((C23_query_count Example.afterABC Example.intersector Example.heap true
      Example.afterABC._shapeAdapterBuckets [] [] false).1 ⟨rfl, rfl⟩).2.1,
    by decide⟩

end UsdMayaGLBatchRenderer
namespace UsdMayaGLBatchRenderer

theorem rendersOfPass_cons (c : DrawCall) (cs : List DrawCall) (f : Bool) (fs : List Bool)
    (p : String) :
    rendersOfPass (c :: cs) (f :: fs) p
      = (if c.context.passIdentifier = p ∧ f = true then 1 else 0) + rendersOfPass cs fs p := by
  unfold rendersOfPass
  rw [List.zip_cons_cons, List.filter_cons]
  by_cases h1 : c.context.passIdentifier = p <;> cases f <;> simp [h1, Nat.add_comm]

/-- A sequence of `Draw` calls has a result when its first call has one and the calls after it
have one. -/
theorem draws_cons (Hash : PxrMayaHdRenderParams → Nat) (heap : Nat → PxrMayaHdShapeAdapter)
    (api : Bool) (self : UsdMayaGLBatchRenderer) (c : DrawCall) (cs : List DrawCall)
    (r : DrawResult) (next : UsdMayaGLBatchRenderer × List Bool)
    (hr : Draw Hash heap self api c.context c.hdUserData = some r)
    (hnext : draws Hash heap api r.state cs = some next) :
    draws Hash heap api self (c :: cs) = some (next.1, r.submission.isSome :: next.2) := by
  simp only [draws, hr, hnext]

/-- A sequence of `Draw` calls that has a result: its first call has one, and so have the
calls after it. -/
theorem draws_cons_some (Hash : PxrMayaHdRenderParams → Nat)
    (heap : Nat → PxrMayaHdShapeAdapter) (api : Bool) (self : UsdMayaGLBatchRenderer)
    (c : DrawCall) (cs : List DrawCall) (res : UsdMayaGLBatchRenderer × List Bool)
    (h : draws Hash heap api self (c :: cs) = some res) :
    ∃ r next, Draw Hash heap self api c.context c.hdUserData = some r ∧
      draws Hash heap api r.state cs = some next ∧
      res = (next.1, r.submission.isSome :: next.2) := by
  simp only [draws] at h
  cases hr : Draw Hash heap self api c.context c.hdUserData with
  | none => rw [hr] at h; cases h
  | some r =>
    rw [hr] at h
    simp only at h
    cases hn : draws Hash heap api r.state cs with
    | none => rw [hn] at h; cases h
    | some next =>
      rw [hn] at h
      simp only [Option.some.injEq] at h
      exact ⟨r, next, rfl, hn, h.symm⟩

/-- The state and the submission of a render pass of Viewport 2.0 that has a result. -/
theorem RenderBatches_vp2 (Hash : PxrMayaHdRenderParams → Nat)
    (heap : Nat → PxrMayaHdShapeAdapter) (self : UsdMayaGLBatchRenderer)
    (context : MDrawContext) (worldToViewMatrix projectionMatrix : GfMatrix4d)
    (viewport : GfVec4d) (r : UsdMayaGLBatchRenderer × Option RenderSubmission)
    (hr : _RenderBatches Hash heap self (some context) worldToViewMatrix projectionMatrix
      viewport = some r) :
    r.1 = (if self._shapeAdapterBuckets.isEmpty then self
        else { self with _selectResults := UnorderedMap.empty, _softSelectHelper := false }) ∧
    r.2.isSome = !self._shapeAdapterBuckets.isEmpty := by
  cases h : self._shapeAdapterBuckets.isEmpty with
  | true =>
    rw [RenderBatches_of_isEmpty Hash heap self (some context) _ _ _ h,
      Option.some.injEq] at hr
    subst hr
    exact ⟨rfl, rfl⟩
  | false =>
    cases hi : self._renderIndex with
    | false =>
      rw [RenderBatches_of_no_renderIndex Hash heap self (some context) _ _ _ h hi] at hr
      cases hr
    | true =>
      rw [RenderBatches_of_not_isEmpty Hash heap self (some context) _ _ _ h hi,
        Option.some.injEq] at hr
      subst hr
      simp [hi]

/-- With a render index a render pass of Viewport 2.0 has a result. -/
theorem RenderBatches_vp2_some (Hash : PxrMayaHdRenderParams → Nat)
    (heap : Nat → PxrMayaHdShapeAdapter) (self : UsdMayaGLBatchRenderer)
    (context : MDrawContext) (worldToViewMatrix projectionMatrix : GfMatrix4d)
    (viewport : GfVec4d) (hindex : self._renderIndex = true) :
    ∃ r, _RenderBatches Hash heap self (some context) worldToViewMatrix projectionMatrix
      viewport = some r := by
  cases h : (self.bucketsMap (some context).isSome).isEmpty with
  | true => exact ⟨_, RenderBatches_of_isEmpty Hash heap self (some context) _ _ _ h⟩
  | false =>
    exact ⟨_, RenderBatches_of_not_isEmpty Hash heap self (some context) _ _ _ h hindex⟩

/-- What a `Draw` call leaves of the state: the bucket map of Viewport 2.0, the render index,
and the stored render frame stamp unless it becomes the frame stamp of the call. -/
theorem Draw_frame (Hash : PxrMayaHdRenderParams → Nat) (heap : Nat → PxrMayaHdShapeAdapter)
    (self : UsdMayaGLBatchRenderer) (api : Bool) (context : MDrawContext)
    (hdUserData : Option PxrMayaHdUserData) (r : DrawResult)
    (hr : Draw Hash heap self api context hdUserData = some r) :
    r.state._shapeAdapterBuckets = self._shapeAdapterBuckets ∧
      r.state._renderIndex = self._renderIndex ∧
      (r.state._lastRenderFrameStamp = self._lastRenderFrameStamp ∨
        r.state._lastRenderFrameStamp = context.frameStamp) := by
  by_cases hp : context.passIdentifier ∈ self._drawnMayaRenderPasses.elems
  · obtain ⟨bb, hD⟩ := Draw_of_drawn Hash heap self api context hdUserData hp
    rw [hD, Option.some.injEq] at hr
    subst hr
    exact ⟨rfl, rfl, Or.inl rfl⟩
  · cases api with
    | false =>
      simp only [Draw, Bool.not_false, if_true, Option.some.injEq] at hr
      subst hr
      exact ⟨rfl, rfl, Or.inl rfl⟩
    | true =>
      cases hdUserData with
      | none =>
        simp only [Draw, Bool.not_true, Bool.false_eq_true, if_false,
          Option.some.injEq] at hr
        subst hr
        exact ⟨rfl, rfl, Or.inl rfl⟩
      | some userData =>
        rw [Draw_of_new Hash heap self context userData hp] at hr
        split at hr
        · obtain ⟨rb, hrb, hr2⟩ := Option.map_eq_some'.mp hr
          subst hr2
          have h1 := (RenderBatches_vp2 Hash heap _ context _ _ _ rb hrb).1
          show rb.1._shapeAdapterBuckets = _ ∧ rb.1._renderIndex = _ ∧
            (rb.1._lastRenderFrameStamp = _ ∨ rb.1._lastRenderFrameStamp = _)
          rw [h1]
          split
          · exact ⟨rfl, rfl, Or.inr rfl⟩
          · exact ⟨rfl, rfl, Or.inr rfl⟩
        · rw [Option.some.injEq] at hr
          subst hr
          exact ⟨rfl, rfl, Or.inl rfl⟩

/-- With a render index a `Draw` call has a result. -/
theorem Draw_some (Hash : PxrMayaHdRenderParams → Nat) (heap : Nat → PxrMayaHdShapeAdapter)
    (self : UsdMayaGLBatchRenderer) (api : Bool) (context : MDrawContext)
    (hdUserData : Option PxrMayaHdUserData) (hindex : self._renderIndex = true) :
    ∃ r, Draw Hash heap self api context hdUserData = some r := by
  by_cases hp : context.passIdentifier ∈ self._drawnMayaRenderPasses.elems
  · obtain ⟨bb, hD⟩ := Draw_of_drawn Hash heap self api context hdUserData hp
    exact ⟨_, hD⟩
  · cases api with
    | false => exact ⟨_, rfl⟩
    | true =>
      cases hdUserData with
      | none => exact ⟨_, rfl⟩
      | some userData =>
        rw [Draw_of_new Hash heap self context userData hp]
        split
        · obtain ⟨rb, hrb⟩ := RenderBatches_vp2_some Hash heap
            { self with
              _drawnMayaRenderPasses :=
                self._drawnMayaRenderPasses.insert context.passIdentifier
              _lastRenderFrameStamp := context.frameStamp }
            context context.viewMatrix context.projectionMatrix context.viewport hindex
          rw [hrb]
          exact ⟨_, rfl⟩
        · exact ⟨_, rfl⟩

/-- With a render index a sequence of `Draw` calls has a result. -/
theorem draws_some (Hash : PxrMayaHdRenderParams → Nat) (heap : Nat → PxrMayaHdShapeAdapter)
    (api : Bool) (cs : List DrawCall) :
    ∀ self : UsdMayaGLBatchRenderer, self._renderIndex = true →
      ∃ res, draws Hash heap api self cs = some res := by
  induction cs with
  | nil => intro self _; exact ⟨_, rfl⟩
  | cons c cs ih =>
    intro self hindex
    obtain ⟨r, hr⟩ := Draw_some Hash heap self api c.context c.hdUserData hindex
    obtain ⟨next, hnext⟩ := ih r.state
      (by rw [(Draw_frame Hash heap self api c.context c.hdUserData r hr).2.1]; exact hindex)
    exact ⟨_, draws_cons Hash heap api self c cs r next hr hnext⟩

/-- No `Draw` call for a render pass that is in the set of drawn passes makes a batch
render. -/
theorem draws_of_drawn (Hash : PxrMayaHdRenderParams → Nat)
    (heap : Nat → PxrMayaHdShapeAdapter) (api : Bool) (p : String) (cs : List DrawCall) :
    ∀ (self : UsdMayaGLBatchRenderer) (res : UsdMayaGLBatchRenderer × List Bool),
      p ∈ self._drawnMayaRenderPasses.elems → draws Hash heap api self cs = some res →
      (∀ x ∈ cs.zip res.2, x.1.context.passIdentifier = p → x.2 = false) ∧
      rendersOfPass cs res.2 p = 0 := by
  induction cs with
  | nil =>
    intro self res _ h
    simp only [draws, Option.some.injEq] at h
    subst h
    exact ⟨fun x hx => (by cases hx), rfl⟩
  | cons c cs ih =>
    intro self res hp h
    obtain ⟨r, next, hr, hnext, rfl⟩ := draws_cons_some Hash heap api self c cs res h
    have hnx := ih r.state next
      ((Draw_flags Hash heap self api c.context c.hdUserData r hr).2 p hp) hnext
    have hsub : c.context.passIdentifier = p → r.submission.isSome = false := by
      intro hcp
      have hc : c.context.passIdentifier ∈ self._drawnMayaRenderPasses.elems := by
        rw [hcp]; exact hp
      obtain ⟨bb, hD⟩ := Draw_of_drawn Hash heap self api c.context c.hdUserData hc
      rw [hD, Option.some.injEq] at hr
      subst hr
      rfl
    rw [rendersOfPass_cons, hnx.2]
    refine ⟨fun x hx hxp => ?_, ?_⟩
    · rw [List.zip_cons_cons] at hx
      rcases List.mem_cons.mp hx with rfl | hx
      · exact hsub hxp
      · exact hnx.1 x hx hxp
    · by_cases hcp : c.context.passIdentifier = p
      · simp [hsub hcp]
      · simp [hcp]

/-- A `Draw` call that makes a batch render leaves its render pass in the set of drawn
passes. -/
theorem Draw_records (Hash : PxrMayaHdRenderParams → Nat) (heap : Nat → PxrMayaHdShapeAdapter)
    (self : UsdMayaGLBatchRenderer) (api : Bool) (context : MDrawContext)
    (hdUserData : Option PxrMayaHdUserData) (r : DrawResult)
    (hr : Draw Hash heap self api context hdUserData = some r)
    (h : r.submission.isSome = true) :
    context.passIdentifier ∉ self._drawnMayaRenderPasses.elems ∧
      context.passIdentifier ∈ r.state._drawnMayaRenderPasses.elems := by
  by_cases hp : context.passIdentifier ∈ self._drawnMayaRenderPasses.elems
  · obtain ⟨bb, hD⟩ := Draw_of_drawn Hash heap self api context hdUserData hp
    rw [hD, Option.some.injEq] at hr
    subst hr
    cases h
  · refine ⟨hp, ?_⟩
    cases api with
    | false =>
      simp only [Draw, Bool.not_false, if_true, Option.some.injEq] at hr
      subst hr
      cases h
    | true =>
      cases hdUserData with
      | none =>
        simp only [Draw, Bool.not_true, Bool.false_eq_true, if_false,
          Option.some.injEq] at hr
        subst hr
        cases h
      | some userData =>
        rw [Draw_of_new Hash heap self context userData hp] at hr
        split at hr
        · obtain ⟨rb, hrb, hr2⟩ := Option.map_eq_some'.mp hr
          subst hr2
          show context.passIdentifier ∈ rb.1._drawnMayaRenderPasses.elems
          rw [(RenderBatches_flags_vp2 Hash heap _ context _ _ _ rb hrb).2]
          exact (UnorderedSet.mem_insert _ _ _).mpr (Or.inl rfl)
        · rw [Option.some.injEq] at hr
          subst hr
          exact (UnorderedSet.mem_insert _ _ _).mpr (Or.inl rfl)

/-- For each render pass at most one `Draw` call of a sequence makes a batch render. -/
theorem draws_at_most_once (Hash : PxrMayaHdRenderParams → Nat)
    (heap : Nat → PxrMayaHdShapeAdapter) (api : Bool) (p : String) (cs : List DrawCall) :
    ∀ (self : UsdMayaGLBatchRenderer) (res : UsdMayaGLBatchRenderer × List Bool),
      draws Hash heap api self cs = some res → rendersOfPass cs res.2 p ≤ 1 := by
  induction cs with
  | nil =>
    intro self res h
    simp only [draws, Option.some.injEq] at h
    subst h
    exact Nat.zero_le _
  | cons c cs ih =>
    intro self res h
    obtain ⟨r, next, hr, hnext, rfl⟩ := draws_cons_some Hash heap api self c cs res h
    rw [rendersOfPass_cons]
    by_cases hc : c.context.passIdentifier = p ∧ r.submission.isSome = true
    · have hrec := (Draw_records Hash heap self api c.context c.hdUserData r hr hc.2).2
      rw [hc.1] at hrec
      rw [if_pos hc, (draws_of_drawn Hash heap api p cs _ next hrec hnext).2]
    · rw [if_neg hc, Nat.zero_add]
      exact ih _ next hnext

end UsdMayaGLBatchRenderer

namespace UsdMayaGLBatchRenderer

/-- The `Draw` call of a render pass that was not drawn, for a shape that is drawn, with a new
frame stamp, a render index and a bucket map of Viewport 2.0 that is not empty: the batch
render is made. -/
theorem Draw_of_render (Hash : PxrMayaHdRenderParams → Nat)
    (heap : Nat → PxrMayaHdShapeAdapter) (self : UsdMayaGLBatchRenderer)
    (context : MDrawContext) (userData : PxrMayaHdUserData)
    (hp : context.passIdentifier ∉ self._drawnMayaRenderPasses.elems)
    (hdraw : userData.drawShape = true)
    (hstamp : self._lastRenderFrameStamp ≠ context.frameStamp)
    (hne : self._shapeAdapterBuckets.isEmpty = false) (hindex : self._renderIndex = true) :
    ∃ r, Draw Hash heap self true context (some userData) = some r ∧
      r.submission.isSome = true ∧
      r.state._drawnMayaRenderPasses
        = self._drawnMayaRenderPasses.insert context.passIdentifier ∧
      r.state._lastRenderFrameStamp = context.frameStamp ∧
      r.state._shapeAdapterBuckets = self._shapeAdapterBuckets ∧
      r.state._renderIndex = true := by
  rw [Draw_of_new Hash heap self context userData hp, if_pos ⟨hdraw, hstamp⟩]
  obtain ⟨rb, hrb⟩ := RenderBatches_vp2_some Hash heap
    { self with
      _drawnMayaRenderPasses := self._drawnMayaRenderPasses.insert context.passIdentifier
      _lastRenderFrameStamp := context.frameStamp }
    context context.viewMatrix context.projectionMatrix context.viewport hindex
  obtain ⟨h1, h2⟩ := RenderBatches_vp2 Hash heap _ context _ _ _ rb hrb
  have hne' : ({ self with
      _drawnMayaRenderPasses := self._drawnMayaRenderPasses.insert context.passIdentifier
      _lastRenderFrameStamp := context.frameStamp } :
        UsdMayaGLBatchRenderer)._shapeAdapterBuckets.isEmpty = false := hne
  rw [hne'] at h1 h2
  simp only [Bool.false_eq_true, if_false, Bool.not_false] at h1 h2
  rw [hrb]
  refine ⟨_, rfl, h2, ?_, ?_, ?_, ?_⟩
  · show rb.1._drawnMayaRenderPasses = _
    rw [h1]
  · show rb.1._lastRenderFrameStamp = _
    rw [h1]
  · show rb.1._shapeAdapterBuckets = _
    rw [h1]
  · show rb.1._renderIndex = _
    rw [h1]
    exact hindex

/-- With a render index, frame stamps that differ from each other and from the stored one,
shapes that are drawn and a bucket map of Viewport 2.0 that is not empty, each render pass that
occurs and was not drawn before gets exactly one batch render. -/
theorem draws_exactly_once (Hash : PxrMayaHdRenderParams → Nat)
    (heap : Nat → PxrMayaHdShapeAdapter) (p : String) (cs : List DrawCall) :
    ∀ self : UsdMayaGLBatchRenderer,
      (∀ c ∈ cs, ∃ u, c.hdUserData = some u ∧ u.drawShape = true) →
      self._shapeAdapterBuckets.isEmpty = false →
      self._renderIndex = true →
      (self._lastRenderFrameStamp :: cs.map (fun c => c.context.frameStamp)).Nodup →
      p ∉ self._drawnMayaRenderPasses.elems →
      (∃ c ∈ cs, c.context.passIdentifier = p) →
      ∃ res, draws Hash heap true self cs = some res ∧ rendersOfPass cs res.2 p = 1 := by
  induction cs with
  | nil =>
    intro self _ _ _ _ _ hex
    obtain ⟨c, hc, -⟩ := hex
    cases hc
  | cons c cs ih =>
    intro self hud hne hindex hnd hp hex
    obtain ⟨u, hu, hdraw⟩ := hud c (List.mem_cons_self _ _)
    have hud2 : ∀ c ∈ cs, ∃ u, c.hdUserData = some u ∧ u.drawShape = true :=
      fun d hd => hud d (List.mem_cons_of_mem _ hd)
    rw [List.map_cons] at hnd
    have hstamp : self._lastRenderFrameStamp ≠ c.context.frameStamp := by
      intro h
      exact (List.nodup_cons.mp hnd).1 (by rw [h]; exact List.mem_cons_self _ _)
    have hnd1 : (self._lastRenderFrameStamp :: cs.map (fun c => c.context.frameStamp)).Nodup :=
      hnd.sublist (List.Sublist.cons₂ _ (List.sublist_cons_self _ _))
    have hnd2 : (c.context.frameStamp :: cs.map (fun c => c.context.frameStamp)).Nodup :=
      (List.nodup_cons.mp hnd).2
    by_cases hdrawn : c.context.passIdentifier ∈ self._drawnMayaRenderPasses.elems
    · -- the pass of the call was drawn before: nothing happens
      have hcp : c.context.passIdentifier ≠ p := fun h => hp (h ▸ hdrawn)
      obtain ⟨bb, hD⟩ := Draw_of_drawn Hash heap self true c.context c.hdUserData hdrawn
      have hex2 : ∃ d ∈ cs, d.context.passIdentifier = p := by
        obtain ⟨d, hd, hdp⟩ := hex
        rcases List.mem_cons.mp hd with rfl | hd
        · exact absurd hdp hcp
        · exact ⟨d, hd, hdp⟩
      obtain ⟨next, hnext, hcount⟩ := ih self hud2 hne hindex hnd1 hp hex2
      refine ⟨_, draws_cons Hash heap true self c cs _ next hD hnext, ?_⟩
      rw [rendersOfPass_cons]
      simp only [hcp, false_and, if_false, Nat.zero_add]
      exact hcount
    · -- a new pass: the batch render is made
      obtain ⟨r, hr, hsub, hpasses, hframe, hbuckets, hidx⟩ :=
        Draw_of_render Hash heap self c.context u hdrawn hdraw hstamp hne hindex
      rw [← hu] at hr
      by_cases hcp : c.context.passIdentifier = p
      · have hin : p ∈ r.state._drawnMayaRenderPasses.elems := by
          rw [hpasses]
          exact (UnorderedSet.mem_insert _ _ _).mpr (Or.inl hcp.symm)
        obtain ⟨next, hnext⟩ := draws_some Hash heap true cs r.state hidx
        refine ⟨_, draws_cons Hash heap true self c cs r next hr hnext, ?_⟩
        rw [rendersOfPass_cons, if_pos ⟨hcp, hsub⟩,
          (draws_of_drawn Hash heap true p cs _ next hin hnext).2]
      · have hex2 : ∃ d ∈ cs, d.context.passIdentifier = p := by
          obtain ⟨d, hd, hdp⟩ := hex
          rcases List.mem_cons.mp hd with rfl | hd
          · exact absurd hdp hcp
          · exact ⟨d, hd, hdp⟩
        obtain ⟨next, hnext, hcount⟩ := ih r.state hud2 (by rw [hbuckets]; exact hne) hidx
          (by rw [hframe]; exact hnd2)
          (by
            rw [hpasses]
            intro hin
            rcases (UnorderedSet.mem_insert _ _ _).mp hin with h | h
            · exact hcp h.symm
            · exact hp h)
          hex2
        refine ⟨_, draws_cons Hash heap true self c cs r next hr hnext, ?_⟩
        rw [rendersOfPass_cons, if_neg (fun h => hcp h.1), Nat.zero_add]
        exact hcount

end UsdMayaGLBatchRenderer
namespace UsdMayaGLBatchRenderer

theorem MayaRenderDidEnd_render_frame (self : UsdMayaGLBatchRenderer) :
    self._MayaRenderDidEnd._shapeAdapterBuckets = self._shapeAdapterBuckets ∧
      self._MayaRenderDidEnd._lastRenderFrameStamp = self._lastRenderFrameStamp ∧
      self._MayaRenderDidEnd._renderIndex = self._renderIndex := by
  cases h : self._legacySelectionPending <;>
    simp [_MayaRenderDidEnd, _UpdateLegacySelectionPending, h]

/-- C24: of the `Draw` calls of Viewport 2.0 made one after the other, from any state and so
between two ends of render, at most one per render pass makes a batch render.  With a renderer
that draws with OpenGL, a render index and a bucket map that is not empty, a call for a shape
that is drawn makes the batch render exactly when its render pass is not in the set of drawn
passes and its frame stamp is not the stored render frame stamp.  So after the end of a render
each render pass the calls come with gets exactly one batch render when the frame stamps of the
calls differ from each other and from the stored one; the call of a pass that comes with the
stored frame stamp makes none, and the pass is recorded as drawn. -/
theorem C24_once_per_pass (Hash : PxrMayaHdRenderParams → Nat)
    (heap : Nat → PxrMayaHdShapeAdapter) (self : UsdMayaGLBatchRenderer)
    (cs : List DrawCall) :
    (∀ (api : Bool) (p : String) (res : UsdMayaGLBatchRenderer × List Bool),
      (draws Hash heap api self cs = some res → rendersOfPass cs res.2 p ≤ 1) ∧
      (draws Hash heap api self._MayaRenderDidEnd cs = some res →
        rendersOfPass cs res.2 p ≤ 1)) ∧
    (∀ (context : MDrawContext) (userData : PxrMayaHdUserData),
      userData.drawShape = true → self._shapeAdapterBuckets.isEmpty = false →
      self._renderIndex = true →
      ∃ r, Draw Hash heap self true context (some userData) = some r ∧
        (r.submission.isSome = true ↔
          context.passIdentifier ∉ self._drawnMayaRenderPasses.elems ∧
            context.frameStamp ≠ self._lastRenderFrameStamp) ∧
        context.passIdentifier ∈ r.state._drawnMayaRenderPasses.elems) ∧
    (∀ p : String,
      (∀ c ∈ cs, ∃ u, c.hdUserData = some u ∧ u.drawShape = true) →
      self._shapeAdapterBuckets.isEmpty = false →
      self._renderIndex = true →
      (self._lastRenderFrameStamp :: cs.map (fun c => c.context.frameStamp)).Nodup →
      (∃ c ∈ cs, c.context.passIdentifier = p) →
      ∃ res, draws Hash heap true self._MayaRenderDidEnd cs = some res ∧
        rendersOfPass cs res.2 p = 1) := by
  refine ⟨fun api p res => ⟨draws_at_most_once Hash heap api p cs self res,
    draws_at_most_once Hash heap api p cs _ res⟩, fun context userData hd hne hindex => ?_,
    fun p hud hne hindex hnd hex => ?_⟩
  · by_cases hp : context.passIdentifier ∈ self._drawnMayaRenderPasses.elems
    · obtain ⟨bb, hD⟩ := Draw_of_drawn Hash heap self true context (some userData) hp
      refine ⟨_, hD, ?_, hp⟩
      simp [hp]
    · by_cases hf : self._lastRenderFrameStamp = context.frameStamp
      · rw [Draw_of_new Hash heap self context userData hp, if_neg (fun h => h.2 hf)]
        refine ⟨_, rfl, ?_, (UnorderedSet.mem_insert _ _ _).mpr (Or.inl rfl)⟩
        simp [hf]
      · obtain ⟨r, hr, hsub, hpasses, -⟩ :=
          Draw_of_render Hash heap self context userData hp hd hf hne hindex
        refine ⟨r, hr, ?_, ?_⟩
        · simp only [hsub, true_iff]
          exact ⟨hp, fun h => hf h.symm⟩
        · rw [hpasses]
          exact (UnorderedSet.mem_insert _ _ _).mpr (Or.inl rfl)
  · obtain ⟨e1, e2, e3⟩ := MayaRenderDidEnd_render_frame self
    refine draws_exactly_once Hash heap p cs _ hud (by rw [e1]; exact hne)
      (by rw [e3]; exact hindex) (by rw [e2]; exact hnd) ?_ hex
    rw [(MayaRenderDidEnd_flags self).2]
    intro h
    cases h

/-- C24 on the state after `A`, `B`, `C` were added and a render ended: two passes with the
frame stamps 7 and 8 get one batch render each; of two passes with the same frame stamp 7, the
pass `colorPass` gets a batch render and the pass `shadowPass` after it gets none. -/
theorem C24_once_per_pass_witness :
    ((∀ c ∈ [(⟨Example.contextOfShadowPass, some Example.userData⟩ : DrawCall),
          ⟨Example.contextOfNextFrame, some Example.userData⟩],
        ∃ u, c.hdUserData = some u ∧ u.drawShape = true) ∧
      Example.afterABC._shapeAdapterBuckets.isEmpty = false ∧
      Example.afterABC._renderIndex = true ∧
      (Example.afterABC._lastRenderFrameStamp
        :: [(⟨Example.contextOfShadowPass, some Example.userData⟩ : DrawCall),
          ⟨Example.contextOfNextFrame, some Example.userData⟩].map
            (fun c => c.context.frameStamp)).Nodup) ∧
    (∃ res, draws Example.Hash Example.heap true Example.afterABC._MayaRenderDidEnd
        [⟨Example.contextOfShadowPass, some Example.userData⟩,
          ⟨Example.contextOfNextFrame, some Example.userData⟩] = some res ∧
      rendersOfPass
        [⟨Example.contextOfShadowPass, some Example.userData⟩,
          ⟨Example.contextOfNextFrame, some Example.userData⟩] res.2 "colorPass" = 1) ∧
    (Example.userData.drawShape = true ∧
      Example.context.frameStamp = Example.contextOfShadowPass.frameStamp ∧
      (draws Example.Hash Example.heap true Example.afterABC._MayaRenderDidEnd
        [⟨Example.context, some Example.userData⟩,
          ⟨Example.contextOfShadowPass, some Example.userData⟩]).map Prod.snd
        = some [true, false] ∧
      rendersOfPass
        [⟨Example.context, some Example.userData⟩,
          ⟨Example.contextOfShadowPass, some Example.userData⟩] [true, false]
        "shadowPass" = 0) :=
  ⟨⟨by decide, by decide, by decide, by decide⟩,
    (C24_once_per_pass Example.Hash Example.heap Example.afterABC
      [⟨Example.contextOfShadowPass, some Example.userData⟩,
        ⟨Example.contextOfNextFrame, some Example.userData⟩]).2.2 "colorPass" (by decide)
      (by decide) (by decide) (by decide) (by decide),
    by decide, by decide, by decide, by decide⟩

/-- C26 (as stated, refuted): the Viewport 2.0 `Draw` tests the renderer before everything
else.  With the shape adapters `A`, `B`, `C` in the buckets, a `Draw` call of the pass
`colorPass` for a bounding box (`drawShape = false`), made while there is no renderer that draws
with OpenGL, returns at once: the pass is not in the set of drawn passes after it, and a
further `Draw` call of the same pass, for a drawn shape with a new frame stamp and with OpenGL,
makes a batch render. -/
theorem C26_pass_not_recorded_without_opengl :
    Example.context.passIdentifier ∉ Example.afterABC._drawnMayaRenderPasses.elems ∧
    Example.userDataOfBoundingBox.drawShape = false ∧
    Draw Example.Hash Example.heap Example.afterABC false Example.context
      (some Example.userDataOfBoundingBox) = some ⟨Example.afterABC, false, none⟩ ∧
    Example.contextOfNextFrame.passIdentifier = Example.context.passIdentifier ∧
    (Draw Example.Hash Example.heap Example.afterABC true Example.contextOfNextFrame
      (some Example.userData)).map (fun r => r.submission.isSome) = some true := by
  refine ⟨by decide, by decide, by decide, by decide, by decide⟩

/-- C26 (amended): for every state, a `Draw` call of Viewport 2.0 made with a renderer that
draws with OpenGL, with a render pass that is not in the set of drawn passes and user data with
`drawShape = false`, returns, leaves the pass in the set of drawn passes and the stored render
frame stamp as it was, and makes no batch render; after it, as long as the pass is in the set
(the set is cleared by `_MayaRenderDidEnd` only), every `Draw` call with this pass returns
without a batch render and without a change of the state, whatever its user data and its frame
stamp.  A `Draw` call made without a renderer that draws with OpenGL returns at once and
records nothing. -/
theorem C26_pass_recorded_first (Hash : PxrMayaHdRenderParams → Nat)
    (heap : Nat → PxrMayaHdShapeAdapter) (self : UsdMayaGLBatchRenderer)
    (context : MDrawContext) (userData : PxrMayaHdUserData)
    (hnew : context.passIdentifier ∉ self._drawnMayaRenderPasses.elems)
    (hshape : userData.drawShape = false) :
    (∃ r, Draw Hash heap self true context (some userData) = some r ∧
      context.passIdentifier ∈ r.state._drawnMayaRenderPasses.elems ∧
      r.state._lastRenderFrameStamp = self._lastRenderFrameStamp ∧
      r.submission = none ∧
      (∀ (api : Bool) (cs : List DrawCall) (res : UsdMayaGLBatchRenderer × List Bool),
        draws Hash heap api r.state cs = some res →
        ∀ x ∈ cs.zip res.2, x.1.context.passIdentifier = context.passIdentifier →
          x.2 = false)) ∧
    (∀ (s : UsdMayaGLBatchRenderer) (api : Bool) (context2 : MDrawContext)
        (hdUserData : Option PxrMayaHdUserData),
      context.passIdentifier ∈ s._drawnMayaRenderPasses.elems →
      context2.passIdentifier = context.passIdentifier →
      ∃ renderedBoundingBox,
        Draw Hash heap s api context2 hdUserData = some ⟨s, renderedBoundingBox, none⟩) ∧
    (∀ hdUserData : Option PxrMayaHdUserData,
      Draw Hash heap self false context hdUserData = some ⟨self, false, none⟩) := by
  have hD := Draw_of_new Hash heap self context userData hnew
  rw [if_neg (by simp [hshape])] at hD
  have hin : context.passIdentifier
      ∈ (self._drawnMayaRenderPasses.insert context.passIdentifier).elems :=
    (UnorderedSet.mem_insert _ _ _).mpr (Or.inl rfl)
  refine ⟨⟨_, hD, hin, rfl, rfl, fun api cs res hres =>
      (draws_of_drawn Hash heap api context.passIdentifier cs _ res hin hres).1⟩,
    fun s api context2 hdUserData hs h2 =>
      Draw_of_drawn Hash heap s api context2 hdUserData (by rw [h2]; exact hs),
    fun hdUserData => rfl⟩

/-- C26 (amended) on the state after `A`, `B`, `C` were added: the bounding box of a shape is
drawn in the pass `colorPass`, and the call for a drawn shape in the same pass, with a new
frame stamp, makes no batch render. -/
theorem C26_pass_recorded_first_witness :
    Example.context.passIdentifier ∉ Example.afterABC._drawnMayaRenderPasses.elems ∧
      Example.userDataOfBoundingBox.drawShape = false ∧
      (draws Example.Hash Example.heap true Example.afterABC
        [⟨Example.context, some Example.userDataOfBoundingBox⟩,
          ⟨Example.contextOfNextFrame, some Example.userData⟩]).map Prod.snd
        = some [false, false] ∧
      ∃ r, Draw Example.Hash Example.heap Example.afterABC true Example.context
          (some Example.userDataOfBoundingBox) = some r ∧
        Example.context.passIdentifier ∈ r.state._drawnMayaRenderPasses.elems ∧
        r.state._lastRenderFrameStamp = Example.afterABC._lastRenderFrameStamp ∧
        r.submission = none := by
  obtain ⟨r, h1, h2, h3, h4, -⟩ :=
    (C26_pass_recorded_first Example.Hash Example.heap Example.afterABC Example.context
      Example.userDataOfBoundingBox (by decide) (by decide)).1
  exact ⟨by decide, by decide, by decide, r, h1, h2, h3, h4⟩

end UsdMayaGLBatchRenderer
namespace UsdMayaGLBatchRenderer

end UsdMayaGLBatchRenderer

namespace UsdMayaGLBatchRenderer

end UsdMayaGLBatchRenderer
namespace UsdMayaGLBatchRenderer

/-- The buckets left by `eraseFromBuckets` keep their render params. -/
theorem eraseFromBuckets_params (m : _ShapeAdapterBucketsMap) (x k : Nat)
    (b1 : _ShapeAdapterBucket) (h : (eraseFromBuckets m x).2.find k = some b1) :
    ∃ b, m.find k = some b ∧ b.1 = b1.1 := by
  rw [eraseFromBuckets_find] at h
  cases hm : m.find k with
  | none => rw [hm] at h; cases h
  | some b =>
    rw [hm, Option.some_bind] at h
    split at h
    · cases h
    · cases h
      exact ⟨b, rfl, rfl⟩

/-- Where the render params of a bucket after a call come from: the bucket was there before
the call with the same render params, or the call is the `AddShapeAdapter` that made it, with
the render params of its shape adapter. -/
theorem call_bucket_params (Hash : PxrMayaHdRenderParams → Nat) (s : UsdMayaGLBatchRenderer)
    (c : RegistryCall) (hne : ∀ w, NoEmptyBucket (s.bucketsMap w)) (t : UsdMayaGLBatchRenderer)
    (ht : s.call Hash c = some t) (w : Bool) (k : Nat) (b1 : _ShapeAdapterBucket)
    (hb : (t.bucketsMap w).find k = some b1) :
    (∃ b, (s.bucketsMap w).find k = some b ∧ b.1 = b1.1) ∨
      (∃ a, c = RegistryCall.Add a ∧ a.isViewport2 = w ∧ k = Hash a.renderParams ∧
        (s.bucketsMap w).find k = none ∧ b1.1 = a.renderParams) := by
  cases c with
  | Remove a =>
    simp only [call, Option.some.injEq] at ht
    rw [RemoveShapeAdapter_some] at ht
    subst ht
    simp only [bucketsMap_setHandleMap, bucketsMap_setBucketsMap] at hb
    by_cases hw : w = a.isViewport2
    · rw [if_pos hw] at hb
      subst hw
      exact Or.inl (eraseFromBuckets_params _ _ _ _ hb)
    · rw [if_neg hw] at hb
      exact Or.inl ⟨b1, hb, rfl⟩
  | Add a =>
    simp only [call] at ht
    have hcases : ∀ u, s.AddShapeAdapter Hash (some a) = some (true, u) →
        ∀ v : _ShapeAdapterBucket,
        u.bucketsMap w = (if w = a.isViewport2 then
            (eraseFromBuckets (s.bucketsMap a.isViewport2) a.addr).2.set
              (Hash a.renderParams) v
          else s.bucketsMap w) →
        ((s.bucketsMap a.isViewport2).find (Hash a.renderParams) = none ∧ v.1 = a.renderParams
          ∨ ∃ b, (s.bucketsMap a.isViewport2).find (Hash a.renderParams) = some b ∧
            v.1 = b.1) →
        (u.bucketsMap w).find k = some b1 →
        (∃ b, (s.bucketsMap w).find k = some b ∧ b.1 = b1.1) ∨
          (∃ a0, RegistryCall.Add a = RegistryCall.Add a0 ∧ a0.isViewport2 = w ∧
            k = Hash a0.renderParams ∧ (s.bucketsMap w).find k = none ∧
            b1.1 = a0.renderParams) := by
      intro u _ v hu hv hfind
      rw [hu] at hfind
      by_cases hw : w = a.isViewport2
      · rw [if_pos hw, UnorderedMap.find_set] at hfind
        subst hw
        by_cases hk : k = Hash a.renderParams
        · rw [if_pos hk] at hfind
          cases hfind
          rcases hv with ⟨h1, h2⟩ | ⟨b, h1, h2⟩
          · exact Or.inr ⟨a, rfl, rfl, hk, by rw [hk]; exact h1, h2⟩
          · exact Or.inl ⟨b, by rw [hk]; exact h1, h2.symm⟩
        · rw [if_neg hk] at hfind
          exact Or.inl (eraseFromBuckets_params _ _ _ _ hfind)
      · rw [if_neg hw] at hfind
        exact Or.inl ⟨b1, hfind, rfl⟩
    cases hf : (s.bucketsMap a.isViewport2).find (Hash a.renderParams) with
    | none =>
      have hadd := AddShapeAdapter_of_find_none Hash s a hf
      rw [hadd] at ht
      simp only [Option.map_some', Option.some.injEq] at ht
      subst ht
      refine hcases _ hadd (a.renderParams, UnorderedSet.singleton a.addr) ?_
        (Or.inl ⟨hf, rfl⟩) hb
      simp only [bucketsMap_setHandleMap, bucketsMap_setBucketsMap]
    | some b =>
      by_cases hmem : a.addr ∈ b.2.elems
      · rw [AddShapeAdapter_of_mem Hash s a b hf hmem] at ht
        simp only [Option.map_some', Option.some.injEq] at ht
        subst ht
        exact Or.inl ⟨b1, hb, rfl⟩
      · have hbne : b.2.elems ≠ [] := (noEmptyBucket_iff _).mp (hne a.isViewport2) _ b hf
        have hadd := AddShapeAdapter_of_not_mem Hash s a b hf hmem hbne
        rw [hadd] at ht
        simp only [Option.map_some', Option.some.injEq] at ht
        subst ht
        refine hcases _ hadd (b.1, b.2.insert a.addr) ?_ (Or.inr ⟨b, hf, rfl⟩) hb
        simp only [bucketsMap_setHandleMap, bucketsMap_setBucketsMap]

/-- In a reachable state the key of every bucket is the hash of its render params. -/
theorem reachable_key_hash (Hash : PxrMayaHdRenderParams → Nat) (s : UsdMayaGLBatchRenderer)
    (hs : Reachable Hash s) :
    ∀ w k b, (s.bucketsMap w).find k = some b → Hash b.1 = k := by
  refine reachable_induction Hash
    (fun s => ∀ w k b, (s.bucketsMap w).find k = some b → Hash b.1 = k) ?_ ?_ s hs
  · intro x y z w k b hb
    rw [new_bucketsMap, UnorderedMap.find_empty] at hb
    cases hb
  · intro s c t ih hne ht w k b1 hb
    rcases call_bucket_params Hash s c hne t ht w k b1 hb with ⟨b, hb0, hb1⟩ | ⟨a, -, -, hk, -, hp⟩
    · rw [← hb1]
      exact ih w k b hb0
    · rw [hp, hk]

end UsdMayaGLBatchRenderer

namespace UsdMayaGLBatchRenderer

/-- Every bucket of a reachable state was made by an `AddShapeAdapter` call of the sequence:
before the call the map had no bucket under the key, after the call and after each later call
it has one, with the render params of the shape adapter of that call. -/
theorem bucket_creator (Hash : PxrMayaHdRenderParams → Nat) (x y z : Bool)
    (cs : List RegistryCall) :
    ∀ s, (new x y z).calls Hash cs = some s →
    ∀ w k b, (s.bucketsMap w).find k = some b →
    ∃ cs1 a cs2 t, cs = cs1 ++ RegistryCall.Add a :: cs2 ∧
      (new x y z).calls Hash cs1 = some t ∧ (t.bucketsMap w).find k = none ∧
      a.isViewport2 = w ∧ Hash a.renderParams = k ∧ b.1 = a.renderParams ∧
      ∀ n, n ≤ cs2.length →
        ∃ u bu, (new x y z).calls Hash (cs1 ++ RegistryCall.Add a :: cs2.take n) = some u ∧
          (u.bucketsMap w).find k = some bu ∧ bu.1 = a.renderParams := by
  induction cs using List.reverseRecOn with
  | nil =>
    intro s hs w k b hb
    simp only [calls, Option.some.injEq] at hs
    rw [← hs, new_bucketsMap, UnorderedMap.find_empty] at hb
    cases hb
  | append_singleton l c ih =>
    intro s hs w k b hb
    have hs0 := hs
    rw [calls_snoc] at hs
    cases ht : (new x y z).calls Hash l with
    | none => rw [ht] at hs; cases hs
    | some t0 =>
      rw [ht, Option.some_bind] at hs
      have hne := reachable_noEmpty Hash t0 ⟨x, y, z, l, ht⟩
      rcases call_bucket_params Hash t0 c hne s hs w k b hb with
        ⟨b0, hb0, hb1⟩ | ⟨a, hc, hw, hk, hnone, hp⟩
      · obtain ⟨cs1, a, cs2, t, hl, hcs1, hnone, hw, hk, hp, hall⟩ := ih t0 ht w k b0 hb0
        refine ⟨cs1, a, cs2 ++ [c], t, ?_, hcs1, hnone, hw, hk, by rw [← hb1]; exact hp,
          fun n hn => ?_⟩
        · rw [hl, List.append_assoc, List.cons_append]
        · by_cases hle : n ≤ cs2.length
          · rw [List.take_append_of_le_length hle]
            exact hall n hle
          · have hn2 : n = (cs2 ++ [c]).length := by
              rw [List.length_append, List.length_singleton] at hn ⊢
              omega
            rw [hn2, List.take_length]
            refine ⟨s, b, ?_, hb, by rw [← hb1]; exact hp⟩
            rw [← hs0, hl, List.append_assoc, List.cons_append]
      · subst hc
        refine ⟨l, a, [], t0, rfl, ht, hnone, hw, hk.symm, hp, fun n hn => ?_⟩
        have hn0 : n = 0 := Nat.le_zero.mp hn
        subst hn0
        exact ⟨s, b, hs0, hb, hp⟩

/-- C27: in every state reachable from a freshly constructed batch renderer by calls of
`AddShapeAdapter` and `RemoveShapeAdapter` the key of every bucket is the hash of the render
params stored in the bucket, and these are the render params of the shape adapter whose
`AddShapeAdapter` call made the bucket: the map had no bucket under the key before that call
and has had one, with these render params, after it and after every later call.  An
`AddShapeAdapter` call that finds a bucket under the hash of its shape adapter leaves the
render params of the bucket as they are. -/
theorem C27_bucket_key_consistency (Hash : PxrMayaHdRenderParams → Nat)
    (s : UsdMayaGLBatchRenderer) (hs : Reachable Hash s) :
    (∀ w k b, (s.bucketsMap w).find k = some b → Hash b.1 = k) ∧
    (∀ (x y z : Bool) (cs : List RegistryCall), (new x y z).calls Hash cs = some s →
      ∀ w k b, (s.bucketsMap w).find k = some b →
      ∃ cs1 a cs2 t, cs = cs1 ++ RegistryCall.Add a :: cs2 ∧
        (new x y z).calls Hash cs1 = some t ∧ (t.bucketsMap w).find k = none ∧
        a.isViewport2 = w ∧ Hash a.renderParams = k ∧ b.1 = a.renderParams ∧
        ∀ n, n ≤ cs2.length →
          ∃ u bu, (new x y z).calls Hash (cs1 ++ RegistryCall.Add a :: cs2.take n) = some u ∧
            (u.bucketsMap w).find k = some bu ∧ bu.1 = a.renderParams) ∧
    (∀ (a : PxrMayaHdShapeAdapter) (b : _ShapeAdapterBucket),
      (s.bucketsMap a.isViewport2).find (Hash a.renderParams) = some b →
      ∃ r t b1, s.AddShapeAdapter Hash (some a) = some (r, t) ∧
        (t.bucketsMap a.isViewport2).find (Hash a.renderParams) = some b1 ∧ b1.1 = b.1) := by
  refine ⟨reachable_key_hash Hash s hs, fun x y z cs hcs => bucket_creator Hash x y z cs s hcs,
    fun a b hb => ?_⟩
  have hne := reachable_noEmpty Hash s hs
  obtain ⟨r, t, hadd, hr, -, htrue, -, -⟩ := AddShapeAdapter_post Hash s a
    (fun b0 hb0 => (noEmptyBucket_iff _).mp (hne a.isViewport2) _ b0 hb0)
  have hin : inBucket (t.bucketsMap a.isViewport2) (Hash a.renderParams) a.addr = true := by
    cases r with
    | false =>
      have : t = s := by
        have h2 := AddShapeAdapter_post Hash s a
          (fun b0 hb0 => (noEmptyBucket_iff _).mp (hne a.isViewport2) _ b0 hb0)
        obtain ⟨r2, t2, hadd2, -, hsame, -⟩ := h2
        rw [hadd] at hadd2
        cases hadd2
        exact hsame rfl
      rw [this]
      exact hr.mp rfl
    | true =>
      rw [(htrue rfl).1]
      simp
  obtain ⟨b1, hb1, -⟩ := (inBucket_iff _ _ _).mp hin
  refine ⟨r, t, b1, hadd, hb1, ?_⟩
  have hcall : s.call Hash (RegistryCall.Add a) = some t := by
    simp [call, hadd]
  rcases call_bucket_params Hash s (RegistryCall.Add a) hne t hcall a.isViewport2
    (Hash a.renderParams) b1 hb1 with ⟨b0, hb0, hb01⟩ | ⟨a0, hc, -, -, hnone, -⟩
  · rw [hb] at hb0
    cases hb0
    exact hb01.symm
  · rw [hb] at hnone
    cases hnone

/-- C27 on the state after `A` and `B` were added, whose render params differ and have the
hash 0: the bucket of the key 0 holds the render params of `A`, which made it. -/
theorem C27_bucket_key_consistency_witness :
    Reachable Example.Hash Example.afterAB ∧
      (∀ w k b, (Example.afterAB.bucketsMap w).find k = some b → Example.Hash b.1 = k) ∧
      (Example.afterAB._shapeAdapterBuckets.find 0).map (fun b => b.1)
        = some Example.A.renderParams ∧
      Example.B.renderParams ≠ Example.A.renderParams :=
  ⟨⟨false, true, false, [RegistryCall.Add Example.A, RegistryCall.Add Example.B], by decide⟩,
    (C27_bucket_key_consistency Example.Hash Example.afterAB
      ⟨false, true, false, [RegistryCall.Add Example.A, RegistryCall.Add Example.B],
        by decide⟩).1,
    by decide, by decide⟩

end UsdMayaGLBatchRenderer

namespace UnorderedMap

variable {K V : Type} [DecidableEq K]

theorem find_emplace_of_none (m : UnorderedMap K V) (k k1 : K) (v : V) (h : m.find k = none) :
    (m.emplace k v).1.find k1 = if k1 = k then some v else m.find k1 := by
  have hk : k ∉ m.entries.map Prod.fst := (find_eq_none_iff m k).mp h
  unfold emplace
  rw [dif_neg hk]
  unfold find
  rw [List.find?_cons]
  by_cases h1 : k1 = k
  · subst h1
    simp
  · have : ¬ (k = k1) := fun e => h1 e.symm
    simp [h1, this]

end UnorderedMap

namespace usdWriteJob

theorem find?_take_some {α : Type} (f : α → Bool) (l : List α) (k : Nat) (p : α)
    (h : (l.take k).find? f = some p) : l.find? f = some p := by
  induction l generalizing k with
  | nil => simp at h
  | cons a l ih =>
    cases k with
    | zero => simp at h
    | succ k =>
      rw [List.take_succ_cons, List.find?_cons] at h
      rw [List.find?_cons]
      cases hf : f a with
      | true => rw [hf] at h; exact h
      | false => rw [hf] at h; exact ih k h

theorem find?_take_of_le {α : Type} (f : α → Bool) (l : List α) (k : Nat) (p q : α)
    (h : (l.take k).find? f = some q) (hp : l.find? f = some p) : q = p := by
  rw [find?_take_some f l k q h] at hp
  exact Option.some.inj hp

/-- The loop in closed form, when the array is long enough. -/
theorem scanInstances_eq (self : usdWriteJob) (allInstances : List MDagPath) (handle : Nat)
    (dg : MDagPath) (remaining : Nat) :
    ∀ i, i + remaining ≤ allInstances.length →
      scanInstances self allInstances handle dg i remaining
        = match ((allInstances.drop i).take remaining).find?
            (fun p => self.mMayaDagPathList.contains p) with
          | some currDag =>
            some (currDag,
              { self with mMasterDagMap := (self.mMasterDagMap.emplace handle currDag).1 })
          | none => some (dg, self) := by
  induction remaining with
  | zero => intro i _; simp [scanInstances]
  | succ remaining ih =>
    intro i hi
    have hlt : i < allInstances.length := by omega
    rw [scanInstances, List.getElem?_eq_getElem hlt, List.drop_eq_getElem_cons hlt,
      List.take_succ_cons, List.find?_cons]
    cases hc : self.mMayaDagPathList.contains allInstances[i] with
    | true => simp [hc]
    | false =>
      simp only [hc, Bool.false_eq_true, if_false]
      exact ih (i + 1) (by omega)

end usdWriteJob

namespace usdWriteJob

/-- One call of `getMayaMasterPath` on a job whose cache holds the lowest exported instances,
for a path whose instance number is an index of the array of instances of its node. -/
theorem getMayaMasterPath_spec (getAllPathsTo : Nat → List MDagPath) (self : usdWriteJob)
    (dg : MDagPath) (hinv : CacheHoldsLowest getAllPathsTo self)
    (hidx : dg.instanceNumber < (getAllPathsTo dg.node).length) :
    ∃ r next, getMayaMasterPath getAllPathsTo self dg = some (r, next) ∧
      next.mMayaDagPathList = self.mMayaDagPathList ∧
      CacheHoldsLowest getAllPathsTo next ∧
      (dg.instanceNumber = 0 → r = dg) ∧
      (0 < dg.instanceNumber →
        ∀ p, lowestExported self.mMayaDagPathList (getAllPathsTo dg.node) dg.instanceNumber
          = some p → r = p) ∧
      (0 < dg.instanceNumber →
        lowestExported self.mMayaDagPathList (getAllPathsTo dg.node) dg.instanceNumber
          = none →
        (self.mMasterDagMap.find dg.node = none → r = dg) ∧
        ∀ p, self.mMasterDagMap.find dg.node = some p → r = p) := by
  unfold getMayaMasterPath
  by_cases h0 : dg.instanceNumber = 0
  · refine ⟨dg, self, by simp [h0], rfl, hinv, fun _ => rfl, fun h => ?_, fun h => ?_⟩
    · omega
    · omega
  · simp only [h0, if_false]
    cases hc : self.mMasterDagMap.find dg.node with
    | some it =>
      refine ⟨it, self, rfl, rfl, hinv, fun h => h.elim, fun _ p hp => ?_,
        fun _ _ => ⟨fun h => (by cases h), fun p hp => Option.some.inj hp⟩⟩
      exact (find?_take_of_le _ _ _ it p hp (hinv dg.node it hc)).symm
    | none =>
      simp only []
      rw [scanInstances_eq self (getAllPathsTo dg.node) dg.node dg dg.instanceNumber.succ 0
        (by omega), List.drop_zero]
      cases hf : ((getAllPathsTo dg.node).take dg.instanceNumber.succ).find?
          (fun p => self.mMayaDagPathList.contains p) with
      | none =>
        refine ⟨dg, self, rfl, rfl, hinv, fun h => h.elim, fun _ p hp => ?_,
          fun _ _ => ⟨fun _ => rfl, fun p hp => (by cases hp)⟩⟩
        unfold lowestExported at hp
        rw [hf] at hp
        cases hp
      | some currDag =>
        refine ⟨currDag, _, rfl, rfl, ?_, fun h => h.elim, fun _ p hp => ?_,
          fun _ hnone => ?_⟩
        · intro node p hp
          simp only [] at hp
          rw [UnorderedMap.find_emplace_of_none _ _ _ _ hc] at hp
          by_cases hn : node = dg.node
          · rw [if_pos hn] at hp
            cases hp
            rw [hn]
            exact find?_take_some _ _ _ _ hf
          · rw [if_neg hn] at hp
            exact hinv node p hp
        · unfold lowestExported at hp
          rw [hf] at hp
          exact Option.some.inj hp
        · unfold lowestExported at hnone
          rw [hf] at hnone
          cases hnone

/-- Calls of `getMayaMasterPath` one after the other keep the list of exported paths and a
cache that holds the lowest exported instances. -/
theorem masterQueries_spec (getAllPathsTo : Nat → List MDagPath) (queries : List MDagPath) :
    ∀ self : usdWriteJob, CacheHoldsLowest getAllPathsTo self →
      (∀ q ∈ queries, q.instanceNumber < (getAllPathsTo q.node).length) →
      ∃ next, masterQueries getAllPathsTo self queries = some next ∧
        next.mMayaDagPathList = self.mMayaDagPathList ∧
        CacheHoldsLowest getAllPathsTo next := by
  induction queries with
  | nil => intro self hinv _; exact ⟨self, rfl, rfl, hinv⟩
  | cons q queries ih =>
    intro self hinv hidx
    obtain ⟨r, next, hr, hlist, hinv2, -⟩ := getMayaMasterPath_spec getAllPathsTo self q hinv
      (hidx q (List.mem_cons_self _ _))
    obtain ⟨last, hlast, hlist2, hinv3⟩ := ih next hinv2
      (fun d hd => hidx d (List.mem_cons_of_mem _ hd))
    refine ⟨last, ?_, by rw [hlist2, hlist], hinv3⟩
    simp only [masterQueries, hr, Option.some_bind]
    exact hlast

end usdWriteJob

namespace usdWriteJob

/-- C28 (as stated, refuted): the master cache is keyed by the node alone.  The node 1 has
the instances 0 to 3, of which 2 and 3 are exported.  Asked first, `getMayaMasterPath` of the
instance 1 returns the instance 1 (no instance up to 1 is exported) and `isMasterInstance` is
true; asked after a query for the instance 3, which caches the instance 2 for the node, it
returns the instance 2, whose number exceeds 1, and `isMasterInstance` is false. -/
theorem C28_master_depends_on_earlier_queries :
    lowestExported Example.job.mMayaDagPathList (Example.getAllPathsTo Example.i1.node)
      Example.i1.instanceNumber = none ∧
    (getMayaMasterPath Example.getAllPathsTo Example.job Example.i1).map Prod.fst
      = some Example.i1 ∧
    ((masterQueries Example.getAllPathsTo Example.job [Example.i3]).bind
      (fun job => getMayaMasterPath Example.getAllPathsTo job Example.i1)).map Prod.fst
      = some Example.i2 ∧
    ¬ Example.i2.instanceNumber ≤ Example.i1.instanceNumber ∧
    (isMasterInstance Example.getAllPathsTo Example.job Example.i1).map Prod.fst
      = some true ∧
    ((masterQueries Example.getAllPathsTo Example.job [Example.i3]).bind
      (fun job => isMasterInstance Example.getAllPathsTo job Example.i1)).map Prod.fst
      = some false := by
  refine ⟨by decide, by decide, by decide, by decide, by decide, by decide⟩

/-- C28 (amended): in a job that has answered any sequence of `getMayaMasterPath` queries since
its master cache was empty, `getMayaMasterPath` returns `dg` itself for a path `dg` with the
instance number 0, and for a path with an instance number `n > 0` the exported instance of the
same node with the lowest instance number not above `n` whenever there is one, as there is
when `dg` itself is exported; so `isMasterInstance` of an exported path does not depend on the
queries made before.  When no instance up to `n` is exported it returns `dg` itself if no
master of the node is cached, and the cached master otherwise. -/
theorem C28_master_path (getAllPathsTo : Nat → List MDagPath)
    (exported : UnorderedSet MDagPath) (queries : List MDagPath) (dg : MDagPath)
    (hqueries : ∀ q ∈ queries, q.instanceNumber < (getAllPathsTo q.node).length)
    (hdg : dg.instanceNumber < (getAllPathsTo dg.node).length) :
    ∃ job, masterQueries getAllPathsTo ⟨exported, UnorderedMap.empty⟩ queries = some job ∧
      ∃ r next, getMayaMasterPath getAllPathsTo job dg = some (r, next) ∧
        (dg.instanceNumber = 0 → r = dg) ∧
        (0 < dg.instanceNumber →
          ∀ p, lowestExported exported (getAllPathsTo dg.node) dg.instanceNumber = some p →
            r = p) ∧
        (0 < dg.instanceNumber →
          lowestExported exported (getAllPathsTo dg.node) dg.instanceNumber = none →
          (job.mMasterDagMap.find dg.node = none → r = dg) ∧
          ∀ p, job.mMasterDagMap.find dg.node = some p → r = p) ∧
        (exported.contains dg = true →
          (getAllPathsTo dg.node)[dg.instanceNumber]? = some dg →
          (∃ p, lowestExported exported (getAllPathsTo dg.node) dg.instanceNumber = some p) ∧
          (isMasterInstance getAllPathsTo job dg).map Prod.fst
            = some (decide (lowestExported exported (getAllPathsTo dg.node)
                dg.instanceNumber = some dg))) := by
  have hinv0 : CacheHoldsLowest getAllPathsTo ⟨exported, UnorderedMap.empty⟩ := by
    intro node p hp
    rw [UnorderedMap.find_empty] at hp
    cases hp
  obtain ⟨job, hjob, hlist, hinv⟩ := masterQueries_spec getAllPathsTo queries _ hinv0 hqueries
  obtain ⟨r, next, hr, -, -, h0, hpos, hnone⟩ := getMayaMasterPath_spec getAllPathsTo job dg
    hinv hdg
  have hlist2 : job.mMayaDagPathList = exported := hlist
  rw [hlist2] at hpos hnone
  refine ⟨job, hjob, r, next, hr, h0, hpos, hnone, fun hexp hat => ?_⟩
  have hmem : dg ∈ (getAllPathsTo dg.node).take (dg.instanceNumber + 1) := by
    have hget : ((getAllPathsTo dg.node).take (dg.instanceNumber + 1))[dg.instanceNumber]?
        = some dg := by
      rw [List.getElem?_take]
      simp [hat]
    exact List.getElem?_mem hget
  have hsome : ∃ p, lowestExported exported (getAllPathsTo dg.node) dg.instanceNumber
      = some p := by
    unfold lowestExported
    cases hf : ((getAllPathsTo dg.node).take (dg.instanceNumber + 1)).find?
        (fun p => exported.contains p) with
    | some p => exact ⟨p, rfl⟩
    | none =>
      have := List.find?_eq_none.mp hf dg hmem
      simp [hexp] at this
  refine ⟨hsome, ?_⟩
  obtain ⟨p, hp⟩ := hsome
  simp only [isMasterInstance, hr, Option.map_some', hp, Option.some.injEq]
  by_cases hz : dg.instanceNumber = 0
  · have hrdg := h0 hz
    have hpdg : p = dg := by
      unfold lowestExported at hp
      have htake : (getAllPathsTo dg.node).take (dg.instanceNumber + 1) = [dg] := by
        rw [hz] at hat ⊢
        cases hl : getAllPathsTo dg.node with
        | nil => rw [hl] at hat; cases hat
        | cons a l =>
          rw [hl] at hat
          simp only [List.getElem?_cons_zero, Option.some.injEq] at hat
          simp [hat]
      rw [htake] at hp
      simp [hexp] at hp
      exact hp.symm
    simp [hrdg, hpdg]
  · have : r = p := hpos (Nat.pos_of_ne_zero hz) p hp
    rw [this]

/-- C28 (amended) on the scene of the examples: the exported instance 3 of the node 1 has the
instance 2 for its master, before and after a query for the instance 1. -/
theorem C28_master_path_witness :
    (∀ q ∈ [Example.i1],
      q.instanceNumber < (Example.getAllPathsTo q.node).length) ∧
    Example.i3.instanceNumber < (Example.getAllPathsTo Example.i3.node).length ∧
    lowestExported Example.job.mMayaDagPathList (Example.getAllPathsTo Example.i3.node)
      Example.i3.instanceNumber = some Example.i2 ∧
    ∃ job, masterQueries Example.getAllPathsTo
        ⟨Example.job.mMayaDagPathList, UnorderedMap.empty⟩ [Example.i1] = some job ∧
      ∃ r next, getMayaMasterPath Example.getAllPathsTo job Example.i3 = some (r, next) ∧
        r = Example.i2 := by
  obtain ⟨job, hjob, r, next, hr, -, hpos, -⟩ := C28_master_path Example.getAllPathsTo
    Example.job.mMayaDagPathList [Example.i1] Example.i3 (by decide) (by decide)
  exact ⟨by decide, by decide, by decide, job, hjob, r, next, hr,
    hpos (by decide) Example.i2 (by decide)⟩

end usdWriteJob

namespace HdBufferResource

theorem arrayAt_four (a b c d : TfToken) (n : Int) (h4 : n ≤ 4) :
    arrayAt [a, b, c, d] (n - 1) = none ↔ n ≤ 0 := by
  by_cases h : 0 ≤ n - 1
  · have h1 : 1 ≤ n := by omega
    interval_cases n <;> simp [arrayAt]
  · simp only [arrayAt, h, if_false, true_iff]
    omega

/-- C29: `GetGLTypeName` reads its table of names before the first element when the number of
components is 0 or negative: for `GL_FLOAT` with 0 components the index is -1, and the lookup
is outside the table exactly for `GL_FLOAT`, `GL_DOUBLE` and `GL_INT` with a number of
components of at most 0.  With 1 to 4 components these three types give the scalar and
vector names, 16 components of floats or doubles give `mat4` and `dmat4`, and more than 4
components of these types otherwise, and every type without a name, give `float`. -/
theorem C29_type_name_index_below_table :
    (GetGLTypeName GL_FLOAT 0 = none ∧
      arrayAt ["float", "vec2", "vec3", "vec4"] (0 - 1) = none ∧
      GetGLTypeName GL_INT (-3) = none) ∧
    (∀ t n : Int, GetGLTypeName t n = none ↔
      (t = GL_FLOAT ∨ t = GL_DOUBLE ∨ t = GL_INT) ∧ n ≤ 0) ∧
    ((List.range 4).map (fun i => GetGLTypeName GL_FLOAT (i + 1))
        = [some "float", some "vec2", some "vec3", some "vec4"] ∧
      (List.range 4).map (fun i => GetGLTypeName GL_DOUBLE (i + 1))
        = [some "double", some "dvec2", some "dvec3", some "dvec4"] ∧
      (List.range 4).map (fun i => GetGLTypeName GL_INT (i + 1))
        = [some "int", some "ivec2", some "ivec3", some "ivec4"] ∧
      GetGLTypeName GL_FLOAT 16 = some "mat4" ∧ GetGLTypeName GL_DOUBLE 16 = some "dmat4") ∧
    (∀ t n : Int,
      ¬ ((t = GL_FLOAT ∨ t = GL_DOUBLE) ∧ (n ≤ 4 ∨ n = 16)) → ¬ (t = GL_INT ∧ n ≤ 4) →
      t ≠ GL_SAMPLER_2D → t ≠ GL_SAMPLER_2D_ARRAY → t ≠ GL_INT_SAMPLER_BUFFER →
      t ≠ GL_INT_2_10_10_10_REV → t ≠ GL_BOOL → GetGLTypeName t n = some "float") := by
  refine ⟨⟨by decide, by decide, by decide⟩, fun t n => ?_,
    ⟨by decide, by decide, by decide, by decide, by decide⟩, fun t n h1 h2 h3 h4 h5 h6 h7 => ?_⟩
  · unfold GetGLTypeName
    by_cases hF : t = GL_FLOAT
    · simp only [hF, if_true, true_or, true_and]
      by_cases h4 : n ≤ 4
      · simp only [h4, if_true]
        exact arrayAt_four _ _ _ _ n h4
      · simp only [h4, if_false]
        constructor
        · intro h; split at h <;> cases h
        · intro h; omega
    · by_cases hD : t = GL_DOUBLE
      · have hDF : GL_DOUBLE ≠ GL_FLOAT := by decide
        simp only [hD, hDF, if_false, if_true, true_or, or_true, false_or, true_and]
        by_cases h4 : n ≤ 4
        · simp only [h4, if_true]
          exact arrayAt_four _ _ _ _ n h4
        · simp only [h4, if_false]
          constructor
          · intro h; split at h <;> cases h
          · intro h; omega
      · by_cases hI : t = GL_INT
        · have hIF : GL_INT ≠ GL_FLOAT := by decide
          have hID : GL_INT ≠ GL_DOUBLE := by decide
          simp only [hI, hIF, hID, if_false, if_true, or_true, false_or, true_and]
          by_cases h4 : n ≤ 4
          · simp only [h4, if_true]
            exact arrayAt_four _ _ _ _ n h4
          · simp only [h4, if_false]
            constructor
            · intro h; cases h
            · intro h; omega
        · simp only [hF, hD, hI, if_false, false_or, false_and, iff_false]
          intro h
          repeat (split at h; · cases h)
          cases h
  · unfold GetGLTypeName
    by_cases hF : t = GL_FLOAT
    · have h4 : ¬ n ≤ 4 := fun h => h1 ⟨Or.inl hF, Or.inl h⟩
      have h16 : ¬ n = 16 := fun h => h1 ⟨Or.inl hF, Or.inr h⟩
      simp only [hF, if_true, h4, h16, if_false]
    · by_cases hD : t = GL_DOUBLE
      · have hDF : GL_DOUBLE ≠ GL_FLOAT := by decide
        have h4 : ¬ n ≤ 4 := fun h => h1 ⟨Or.inr hD, Or.inl h⟩
        have h16 : ¬ n = 16 := fun h => h1 ⟨Or.inr hD, Or.inr h⟩
        simp only [hD, hDF, if_true, h4, h16, if_false]
      · by_cases hI : t = GL_INT
        · have hIF : GL_INT ≠ GL_FLOAT := by decide
          have hID : GL_INT ≠ GL_DOUBLE := by decide
          have h4 : ¬ n ≤ 4 := fun h => h2 ⟨hI, h⟩
          simp only [hI, hIF, hID, if_true, h4, if_false]
        · simp only [hF, hD, hI, h3, h4, h5, h6, h7, if_false]

end HdBufferResource

